import Mathlib

/-!
# NUMA page-migration monitor: queue, sampler, decider and page-move protocol

Shallow embedding of `xen/common/monitor.c` (migration queue: fill and drain;
`ibs_nmi_handler`; `decide_migration` and the engine-owner tokens;
`start_monitoring` and the criteria setter) and of the `BIGOS_MEMORY_MOVE` part
of `xen/common/memory.c` (fault-protection cell, `is_memory_moved_gfn`,
`__memory_move_steal`, `__memory_move_replace`, `memory_move`).

Conventions.
* `unsigned long` values are natural numbers below `2^64`, `unsigned int`
  values natural numbers below `2^32`; every arithmetic step that can wrap is
  written with an explicit `%`.
* `struct domain *` is `Option Nat`: `none` is `NULL`, `some k` a domain handle.
* `struct page_info *` is the frame-table entry of one machine frame, so a page
  is identified by its MFN; `NULL` is `none` of `Option page_info`.
* The build has `BIGOS_STATS`, `BIGOS_MEMORY_MOVE` and `CONFIG_X86` defined.
  The timing statistics (`NOW()` differences) and the per-CPU sampling counters
  are not modelled.
* Host routines whose code is outside the repository sources (allocator,
  physmap, hotlist engine) are not given a body: every call with an effect is
  recorded in a call log in program order, and every value the host returns is
  an input of the model, so that the theorems hold for all host behaviours.
* `ASSERT` compiles to nothing outside debug builds.  The assertions of
  `memory_move` and `__memory_move_replace` over the node argument and the host
  page state are not modelled; the four assertions over the fault-protection
  cell are evaluated and their conjunction is kept in the ghost field
  `asserts_held`, without changing the control flow.
* `BUG()` stops the hypervisor; `spin_lock` on a lock that is already held
  never returns in a sequential execution.  Both are explicit outcomes.
-/

namespace XenTokyo

/-! ## Constants of absent headers -/

/-- Modelled from the spec: the empty-slot marker `INVALID_MFN` of the absent
header `asm/mm.h` ("empty slot marked by MFN = INVALID"), the all-ones
`unsigned long`. -/
def INVALID_MFN : Nat := 2 ^ 64 - 1

/-- Modelled from the spec: the unbound-GFN marker `INVALID_GFN` of the absent
header `asm/mm.h` ("GFN (starts INVALID ...)"), the all-ones `unsigned long`. -/
def INVALID_GFN : Nat := 2 ^ 64 - 1

/-! ## monitor.c: data model -/

/-- The `struct migration_query` of monitor.c: one slot of the migration queue. -/
structure migration_query where
  mfn : Nat
  node : Nat
  gfn : Nat
  domain : Option Nat
  tries : Nat
deriving DecidableEq, Repr

/-- One element of `buffer->migrations[]` (`struct migration_buffer` of the absent
header `xen/migration.h`): the fields `pgid` and `node` that monitor.c reads.  A
migration buffer is the list of its `size` elements. -/
structure migration where
  pgid : Nat
  node : Nat
deriving DecidableEq, Repr

/-! ## memory.c: fault-protection cell -/

/-- The four statics of memory.c that make the fault-protection cell, and the
ghost flag recording that every cell `ASSERT` evaluated so far held. -/
structure moved_cell where
  memory_moved_spinlock : Bool
  memory_moved_waiter : Bool
  memory_moved_gfn : Nat
  memory_moved_domain : Option Nat
  asserts_held : Bool
deriving DecidableEq, Repr

/-- How a call ends: it returns a value, it reaches `BUG()`, or it spins for ever
on a lock that is held. -/
inductive outcome (α : Type) where
  | returned (v : α)
  | bug
  | blocked
deriving DecidableEq, Repr

/-- A frame-table entry (`struct page_info`), identified by its machine frame. -/
structure page_info where
  mfn : Nat
deriving DecidableEq, Repr

/-- The `page_to_mfn` conversion of the frame table. -/
def page_to_mfn (pg : page_info) : Nat := pg.mfn

/-- The `mfn_to_page` conversion of the frame table. -/
def mfn_to_page (mfn : Nat) : page_info := ⟨mfn⟩

/-- The p2m type that memory.c installs during the copy. -/
inductive p2m_type where
  | p2m_ram_ro
deriving DecidableEq, Repr

/-- The p2m access that memory.c installs during the copy. -/
inductive p2m_access where
  | p2m_access_rx
deriving DecidableEq, Repr

/-- The allocation-flag macros of the absent header `xen/mm.h`, taken as
parameters. -/
structure mm_flags where
  MEMF_no_refcount : Nat
  MEMF_exact_node : Nat
  MEMF_node : Nat → Nat
  MEMF_bits : Nat → Nat

/-- Host and cell routines called by the page-move protocol, with their arguments. -/
inductive mm_call where
  | get_gfn_unshare (d : Option Nat) (gfn : Nat)
  | put_gfn (d : Option Nat) (gfn : Nat)
  | steal_page (d : Option Nat) (page : page_info) (memflags : Nat)
  | alloc_domheap_pages (d : Option Nat) (order : Nat) (memflags : Nat)
  | free_domheap_pages (page : page_info) (order : Nat)
  | assign_pages (d : Option Nat) (page : page_info) (order : Nat) (memflags : Nat)
  | set_memory_moved_gfn (d : Option Nat) (gfn : Nat)
  | p2m_set_entry (d : Option Nat) (gfn : Nat) (mfn : Nat) (order : Nat)
      (t : p2m_type) (a : p2m_access)
  | copy_domain_page (dest : Nat) (source : Nat)
  | guest_physmap_add_page (d : Option Nat) (gfn : Nat) (mfn : Nat) (order : Nat)
  | clear_memory_moved_gfn
  | put_page (page : page_info)
  | set_gpfn_from_mfn (mfn : Nat) (gfn : Nat)
deriving DecidableEq, Repr

/-- One entry of the call log: the call, and the occupant of the fault-protection
cell at the moment the call is made. -/
structure mm_logged where
  call : mm_call
  moved_domain : Option Nat
  moved_gfn : Nat
deriving DecidableEq, Repr

/-- The state threaded through memory.c: the cell and the call log (oldest first). -/
structure mm_state where
  cell : moved_cell
  trace : List mm_logged
deriving DecidableEq, Repr

/-- Record a call, stamped with the current occupant of the cell. -/
def mm_state.log (s : mm_state) (c : mm_call) : mm_state :=
  { s with trace := s.trace ++
      [⟨c, s.cell.memory_moved_domain, s.cell.memory_moved_gfn⟩] }

/-- What the host answers during one `memory_move` call.  Each host routine is
asked at most once per call, except `assign_pages`, asked once for the new page
and once for the old page. -/
structure move_host where
  domain_clamp_alloc_bitsize : Nat
  get_gfn_unshare : Nat
  p2m_is_shared : Bool
  mfn_valid : Bool
  steal_page : Int
  alloc_domheap_pages : Option page_info
  assign_pages_new : Int
  assign_pages_old : Int
  paging_mode_translate : Bool

/-- The `spin_lock` primitive on one lock word: acquires a free lock, never
returns on a held one. -/
def spin_lock (held : Bool) : Option Bool :=
  if held then none else some true

/-- The `spin_unlock` primitive on one lock word. -/
def spin_unlock (_held : Bool) : Bool := false

/-- The `set_memory_moved_gfn` of memory.c (lines 1023-1036). -/
def set_memory_moved_gfn (c : moved_cell) (d : Option Nat) (gfn : Nat) :
    Option moved_cell :=
  let a1 := decide (c.memory_moved_gfn = INVALID_GFN)
  let a2 := decide (c.memory_moved_domain = none)
  match spin_lock c.memory_moved_spinlock with
  | none => none
  | some l =>
    match spin_lock c.memory_moved_waiter with
    | none => none
    | some w =>
      some { memory_moved_spinlock := spin_unlock l
             memory_moved_waiter := w
             memory_moved_gfn := gfn
             memory_moved_domain := d
             asserts_held := c.asserts_held && a1 && a2 }

/-- The `clear_memory_moved_gfn` of memory.c (lines 1038-1051). -/
def clear_memory_moved_gfn (c : moved_cell) : Option moved_cell :=
  let a1 := decide (c.memory_moved_gfn ≠ INVALID_GFN)
  let a2 := decide (c.memory_moved_domain ≠ none)
  match spin_lock c.memory_moved_spinlock with
  | none => none
  | some l =>
    some { memory_moved_spinlock := spin_unlock l
           memory_moved_waiter := spin_unlock c.memory_moved_waiter
           memory_moved_gfn := INVALID_GFN
           memory_moved_domain := none
           asserts_held := c.asserts_held && a1 && a2 }

/-- The `__memory_move_steal` of memory.c (lines 1062-1088), `CONFIG_X86` branch:
the stolen page, or `none` for `NULL`. -/
def __memory_move_steal (f : mm_flags) (h : move_host) (s : mm_state)
    (d : Option Nat) (gfn : Nat) : mm_state × Option page_info :=
  let s1 := s.log (mm_call.get_gfn_unshare d gfn)
  let mfn := h.get_gfn_unshare
  if h.p2m_is_shared then
    (s1.log (mm_call.put_gfn d gfn), none)
  else if !h.mfn_valid then
    (s1.log (mm_call.put_gfn d gfn), none)
  else
    let page := mfn_to_page mfn
    let s2 := s1.log (mm_call.steal_page d page f.MEMF_no_refcount)
    if h.steal_page ≠ 0 then
      (s2.log (mm_call.put_gfn d gfn), none)
    else
      (s2, some page)

/-- The `__memory_move_replace` of memory.c (lines 1099-1150): returns `0` on
success and `-1` when the new page cannot be assigned. -/
def __memory_move_replace (f : mm_flags) (h : move_host) (s : mm_state)
    (d : Option Nat) (gfn : Nat) (old new : page_info) : mm_state × outcome Int :=
  let old_mfn := page_to_mfn old
  let new_mfn := page_to_mfn new
  let s1 := s.log (mm_call.assign_pages d new 0 f.MEMF_no_refcount)
  if h.assign_pages_new ≠ 0 then
    (s1, outcome.returned (-1))
  else
    let s2 := s1.log (mm_call.set_memory_moved_gfn d gfn)
    match set_memory_moved_gfn s2.cell d gfn with
    | none => (s2, outcome.blocked)
    | some c3 =>
      let s3 : mm_state := { s2 with cell := c3 }
      let s4 := s3.log (mm_call.p2m_set_entry d gfn old_mfn 0
                  p2m_type.p2m_ram_ro p2m_access.p2m_access_rx)
      let s5 := s4.log (mm_call.copy_domain_page new_mfn old_mfn)
      let s6 := s5.log (mm_call.guest_physmap_add_page d gfn new_mfn 0)
      let s7 := s6.log mm_call.clear_memory_moved_gfn
      match clear_memory_moved_gfn s7.cell with
      | none => (s7, outcome.blocked)
      | some c8 =>
        let s8 : mm_state := { s7 with cell := c8 }
        let s9 := s8.log (mm_call.put_page old)
        if !h.paging_mode_translate then
          (s9.log (mm_call.set_gpfn_from_mfn new_mfn gfn), outcome.returned 0)
        else
          (s9, outcome.returned 0)

/-- The value of `memflags` computed by `memory_move` (lines 1161-1163); each
assignment to the `unsigned int` variable truncates to 32 bits. -/
def move_memflags (f : mm_flags) (h : move_host) (node : Nat) : Nat :=
  let memflags0 := h.domain_clamp_alloc_bitsize % 2 ^ 32
  let memflags1 := f.MEMF_bits memflags0 % 2 ^ 32
  (memflags1 ||| f.MEMF_node node ||| f.MEMF_exact_node) % 2 ^ 32

/-- The tail of `memory_move` from the label `fail_old` (lines 1191-1197). -/
def memory_move_fail_old (f : mm_flags) (h : move_host) (s : mm_state)
    (d : Option Nat) (gfn : Nat) (old : page_info) : mm_state × outcome Nat :=
  let s1 := s.log (mm_call.put_gfn d gfn)
  let s2 := s1.log (mm_call.assign_pages d old 0 f.MEMF_no_refcount)
  if h.assign_pages_old ≠ 0 then
    (s2, outcome.bug)
  else
    (s2, outcome.returned INVALID_MFN)

/-- The `memory_move` of memory.c (lines 1152-1198): returns the MFN of the new
page, or `INVALID_MFN`. -/
def memory_move (f : mm_flags) (h : move_host) (s : mm_state)
    (d : Option Nat) (gfn : Nat) (node : Nat) : mm_state × outcome Nat :=
  let memflags := move_memflags f h node
  match __memory_move_steal f h s d gfn with
  | (s1, none) => (s1, outcome.returned INVALID_MFN)
  | (s1, some old) =>
    let s2 := s1.log (mm_call.alloc_domheap_pages none 0 memflags)
    match h.alloc_domheap_pages with
    | none => memory_move_fail_old f h s2 d gfn old
    | some new =>
      match __memory_move_replace f h s2 d gfn old new with
      | (s3, outcome.returned r) =>
        if r ≠ 0 then
          memory_move_fail_old f h
            (s3.log (mm_call.free_domheap_pages new 0)) d gfn old
        else
          ((s3.log (mm_call.put_gfn d gfn)), outcome.returned (page_to_mfn new))
      | (s3, outcome.bug) => (s3, outcome.bug)
      | (s3, outcome.blocked) => (s3, outcome.blocked)

/-! ## monitor.c: state -/

/-- The globals of monitor.c read or written by the queue code, and the
fault-protection cell of memory.c that the page moves go through.  The array
`migration_queue` has `monitor_enqueued` slots. -/
structure monitor_state where
  monitor_maxtries : Nat
  migration_queue : List migration_query
  migration_planned : Nat
  migration_tries : Nat
  migration_succeed : Nat
  migration_aborted : Nat
  moved : moved_cell
deriving DecidableEq, Repr

/-- The global `monitor_enqueued`: the number of slots of the queue. -/
def monitor_state.monitor_enqueued (st : monitor_state) : Nat :=
  st.migration_queue.length

/-! ## monitor.c: fill_migration_queue -/

/-- The inner `for (j ...)` loop of `fill_migration_queue` (lines 249-253) over
the slots from index `j` on: the values of `j` and `slot` when the loop is left. -/
def fill_scan (pgid : Nat) : List migration_query → Nat → Nat → Nat × Nat
  | [], j, slot => (j, slot)
  | q :: rest, j, slot =>
    if q.mfn = pgid then (j, slot)
    else if q.mfn = INVALID_MFN then fill_scan pgid rest (j + 1) j
    else fill_scan pgid rest (j + 1) slot

/-- The `fill_migration_queue` of monitor.c (lines 241-269). -/
def fill_migration_queue (st : monitor_state) : List migration → monitor_state
  | [] => st
  | m :: rest =>
    let js := fill_scan m.pgid st.migration_queue 0 st.monitor_enqueued
    if js.1 ≠ st.monitor_enqueued then
      fill_migration_queue st rest
    else
      let st1 := { st with migration_planned := (st.migration_planned + 1) % 2 ^ 64 }
      if js.2 = st.monitor_enqueued then
        st1
      else
        let entry : migration_query :=
          { mfn := m.pgid, node := m.node, gfn := INVALID_GFN, domain := none, tries := 0 }
        fill_migration_queue
          { st1 with migration_queue := st.migration_queue.set js.2 entry } rest

/-- No two non-empty slots of the queue hold the same MFN. -/
def queue_distinct (q : List migration_query) : Prop :=
  ∀ i, i < q.length → ∀ j, j < q.length →
    (i ≠ j ∧ (q[i]?).map migration_query.mfn ≠ some INVALID_MFN) →
    (q[i]?).map migration_query.mfn ≠ (q[j]?).map migration_query.mfn

instance (q : List migration_query) : Decidable (queue_distinct q) := by
  unfold queue_distinct
  infer_instance

/-- The slot that `fill_migration_queue` writes for a proposal. -/
def fill_entry (m : migration) : migration_query :=
  { mfn := m.pgid, node := m.node, gfn := INVALID_GFN, domain := none, tries := 0 }

/-- Index `k` is the last (highest-index) empty slot of the queue. -/
def last_empty_slot (q : List migration_query) (k : Nat) : Prop :=
  (q[k]?).map migration_query.mfn = some INVALID_MFN ∧
  ∀ j, j < q.length → k < j → (q[j]?).map migration_query.mfn ≠ some INVALID_MFN

instance (q : List migration_query) (k : Nat) : Decidable (last_empty_slot q k) := by
  unfold last_empty_slot
  infer_instance

/-! ## monitor.c: drain_migration_queue -/

/-- What the drain pass is given by the platform and the host: the constant
`PAGE_SHIFT`, the node lookup `phys_to_nid`, the allocation-flag macros, and the
answers of the host during the `memory_move` call made for slot `i`. -/
structure drain_env where
  PAGE_SHIFT : Nat
  phys_to_nid : Nat → Nat
  flags : mm_flags
  host : Nat → move_host

/-- Routines and statistics macros invoked by `drain_migration_queue`. -/
inductive drain_call where
  | register_page_moved (mfn : Nat)
  | memory_move (d : Option Nat) (gfn : Nat) (node : Nat)
  | stats_account_migration_abort
  | stats_account_migration_try (ret : Int)
deriving DecidableEq, Repr

/-- State after (part of) a drain pass, the calls made, each tagged with the
index of the slot the loop was at, and how the pass ended. -/
structure drain_result where
  st : monitor_state
  calls : List (Nat × drain_call)
  out : outcome Unit
deriving DecidableEq, Repr

/-- The conversion of the `unsigned long` result of `memory_move` to the `int`
variable `ret` of `drain_migration_queue`. -/
def ulong_to_int (v : Nat) : Int :=
  if v % 2 ^ 32 < 2 ^ 31 then ((v % 2 ^ 32 : Nat) : Int)
  else ((v % 2 ^ 32 : Nat) : Int) - 2 ^ 32

/-- The body of the `for` loop of `drain_migration_queue` (lines 279-307) at
index `i`. -/
def drain_entry (env : drain_env) (i : Nat) (st : monitor_state) : drain_result :=
  match st.migration_queue[i]? with
  | none => ⟨st, [], outcome.returned ()⟩
  | some q =>
    if q.mfn = INVALID_MFN then
      ⟨st, [], outcome.returned ()⟩
    else
      let nid := env.phys_to_nid ((q.mfn <<< env.PAGE_SHIFT) % 2 ^ 64)
      if q.node = nid then
        ⟨{ st with migration_queue :=
              st.migration_queue.set i { q with mfn := INVALID_MFN } },
          [(i, drain_call.register_page_moved q.mfn)], outcome.returned ()⟩
      else if q.gfn = INVALID_GFN then
        let tries := (q.tries + 1) % 2 ^ 32
        if tries ≥ st.monitor_maxtries then
          ⟨{ st with
              migration_queue :=
                st.migration_queue.set i { q with tries := tries, mfn := INVALID_MFN }
              migration_aborted := (st.migration_aborted + 1) % 2 ^ 64 },
            [(i, drain_call.stats_account_migration_abort)], outcome.returned ()⟩
        else
          ⟨{ st with
              migration_queue := st.migration_queue.set i { q with tries := tries } },
            [], outcome.returned ()⟩
      else
        let call := (i, drain_call.memory_move q.domain q.gfn q.node)
        match memory_move env.flags (env.host i) ⟨st.moved, []⟩ q.domain q.gfn q.node with
        | (s, outcome.returned v) =>
          let ret := ulong_to_int v
          ⟨{ st with
              moved := s.cell
              migration_tries := (st.migration_tries + 1) % 2 ^ 64
              migration_succeed :=
                (st.migration_succeed + (if ret = 0 then 1 else 0)) % 2 ^ 64
              migration_queue :=
                st.migration_queue.set i { q with mfn := INVALID_MFN } },
            [call, (i, drain_call.stats_account_migration_try ret),
              (i, drain_call.register_page_moved q.mfn)],
            outcome.returned ()⟩
        | (s, outcome.bug) => ⟨{ st with moved := s.cell }, [call], outcome.bug⟩
        | (s, outcome.blocked) => ⟨{ st with moved := s.cell }, [call], outcome.blocked⟩

/-- The `for` loop of `drain_migration_queue`: `n` iterations from index `i`. -/
def drain_loop (env : drain_env) : Nat → Nat → monitor_state → drain_result
  | 0, _, st => ⟨st, [], outcome.returned ()⟩
  | n + 1, i, st =>
    let r := drain_entry env i st
    match r.out with
    | outcome.returned _ =>
      let r2 := drain_loop env n (i + 1) r.st
      ⟨r2.st, r.calls ++ r2.calls, r2.out⟩
    | o => ⟨r.st, r.calls, o⟩

/-- The `drain_migration_queue` of monitor.c (lines 271-309). -/
def drain_migration_queue (env : drain_env) (st : monitor_state) : drain_result :=
  drain_loop env st.monitor_enqueued 0 st

/-- Both locks of the fault-protection cell are free. -/
def locks_free (c : moved_cell) : Prop :=
  c.memory_moved_spinlock = false ∧ c.memory_moved_waiter = false

instance (c : moved_cell) : Decidable (locks_free c) := by
  unfold locks_free
  infer_instance

/-- The calls of a pass made while the loop was at slot `i`. -/
def calls_at (i : Nat) (calls : List (Nat × drain_call)) : List drain_call :=
  (calls.filter (fun c => c.1 = i)).map Prod.snd

/-- The calls of a list, each stamped with the cell occupant `(dom, gfn)`. -/
def stamped (dom : Option Nat) (gfn : Nat) (calls : List mm_call) : List mm_logged :=
  calls.map (fun c => ⟨c, dom, gfn⟩)

/-- The idle fault-protection cell: no move in flight, both locks free. -/
def idle_cell : moved_cell :=
  { memory_moved_spinlock := false, memory_moved_waiter := false,
    memory_moved_gfn := INVALID_GFN, memory_moved_domain := none, asserts_held := true }

/-- The allocation-flag macros with the values of Xen 4.4 `xen/mm.h`, used for
concrete runs. -/
def xen_flags : mm_flags :=
  { MEMF_no_refcount := 1, MEMF_exact_node := 16,
    MEMF_node := fun n => ((n + 1) % 256) * 256,
    MEMF_bits := fun n => n * 2 ^ 24 }

/-- A host that lets every step of a move succeed: frame 10 backs the GFN and
frame 20 is allocated. -/
def host_ok : move_host :=
  { domain_clamp_alloc_bitsize := 0, get_gfn_unshare := 10, p2m_is_shared := false,
    mfn_valid := true, steal_page := 0, alloc_domheap_pages := some ⟨20⟩,
    assign_pages_new := 0, assign_pages_old := 0, paging_mode_translate := true }

/-- A host without free memory on the target node whose domain is dying: the
steal succeeds, the allocation returns `NULL`, and `assign_pages` refuses the old
page. -/
def host_no_memory_dying : move_host :=
  { domain_clamp_alloc_bitsize := 0, get_gfn_unshare := 10, p2m_is_shared := false,
    mfn_valid := true, steal_page := 0, alloc_domheap_pages := none,
    assign_pages_new := 0, assign_pages_old := -1, paging_mode_translate := true }

/-- A host whose domain starts dying after the steal: frame 20 is allocated, and
`assign_pages` refuses both the new and the old page. -/
def host_dying : move_host :=
  { domain_clamp_alloc_bitsize := 0, get_gfn_unshare := 10, p2m_is_shared := false,
    mfn_valid := true, steal_page := 0, alloc_domheap_pages := some ⟨20⟩,
    assign_pages_new := -1, assign_pages_old := -1, paging_mode_translate := true }

/-- A host without free memory on the target node: the steal succeeds, the
allocation returns `NULL`, the old page is taken back. -/
def host_no_memory : move_host :=
  { host_ok with alloc_domheap_pages := none }

/-- A host that allocates frame 20 but refuses to assign it, and takes the old
page back. -/
def host_no_assign : move_host :=
  { host_ok with assign_pages_new := -1 }

/-- A host that reports the GFN as shared. -/
def host_shared : move_host :=
  { host_ok with p2m_is_shared := true }

/-- A platform with 4 KiB pages and two nodes, the first thousand frames on
node 0, whose host answers as `h` to every move. -/
def two_nodes (h : move_host) : drain_env :=
  { PAGE_SHIFT := 12
    phys_to_nid := fun addr => if addr < 1000 * 4096 then 0 else 1
    flags := xen_flags
    host := fun _ => h }

/-- A monitor with `maxtries` 2 and the given queue, all counters zero, no move
in flight. -/
def monitor_with (queue : List migration_query) : monitor_state :=
  { monitor_maxtries := 2, migration_queue := queue, migration_planned := 0,
    migration_tries := 0, migration_succeed := 0, migration_aborted := 0,
    moved := idle_cell }

/-! ## memory.c: is_memory_moved_gfn -/

/-- The `is_memory_moved_gfn` of memory.c (lines 993-1021).  A call that finds the
cell spinlock held, or that has to wait on a held waiter gate, does not return
in a sequential execution. -/
def is_memory_moved_gfn (c : moved_cell) (d : Option Nat) (gfn : Nat) (wait : Int) :
    moved_cell × outcome Int :=
  match spin_lock c.memory_moved_spinlock with
  | none => (c, outcome.blocked)
  | some l =>
    let c1 := { c with memory_moved_spinlock := l }
    if d ≠ c1.memory_moved_domain then
      ({ c1 with memory_moved_spinlock := spin_unlock l }, outcome.returned 0)
    else if gfn ≠ c1.memory_moved_gfn then
      ({ c1 with memory_moved_spinlock := spin_unlock l }, outcome.returned 0)
    else
      let c2 := { c1 with memory_moved_spinlock := spin_unlock l }
      if wait ≠ 0 then
        match spin_lock c2.memory_moved_waiter with
        | none => (c2, outcome.blocked)
        | some w => ({ c2 with memory_moved_waiter := spin_unlock w }, outcome.returned 1)
      else
        (c2, outcome.returned 1)

/-- The value `is_memory_moved_gfn` has to return on the cell `c`: 1 when both the
domain and the GFN are those of the cell, 0 otherwise. -/
def moved_match (c : moved_cell) (d : Option Nat) (gfn : Nat) : Int :=
  if d = c.memory_moved_domain ∧ gfn = c.memory_moved_gfn then 1 else 0

/-! ## monitor.c: engine-owner tokens and ibs_nmi_handler -/

/-- The value `OWNER_NONE` of a per-CPU engine-owner token. -/
def OWNER_NONE : Nat := 0

/-- The value `OWNER_SAMPLER` of a per-CPU engine-owner token. -/
def OWNER_SAMPLER : Nat := 1

/-- The value `OWNER_DECIDER` of a per-CPU engine-owner token. -/
def OWNER_DECIDER : Nat := 2

/-- The `cmpxchg(ptr, old, new)` primitive on one word holding `v`: the word
afterwards, and the value returned (the word before). -/
def cmpxchg (v old new : Nat) : Nat × Nat :=
  (if v = old then new else v, v)

/-- Constants of absent headers read by `ibs_nmi_handler`, taken as parameters. -/
structure ibs_consts where
  IBS_RECORD_MODE_OP : Nat
  IBS_RECORD_MODE_DPA : Nat
  DOMID_FIRST_RESERVED : Nat
  PAGE_SHIFT : Nat

/-- The fields of `struct ibs_record` read by `ibs_nmi_handler`. -/
structure ibs_record where
  record_mode : Nat
  data_linear_address : Nat
  data_physical_address : Nat
deriving DecidableEq, Repr

/-- What `ibs_nmi_handler` reads through `current`: the domain pointer, its
`domain_id`, and whether its `guest_type` is `guest_type_hvm`. -/
structure current_vcpu where
  domain : Option Nat
  domain_id : Nat
  is_hvm : Bool
deriving DecidableEq, Repr

/-- Routines called by `ibs_nmi_handler`. -/
inductive sampler_call where
  | local_irq_enable
  | try_paging_gva_to_gfn (vaddr : Nat)
  | local_irq_disable
  | register_page_access (mfn : Nat)
deriving DecidableEq, Repr

/-- The body of the `for` loop of `ibs_nmi_handler` (lines 424-440) on the slot
`q` at index `i`; `gva_to_gfn i` is what `try_paging_gva_to_gfn` answers to the
probe made for that slot. -/
def probe_slot (cur : current_vcpu) (vaddr mfn : Nat) (gva_to_gfn : Nat → Nat)
    (i : Nat) (q : migration_query) : migration_query × List sampler_call :=
  if q.mfn ≠ mfn then
    (q, [])
  else
    let gfn := gva_to_gfn i
    let ogfn := INVALID_GFN
    let cas := cmpxchg q.gfn ogfn gfn
    let q1 := { q with gfn := cas.1 }
    let calls := [sampler_call.local_irq_enable, sampler_call.try_paging_gva_to_gfn vaddr,
      sampler_call.local_irq_disable]
    if cas.2 ≠ ogfn then
      (q1, calls)
    else
      ({ q1 with domain := cur.domain }, calls)

/-- The `for` loop of `ibs_nmi_handler` (lines 422-441) over the slots from index
`i` on. -/
def probe_slots (cur : current_vcpu) (vaddr mfn : Nat) (gva_to_gfn : Nat → Nat) :
    List migration_query → Nat → List migration_query × List sampler_call
  | [], _ => ([], [])
  | q :: rest, i =>
    let r := probe_slot cur vaddr mfn gva_to_gfn i q
    let rs := probe_slots cur vaddr mfn gva_to_gfn rest (i + 1)
    (r.1 :: rs.1, r.2 ++ rs.2)

/-- The token of the CPU and the queue after `ibs_nmi_handler`, and the calls it
made, each stamped with the value of the token at the time of the call. -/
structure sampler_result where
  owner : Nat
  queue : List migration_query
  calls : List (Nat × sampler_call)
deriving DecidableEq, Repr

/-- The `ibs_nmi_handler` of monitor.c (lines 399-450) on the CPU whose token is
`owner`.  The per-CPU sampling statistics are not modelled. -/
def ibs_nmi_handler (k : ibs_consts) (cur : current_vcpu) (gva_to_gfn : Nat → Nat)
    (record : ibs_record) (owner : Nat) (queue : List migration_query) :
    sampler_result :=
  let take := cmpxchg owner OWNER_NONE OWNER_SAMPLER
  if take.2 ≠ OWNER_NONE then
    ⟨take.1, queue, []⟩
  else
    let owner1 := take.1
    let out : sampler_result :=
      ⟨(cmpxchg owner1 OWNER_SAMPLER OWNER_NONE).1, queue, []⟩
    if record.record_mode &&& k.IBS_RECORD_MODE_OP = 0 then out
    else if record.record_mode &&& k.IBS_RECORD_MODE_DPA = 0 then out
    else if cur.domain_id ≥ k.DOMID_FIRST_RESERVED then out
    else if !cur.is_hvm then out
    else
      let vaddr := record.data_linear_address
      let mfn := record.data_physical_address >>> k.PAGE_SHIFT
      let r := probe_slots cur vaddr mfn gva_to_gfn queue 0
      ⟨(cmpxchg owner1 OWNER_SAMPLER OWNER_NONE).1, r.1,
        (r.2 ++ [sampler_call.register_page_access mfn]).map (fun c => (owner1, c))⟩

/-- The sample passes the filters of `ibs_nmi_handler` on a CPU whose token is
`owner`: the token is NONE, the record has the data-operation flag and the
valid-physical-address flag, the current domain is not reserved and is HVM. -/
def sample_accepted (k : ibs_consts) (cur : current_vcpu) (record : ibs_record)
    (owner : Nat) : Prop :=
  owner = OWNER_NONE ∧ record.record_mode &&& k.IBS_RECORD_MODE_OP ≠ 0 ∧
  record.record_mode &&& k.IBS_RECORD_MODE_DPA ≠ 0 ∧
  cur.domain_id < k.DOMID_FIRST_RESERVED ∧ cur.is_hvm = true

instance (k : ibs_consts) (cur : current_vcpu) (record : ibs_record) (owner : Nat) :
    Decidable (sample_accepted k cur record owner) := by
  unfold sample_accepted
  infer_instance

/-- The arguments of the `register_page_access` calls among the calls. -/
def page_accesses (calls : List (Nat × sampler_call)) : List Nat :=
  calls.filterMap (fun c =>
    match c.2 with
    | sampler_call.register_page_access mfn => some mfn
    | _ => none)

/-- Every slot with unbound GFN has a NULL domain. -/
def unbound_without_domain (q : List migration_query) : Prop :=
  ∀ s ∈ q, s.gfn = INVALID_GFN → s.domain = none

instance (q : List migration_query) : Decidable (unbound_without_domain q) := by
  unfold unbound_without_domain
  infer_instance

/-- The constants of Xen 4.4 on x86-64 with the IBS record flags as two bits,
used for concrete runs. -/
def xen_ibs : ibs_consts :=
  { IBS_RECORD_MODE_OP := 1, IBS_RECORD_MODE_DPA := 4,
    DOMID_FIRST_RESERVED := 32752, PAGE_SHIFT := 12 }

/-- A vCPU of the HVM domain 1. -/
def hvm_vcpu : current_vcpu :=
  { domain := some 1, domain_id := 1, is_hvm := true }

/-- A data-operation sample with a valid physical address in frame 7. -/
def sample_frame7 : ibs_record :=
  { record_mode := 5, data_linear_address := 4096 * 3 + 8,
    data_physical_address := 4096 * 7 + 8 }

/-! ## monitor.c: decide_migration -/

/-- The first `for_each_online_cpu` loop of `decide_migration` (lines 319-322)
over the tokens of the online CPUs, in CPU order: every token is taken from NONE
to DECIDER.  The `while` loop on a token that is not NONE never ends in a
sequential execution: `none`. -/
def acquire_tokens : List Nat → Option (List Nat)
  | [] => some []
  | v :: rest =>
    let cas := cmpxchg v OWNER_NONE OWNER_DECIDER
    if cas.2 ≠ OWNER_NONE then none
    else
      match acquire_tokens rest with
      | none => none
      | some r => some (cas.1 :: r)

/-- The second `for_each_online_cpu` loop of `decide_migration` (lines 331-333). -/
def release_tokens (owner : List Nat) : List Nat :=
  owner.map (fun v => (cmpxchg v OWNER_DECIDER OWNER_NONE).1)

/-- The globals of monitor.c that `decide_migration` reads or writes: the flag
`monitoring_started`, the engine-owner token of every online CPU (in CPU order),
the counter `decision_count`, and the queue state. -/
structure decider_state where
  monitoring_started : Int
  migration_engine_owner : List Nat
  decision_count : Nat
  mon : monitor_state
deriving DecidableEq, Repr

/-- What `decide_migration` is given: the environment of the drain pass, and the
buffer that `refill_migration_buffer` returns. -/
structure decide_env where
  drain : drain_env
  refill_migration_buffer : List migration

/-- The three steps of `decide_migration` between the two token loops. -/
inductive decide_call where
  | drain_migration_queue
  | refill_migration_buffer
  | fill_migration_queue (buffer : List migration)
deriving DecidableEq, Repr

/-- State after `decide_migration`, its steps, each stamped with the tokens of the
online CPUs at the time, the calls of its drain pass, and how it ended. -/
structure decide_result where
  st : decider_state
  calls : List (List Nat × decide_call)
  drain_calls : List (Nat × drain_call)
  out : outcome Int
deriving DecidableEq, Repr

/-- The `decide_migration` of monitor.c (lines 311-335). -/
def decide_migration (env : decide_env) (st : decider_state) : decide_result :=
  if st.monitoring_started = 0 then
    ⟨st, [], [], outcome.returned (-1)⟩
  else
    match acquire_tokens st.migration_engine_owner with
    | none => ⟨st, [], [], outcome.blocked⟩
    | some owner =>
      let d := drain_migration_queue env.drain st.mon
      match d.out with
      | outcome.returned _ =>
        let buffer := env.refill_migration_buffer
        let mon := fill_migration_queue d.st buffer
        ⟨{ st with
            migration_engine_owner := release_tokens owner
            decision_count := (st.decision_count + 1) % 2 ^ 64
            mon := mon },
          [(owner, decide_call.drain_migration_queue),
           (owner, decide_call.refill_migration_buffer),
           (owner, decide_call.fill_migration_queue buffer)],
          d.calls, outcome.returned 0⟩
      | outcome.bug =>
        ⟨{ st with migration_engine_owner := owner, mon := d.st },
          [(owner, decide_call.drain_migration_queue)], d.calls, outcome.bug⟩
      | outcome.blocked =>
        ⟨{ st with migration_engine_owner := owner, mon := d.st },
          [(owner, decide_call.drain_migration_queue)], d.calls, outcome.blocked⟩

/-! ## monitor.c: the compare-and-set steps on the tokens -/

/-- Where the (single) decider is in `decide_migration`: not in it, in the
acquisition loop about to take the token of CPU `cpu`, between the two loops, or
in the release loop about to release the token of CPU `cpu`. -/
inductive decider_pc where
  | idle
  | acquiring (cpu : Nat)
  | working
  | releasing (cpu : Nat)
deriving DecidableEq, Repr

/-- The tokens of the online CPUs and the position of the decider. -/
structure token_state where
  owner : List Nat
  pc : decider_pc
deriving DecidableEq, Repr

/-- One atomic step: the entry `cmpxchg` of `ibs_nmi_handler` on a CPU (line 404),
its exit `cmpxchg` (line 449), or the next step of the decider. -/
inductive token_action where
  | sampler_enter (cpu : Nat)
  | sampler_leave (cpu : Nat)
  | decider_step
deriving DecidableEq, Repr

/-- The `cmpxchg(&per_cpu(migration_engine_owner, cpu), old, new)` on the tokens. -/
def cmpxchg_token (owner : List Nat) (cpu old new : Nat) : List Nat :=
  match owner[cpu]? with
  | none => owner
  | some v => owner.set cpu (cmpxchg v old new).1

/-- The effect of one atomic step.  In the acquisition loop a failed `cmpxchg`
leaves the decider where it is (it retries); a loop is left when the CPU index
has passed the last online CPU. -/
def token_step (a : token_action) (s : token_state) : token_state :=
  match a with
  | token_action.sampler_enter cpu =>
    { s with owner := cmpxchg_token s.owner cpu OWNER_NONE OWNER_SAMPLER }
  | token_action.sampler_leave cpu =>
    { s with owner := cmpxchg_token s.owner cpu OWNER_SAMPLER OWNER_NONE }
  | token_action.decider_step =>
    match s.pc with
    | decider_pc.idle => { s with pc := decider_pc.acquiring 0 }
    | decider_pc.acquiring cpu =>
      match s.owner[cpu]? with
      | none => { s with pc := decider_pc.working }
      | some v =>
        if (cmpxchg v OWNER_NONE OWNER_DECIDER).2 ≠ OWNER_NONE then s
        else
          { owner := cmpxchg_token s.owner cpu OWNER_NONE OWNER_DECIDER
            pc := decider_pc.acquiring (cpu + 1) }
    | decider_pc.working => { s with pc := decider_pc.releasing 0 }
    | decider_pc.releasing cpu =>
      match s.owner[cpu]? with
      | none => { s with pc := decider_pc.idle }
      | some _ =>
        { owner := cmpxchg_token s.owner cpu OWNER_DECIDER OWNER_NONE
          pc := decider_pc.releasing (cpu + 1) }

/-- The state reached from `s` by a schedule of atomic steps. -/
def token_run (schedule : List token_action) (s : token_state) : token_state :=
  schedule.foldl (fun t a => token_step a t) s

/-- The initial state on `n` online CPUs: every token NONE, no decider running. -/
def tokens_init (n : Nat) : token_state :=
  ⟨List.replicate n OWNER_NONE, decider_pc.idle⟩

/-- The invariant as the specification states it: every token is one of NONE,
SAMPLER, DECIDER, and if some token is DECIDER then every token is DECIDER. -/
def tokens_all_or_none (owner : List Nat) : Prop :=
  (∀ v ∈ owner, v = OWNER_NONE ∨ v = OWNER_SAMPLER ∨ v = OWNER_DECIDER) ∧
  ((∃ v ∈ owner, v = OWNER_DECIDER) → ∀ v ∈ owner, v = OWNER_DECIDER)

instance (owner : List Nat) : Decidable (tokens_all_or_none owner) := by
  unfold tokens_all_or_none
  infer_instance

/-- The decider at position `pc` holds the token of CPU `i`: it has taken it and
has not released it yet. -/
def decider_holds (pc : decider_pc) (i : Nat) : Prop :=
  match pc with
  | decider_pc.idle => False
  | decider_pc.acquiring cpu => i < cpu
  | decider_pc.working => True
  | decider_pc.releasing cpu => cpu ≤ i

instance (pc : decider_pc) (i : Nat) : Decidable (decider_holds pc i) := by
  unfold decider_holds
  cases pc <;> infer_instance

/-- The tokens and the position of the decider agree: every token is one of
NONE, SAMPLER, DECIDER, and the token of a CPU is DECIDER exactly when the
decider holds it. -/
def token_inv (s : token_state) : Prop :=
  ∀ (i v : Nat), s.owner[i]? = some v →
    (v = OWNER_NONE ∨ v = OWNER_SAMPLER ∨ v = OWNER_DECIDER) ∧
    (v = OWNER_DECIDER ↔ decider_holds s.pc i)

/-! ## monitor.c: start_monitoring and the parameter setters -/

/-- The memory behind the pointer `migration_queue`: its address and the slots it
holds. -/
structure queue_block where
  addr : Nat
  slots : List migration_query
deriving DecidableEq, Repr

/-- The globals of monitor.c that the life cycle and the setters read or write.
The pointer `migration_queue` is `none` when `NULL`.  The statistics are not part
of this view. -/
structure control_state where
  monitoring_started : Int
  migration_queue : Option queue_block
  monitor_tracked : Nat
  monitor_candidate : Nat
  monitor_enqueued : Nat
  monitor_enter : Nat
  monitor_increment : Nat
  monitor_decrement : Nat
  monitor_maximum : Nat
  monitor_min_node_score : Nat
  monitor_min_node_rate : Nat
  monitor_flush_after_refill : Nat
  monitor_maxtries : Nat
deriving DecidableEq, Repr

/-- Constants and macros of absent headers used by the life cycle, taken as
parameters: `get_order_from_bytes`, the two `sizeof` values, `IBS_EVENT_OP`. -/
structure control_consts where
  get_order_from_bytes : Nat → Nat
  sizeof_migration_query : Nat
  sizeof_hotlist_entry : Nat
  IBS_EVENT_OP : Nat

/-- What the host answers during one `start_monitoring` call: the block returned
by `alloc_xenheap_pages` (`none` for `NULL`) with the slots found in the fresh
memory, the result of `alloc_migration_engine`, and the results of `ibs_capable`,
`ibs_acquire` and `pebs_capable`. -/
structure start_host where
  alloc_xenheap_pages : Option queue_block
  alloc_migration_engine : Int
  ibs_capable : Bool
  ibs_acquire : Int
  pebs_capable : Bool
deriving DecidableEq, Repr

/-- Host and engine routines called by the life cycle and the setters. -/
inductive control_call where
  | reset_stats
  | alloc_xenheap_pages (order : Nat) (memflags : Nat)
  | free_xenheap_pages (addr : Nat) (order : Nat)
  | alloc_migration_engine (tracked : Nat) (candidate : Nat) (enqueued : Nat)
  | init_migration_engine
  | param_migration_lists (a1 : Nat) (a2 : Nat) (a3 : Nat) (a4 : Nat)
  | param_migration_engine (a1 : Nat) (a2 : Nat) (a3 : Nat)
  | free_migration_engine
  | ibs_capable
  | ibs_acquire
  | ibs_setevent (event : Nat)
  | ibs_setrate (rate : Nat)
  | ibs_sethandler
  | ibs_enable
  | pebs_capable
  | printk
  | stats_start
deriving DecidableEq, Repr

/-- State after a life-cycle routine, the calls it made, and the `int` it
returned. -/
structure control_result where
  st : control_state
  calls : List control_call
  ret : Int
deriving DecidableEq, Repr

/-- The `alloc_migration_queue` of monitor.c (lines 205-216). -/
def alloc_migration_queue (k : control_consts) (h : start_host) (st : control_state) :
    control_result :=
  let size := st.monitor_enqueued
  let order := k.get_order_from_bytes ((size * k.sizeof_migration_query) % 2 ^ 64)
  let st1 := { st with migration_queue := h.alloc_xenheap_pages }
  if st1.migration_queue = none then
    ⟨st1, [control_call.alloc_xenheap_pages order 0], -1⟩
  else
    ⟨st1, [control_call.alloc_xenheap_pages order 0], 0⟩

/-- The loop of `init_migration_queue` (lines 222-223) over the first `n` slots. -/
def init_slots : Nat → List migration_query → List migration_query
  | 0, l => l
  | _ + 1, [] => []
  | n + 1, q :: rest => { q with mfn := INVALID_MFN } :: init_slots n rest

/-- The `init_migration_queue` of monitor.c (lines 218-224). -/
def init_migration_queue (st : control_state) : control_state :=
  match st.migration_queue with
  | none => st
  | some b =>
    let b1 : queue_block := { b with slots := init_slots st.monitor_enqueued b.slots }
    { st with migration_queue := some b1 }

/-- The `free_migration_queue` of monitor.c (lines 226-236); the order passed to
`free_xenheap_pages` is computed from `sizeof(struct hotlist_entry)`. -/
def free_migration_queue (k : control_consts) (st : control_state) :
    control_state × List control_call :=
  let size := st.monitor_enqueued
  match st.migration_queue with
  | none => (st, [])
  | some b =>
    let order := k.get_order_from_bytes ((size * k.sizeof_hotlist_entry) % 2 ^ 64)
    ({ st with migration_queue := none }, [control_call.free_xenheap_pages b.addr order])

/-- The `enable_monitoring_ibs` of monitor.c (lines 452-466): the calls and the
value returned. -/
def enable_monitoring_ibs (k : control_consts) (h : start_host) :
    List control_call × Int :=
  let ret := h.ibs_acquire
  if ret ≠ 0 then
    ([control_call.ibs_acquire], ret)
  else
    ([control_call.ibs_acquire, control_call.ibs_setevent k.IBS_EVENT_OP,
      control_call.ibs_setrate 16777216, control_call.ibs_sethandler,
      control_call.ibs_enable], 0)

/-- The `enable_monitoring_pebs` of monitor.c (lines 343-357). -/
def enable_monitoring_pebs : List control_call × Int :=
  ([control_call.printk], 0)

/-- The part of `start_monitoring` from the first sample-source test (lines
567-583), entered with the queue and the engine allocated. -/
def start_sources (k : control_consts) (h : start_host) (st : control_state)
    (calls : List control_call) : control_result :=
  let out : List control_call → control_result := fun c =>
    ⟨{ st with monitoring_started := 1 }, c ++ [control_call.stats_start], 0⟩
  let err_engine : List control_call → control_result := fun c =>
    let f := free_migration_queue k st
    ⟨f.1, c ++ [control_call.free_migration_engine] ++ f.2, -1⟩
  let try_pebs : List control_call → control_result := fun c =>
    let c1 := c ++ [control_call.pebs_capable]
    if h.pebs_capable then
      let e := enable_monitoring_pebs
      if e.2 = 0 then out (c1 ++ e.1) else err_engine (c1 ++ e.1)
    else err_engine c1
  let c1 := calls ++ [control_call.ibs_capable]
  if h.ibs_capable then
    let e := enable_monitoring_ibs k h
    if e.2 = 0 then out (c1 ++ e.1) else try_pebs (c1 ++ e.1)
  else try_pebs c1

/-- The `start_monitoring` of monitor.c (lines 547-583). -/
def start_monitoring (k : control_consts) (h : start_host) (st : control_state) :
    control_result :=
  if st.monitoring_started ≠ 0 then
    ⟨st, [], -1⟩
  else
    let a := alloc_migration_queue k h st
    let c1 := [control_call.reset_stats] ++ a.calls
    if a.ret ≠ 0 then
      ⟨a.st, c1, -1⟩
    else
      let c2 := c1 ++ [control_call.alloc_migration_engine a.st.monitor_tracked
        a.st.monitor_candidate a.st.monitor_enqueued]
      if h.alloc_migration_engine ≠ 0 then
        let f := free_migration_queue k a.st
        ⟨f.1, c2 ++ f.2, -1⟩
      else
        let st3 := init_migration_queue a.st
        let c3 := c2 ++ [control_call.init_migration_engine,
          control_call.param_migration_lists st3.monitor_enter st3.monitor_increment
            st3.monitor_decrement st3.monitor_maximum,
          control_call.param_migration_engine st3.monitor_min_node_rate
            st3.monitor_min_node_score st3.monitor_flush_after_refill]
        start_sources k h st3 c3

/-- The `monitor_migration_setcriterias` of monitor.c (lines 525-538). -/
def monitor_migration_setcriterias (st : control_state)
    (min_node_score min_node_rate flush_after_refill : Nat) : control_result :=
  let st1 := { st with
    monitor_min_node_score := min_node_score
    monitor_min_node_rate := min_node_rate
    monitor_flush_after_refill := flush_after_refill }
  if st1.monitoring_started ≠ 0 then
    ⟨st1, [control_call.param_migration_engine min_node_score min_node_rate
      flush_after_refill], 0⟩
  else
    ⟨st1, [], 0⟩

/-- The argument triples of the `param_migration_engine` calls among the calls. -/
def engine_params (calls : List control_call) : List (Nat × Nat × Nat) :=
  calls.filterMap (fun c =>
    match c with
    | control_call.param_migration_engine a1 a2 a3 => some (a1, a2, a3)
    | _ => none)

/-- The (address, order) arguments of the `free_xenheap_pages` calls among the
calls. -/
def xenheap_frees (calls : List control_call) : List (Nat × Nat) :=
  calls.filterMap (fun c =>
    match c with
    | control_call.free_xenheap_pages addr order => some (addr, order)
    | _ => none)

/-- The number of `free_migration_engine` calls. -/
def engine_frees (calls : List control_call) : Nat :=
  (calls.filter (fun c => decide (c = control_call.free_migration_engine))).length

/-- A sample source can be enabled on the host: IBS is present and can be
acquired, or PEBS is present. -/
def source_available (h : start_host) : Prop :=
  (h.ibs_capable = true ∧ h.ibs_acquire = 0) ∨ h.pebs_capable = true

instance (h : start_host) : Decidable (source_available h) := by
  unfold source_available
  infer_instance

/-- The constants of Xen 4.4 on x86-64 for concrete runs: 4 KiB pages (the page
order is given for sizes up to 32 KiB), 40 bytes per queue slot; the size of a
hotlist entry and the IBS event are arbitrary. -/
def xen_control : control_consts :=
  { get_order_from_bytes := fun b =>
      if b ≤ 4096 then 0 else if b ≤ 8192 then 1 else if b ≤ 16384 then 2 else 3
    sizeof_migration_query := 40
    sizeof_hotlist_entry := 24
    IBS_EVENT_OP := 1 }

/-- The stopped monitor with the configured score 8 and rate 75. -/
def stopped_monitor : control_state :=
  { monitoring_started := 0, migration_queue := none, monitor_tracked := 4,
    monitor_candidate := 6, monitor_enqueued := 4, monitor_enter := 4,
    monitor_increment := 6, monitor_decrement := 4, monitor_maximum := 75,
    monitor_min_node_score := 8, monitor_min_node_rate := 75,
    monitor_flush_after_refill := 0, monitor_maxtries := 2 }

/-- A host on which the queue is allocated and the engine allocation fails. -/
def start_host_no_engine : start_host :=
  { alloc_xenheap_pages := some ⟨4096, [⟨1, 2, 3, none, 4⟩, ⟨5, 6, 7, none, 8⟩,
      ⟨0, 0, 0, none, 0⟩, ⟨0, 0, 0, none, 0⟩]⟩,
    alloc_migration_engine := -1, ibs_capable := true, ibs_acquire := 0,
    pebs_capable := false }

/-- A host on which `start_monitoring` succeeds with IBS. -/
def start_host_ok : start_host :=
  { alloc_xenheap_pages := some ⟨4096, [⟨1, 2, 3, none, 4⟩, ⟨5, 6, 7, none, 8⟩,
      ⟨0, 0, 0, none, 0⟩, ⟨0, 0, 0, none, 0⟩]⟩,
    alloc_migration_engine := 0, ibs_capable := true, ibs_acquire := 0,
    pebs_capable := false }

/-! ## Sequences of moves, reference counts, setters, memory_exchange -/

/-- One `memory_move(d, gfn, node)` call of a sequence, with what the host answers
during it. -/
structure move_request where
  host : move_host
  d : Option Nat
  gfn : Nat
  node : Nat

/-- A sequence of `memory_move` calls, one after the other on the same cell; the
sequence stops at a call that does not return. -/
def memory_moves (f : mm_flags) : List move_request → mm_state → mm_state × outcome Unit
  | [], s => (s, outcome.returned ())
  | r :: rest, s =>
    match memory_move f r.host s r.d r.gfn r.node with
    | (s1, outcome.returned _) => memory_moves f rest s1
    | (s1, outcome.bug) => (s1, outcome.bug)
    | (s1, outcome.blocked) => (s1, outcome.blocked)

/-- The number of `get_gfn_unshare(d, gfn)` calls in a call log. -/
def gfn_gets (d : Option Nat) (gfn : Nat) (trace : List mm_logged) : Nat :=
  (trace.filter (fun e => decide (e.call = mm_call.get_gfn_unshare d gfn))).length

/-- The number of `put_gfn(d, gfn)` calls in a call log. -/
def gfn_puts (d : Option Nat) (gfn : Nat) (trace : List mm_logged) : Nat :=
  (trace.filter (fun e => decide (e.call = mm_call.put_gfn d gfn))).length

/-- The `monitor_migration_setscores` of monitor.c (lines 511-523). -/
def monitor_migration_setscores (st : control_state)
    (enter increment decrement maximum : Nat) : control_result :=
  let st1 := { st with
    monitor_enter := enter
    monitor_increment := increment
    monitor_decrement := decrement
    monitor_maximum := maximum }
  if st1.monitoring_started ≠ 0 then
    ⟨st1, [control_call.param_migration_lists enter increment decrement maximum], 0⟩
  else
    ⟨st1, [], 0⟩

/-- The argument quadruples of the `param_migration_lists` calls among the calls. -/
def lists_params (calls : List control_call) : List (Nat × Nat × Nat × Nat) :=
  calls.filterMap (fun c =>
    match c with
    | control_call.param_migration_lists a1 a2 a3 a4 => some (a1, a2, a3, a4)
    | _ => none)

/-- The running monitor with the default scores. -/
def running_monitor : control_state :=
  { stopped_monitor with monitoring_started := 1, migration_queue := some ⟨4096, []⟩ }

/-- The fields of `struct xen_memory_exchange` read by the sanity checks of
`memory_exchange`: `nr_exchanged`, and `nr_extents`, `extent_order`, `domid` of
the `in` and `out` reservations. -/
structure memory_exchange_args where
  nr_exchanged : Nat
  in_nr_extents : Nat
  in_extent_order : Nat
  in_domid : Nat
  out_nr_extents : Nat
  out_extent_order : Nat
  out_domid : Nat
deriving DecidableEq, Repr

/-- The condition of the sanity checks of `memory_exchange` (lines 338-349): true
when the request is refused with `-EINVAL`.  `~0UL` is `2^64 - 1` and a left
shift of an `unsigned long` wraps modulo `2^64`; `MAX_ORDER` is a constant of an
absent header. -/
def exchange_sanity_fails (MAX_ORDER : Nat) (e : memory_exchange_args) : Bool :=
  decide (e.nr_exchanged > e.in_nr_extents) ||
  decide (e.in_domid ≠ e.out_domid) ||
  decide (e.in_extent_order > MAX_ORDER) ||
  decide (e.out_extent_order > MAX_ORDER) ||
  decide (((2 ^ 64 - 1) >>> e.in_extent_order) < e.in_nr_extents) ||
  decide (((2 ^ 64 - 1) >>> e.out_extent_order) < e.out_nr_extents) ||
  decide ((e.in_nr_extents <<< e.in_extent_order) % 2 ^ 64 ≠
    (e.out_nr_extents <<< e.out_extent_order) % 2 ^ 64)

/-- The chunk orders chosen by `memory_exchange` (lines 372-381):
`(in_chunk_order, out_chunk_order)`. -/
def exchange_chunk_orders (e : memory_exchange_args) : Nat × Nat :=
  if e.in_extent_order ≤ e.out_extent_order then
    (e.out_extent_order - e.in_extent_order, 0)
  else
    (0, e.in_extent_order - e.out_extent_order)

/-- The number of pages stolen for one chunk (lines 419-463): `1UL <<
in_chunk_order` extents of `1UL << in.extent_order` pages each. -/
def chunk_pages_stolen (e : memory_exchange_args) : Nat :=
  ((1 <<< (exchange_chunk_orders e).1) % 2 ^ 64) *
    ((1 <<< e.in_extent_order) % 2 ^ 64)

/-- The number of pages allocated for one chunk (lines 466-476): `1UL <<
out_chunk_order` allocations of order `out.extent_order`. -/
def chunk_pages_allocated (e : memory_exchange_args) : Nat :=
  ((1 <<< (exchange_chunk_orders e).2) % 2 ^ 64) * 2 ^ e.out_extent_order

/-- The stopped monitor configured for a queue of 300 slots. -/
def stopped_monitor_300 : control_state :=
  { stopped_monitor with monitor_enqueued := 300 }

/-- A host on which a queue of 300 slots is allocated at address 4096 and the
engine allocation fails. -/
def start_host_no_engine_300 : start_host :=
  { alloc_xenheap_pages := some ⟨4096, List.replicate 300 ⟨0, 0, 0, none, 0⟩⟩,
    alloc_migration_engine := -1, ibs_capable := true, ibs_acquire := 0,
    pebs_capable := false }

/-! ## Lemmas on fill_migration_queue -/

theorem fill_scan_le (pgid : Nat) :
    ∀ (l : List migration_query) (j s : Nat), (fill_scan pgid l j s).1 ≤ j + l.length := by
  intro l
  induction l with
  | nil => intro j s; simp [fill_scan]
  | cons q rest ih =>
    intro j s
    simp only [fill_scan]
    split
    · simp
    · split
      · have := ih (j + 1) j
        simp only [List.length_cons]; omega
      · have := ih (j + 1) s
        simp only [List.length_cons]; omega

theorem fill_scan_complete (pgid : Nat) :
    ∀ (l : List migration_query) (j s : Nat),
      (fill_scan pgid l j s).1 = j + l.length →
      (∀ (k : Nat) (q : migration_query), l[k]? = some q → q.mfn ≠ pgid) ∧
      (((fill_scan pgid l j s).2 = s ∧ ∀ (k : Nat) (q : migration_query), l[k]? = some q → q.mfn ≠ INVALID_MFN) ∨
       (∃ (k : Nat) (q : migration_query), (fill_scan pgid l j s).2 = j + k ∧ l[k]? = some q ∧ q.mfn = INVALID_MFN ∧
          ∀ (k2 : Nat) (q2 : migration_query), k < k2 → l[k2]? = some q2 → q2.mfn ≠ INVALID_MFN)) := by
  intro l
  induction l with
  | nil => intro j s _; simp [fill_scan]
  | cons q rest ih =>
    intro j s h
    simp only [fill_scan] at h ⊢
    by_cases h1 : q.mfn = pgid
    · simp only [h1, if_true] at h
      simp only [List.length_cons] at h
      omega
    · simp only [h1, if_false] at h ⊢
      by_cases h2 : q.mfn = INVALID_MFN
      · simp only [h2, if_true] at h ⊢
        have h3 : (fill_scan pgid rest (j + 1) j).1 = j + 1 + rest.length := by
          simp only [List.length_cons] at h; omega
        obtain ⟨ha, hb⟩ := ih (j + 1) j h3
        refine ⟨?_, Or.inr ?_⟩
        · intro k q0 hk
          cases k with
          | zero => simp at hk; subst hk; exact h1
          | succ k => simp at hk; exact ha k q0 hk
        · rcases hb with ⟨hb1, hb2⟩ | ⟨k, q0, hb1, hb2, hb3, hb4⟩
          · refine ⟨0, q, by simpa using hb1, by simp, h2, ?_⟩
            intro k2 q2 hk2 hq2
            cases k2 with
            | zero => omega
            | succ k2 => simp at hq2; exact hb2 k2 q2 hq2
          · refine ⟨k + 1, q0, by omega, by simpa using hb2, hb3, ?_⟩
            intro k2 q2 hk2 hq2
            cases k2 with
            | zero => omega
            | succ k2 => simp at hq2; exact hb4 k2 q2 (by omega) hq2
      · simp only [h2, if_false] at h ⊢
        have h3 : (fill_scan pgid rest (j + 1) s).1 = j + 1 + rest.length := by
          simp only [List.length_cons] at h; omega
        obtain ⟨ha, hb⟩ := ih (j + 1) s h3
        refine ⟨?_, ?_⟩
        · intro k q0 hk
          cases k with
          | zero => simp at hk; subst hk; exact h1
          | succ k => simp at hk; exact ha k q0 hk
        · rcases hb with ⟨hb1, hb2⟩ | ⟨k, q0, hb1, hb2, hb3, hb4⟩
          · refine Or.inl ⟨hb1, ?_⟩
            intro k q0 hk
            cases k with
            | zero => simp at hk; subst hk; exact h2
            | succ k => simp at hk; exact hb2 k q0 hk
          · refine Or.inr ⟨k + 1, q0, by omega, by simpa using hb2, hb3, ?_⟩
            intro k2 q2 hk2 hq2
            cases k2 with
            | zero => omega
            | succ k2 => simp at hq2; exact hb4 k2 q2 (by omega) hq2

theorem fill_scan_absent (pgid : Nat) :
    ∀ (l : List migration_query) (j s : Nat),
      (∀ (k : Nat) (q : migration_query), l[k]? = some q → q.mfn ≠ pgid) →
      (fill_scan pgid l j s).1 = j + l.length := by
  intro l
  induction l with
  | nil => intro j s _; simp [fill_scan]
  | cons q rest ih =>
    intro j s h
    have h1 : q.mfn ≠ pgid := h 0 q (by simp)
    have hr : ∀ (k : Nat) (q0 : migration_query), rest[k]? = some q0 → q0.mfn ≠ pgid := by
      intro k q0 hk
      exact h (k + 1) q0 (by simpa using hk)
    simp only [fill_scan, h1, if_false, List.length_cons]
    split
    · rw [ih (j + 1) j hr]; omega
    · rw [ih (j + 1) s hr]; omega

theorem queue_distinct_set (q : List migration_query) (k : Nat) (e : migration_query)
    (hd : queue_distinct q) (hk : k < q.length)
    (habs : ∀ (j : Nat) (qj : migration_query), q[j]? = some qj → qj.mfn ≠ e.mfn) :
    queue_distinct (q.set k e) := by
  intro i hi j hj hc
  obtain ⟨hij, hne⟩ := hc
  simp only [List.length_set] at hi hj
  obtain ⟨qi, hqi⟩ : ∃ qi, q[i]? = some qi := ⟨q[i], List.getElem?_eq_getElem hi⟩
  obtain ⟨qj, hqj⟩ : ∃ qj, q[j]? = some qj := ⟨q[j], List.getElem?_eq_getElem hj⟩
  by_cases hik : i = k
  · subst hik
    have hjk : i ≠ j := hij
    rw [List.getElem?_set_self hi, List.getElem?_set_ne hjk, hqj]
    simp only [Option.map_some', ne_eq, Option.some.injEq]
    exact fun h => habs j qj hqj h.symm
  · by_cases hjk : j = k
    · subst hjk
      rw [List.getElem?_set_self hj, List.getElem?_set_ne (Ne.symm hik), hqi]
      simp only [Option.map_some', ne_eq, Option.some.injEq]
      exact habs i qi hqi
    · rw [List.getElem?_set_ne (Ne.symm hik), List.getElem?_set_ne (Ne.symm hjk)]
      rw [List.getElem?_set_ne (Ne.symm hik)] at hne
      exact hd i hi j hj ⟨hij, hne⟩

/-- C1: `fill_migration_queue` never duplicates MFNs.  If no two non-empty slots
of the queue hold the same MFN before the call, then for every migration buffer
(repeated MFNs and MFNs already queued included) no two non-empty slots hold the
same MFN after the call. -/
theorem fill_migration_queue_distinct (buffer : List migration) :
    ∀ st : monitor_state, queue_distinct st.migration_queue →
      queue_distinct (fill_migration_queue st buffer).migration_queue := by
  induction buffer with
  | nil => intro st hd; simpa [fill_migration_queue] using hd
  | cons m rest ih =>
    intro st hd
    simp only [fill_migration_queue]
    split
    · exact ih st hd
    · rename_i hj
      simp only [ne_eq, not_not] at hj
      split
      · exact hd
      · rename_i hs
        apply ih
        simp only
        have hfull : (fill_scan m.pgid st.migration_queue 0 st.monitor_enqueued).1
            = 0 + st.migration_queue.length := by
          simpa [monitor_state.monitor_enqueued] using hj
        obtain ⟨ha, hb⟩ := fill_scan_complete m.pgid st.migration_queue 0 _ hfull
        rcases hb with ⟨hb1, _⟩ | ⟨k, q0, hb1, hb2, _, _⟩
        · exact absurd hb1 hs
        · have hk : k < st.migration_queue.length := by
            rcases Nat.lt_or_ge k st.migration_queue.length with h | h
            · exact h
            · rw [List.getElem?_eq_none h] at hb2; cases hb2
          rw [hb1, Nat.zero_add]
          exact queue_distinct_set _ k _ hd hk (fun j qj hq => ha j qj hq)

/-- C1, at a concrete queue and buffer. -/
theorem fill_migration_queue_distinct_witness :
    queue_distinct
        [⟨7, 0, INVALID_GFN, none, 0⟩, ⟨INVALID_MFN, 0, 0, none, 0⟩,
         ⟨INVALID_MFN, 0, 0, none, 0⟩] ∧
      queue_distinct (fill_migration_queue
        ⟨2, [⟨7, 0, INVALID_GFN, none, 0⟩, ⟨INVALID_MFN, 0, 0, none, 0⟩,
             ⟨INVALID_MFN, 0, 0, none, 0⟩], 0, 0, 0, 0,
          ⟨false, false, INVALID_GFN, none, true⟩⟩
        [⟨100, 0⟩, ⟨7, 1⟩, ⟨100, 0⟩, ⟨101, 1⟩]).migration_queue :=
  ⟨by decide,
   fill_migration_queue_distinct _ _ (by decide)⟩

theorem fill_step_skip (st : monitor_state) (m : migration) (rest : List migration)
    (k : Nat) (q : migration_query) (hq : st.migration_queue[k]? = some q)
    (hm : q.mfn = m.pgid) :
    fill_migration_queue st (m :: rest) = fill_migration_queue st rest := by
  have hne : (fill_scan m.pgid st.migration_queue 0 st.monitor_enqueued).1
      ≠ st.monitor_enqueued := by
    intro h
    have hfull : (fill_scan m.pgid st.migration_queue 0 st.monitor_enqueued).1
        = 0 + st.migration_queue.length := by
      simpa [monitor_state.monitor_enqueued] using h
    exact (fill_scan_complete m.pgid st.migration_queue 0 _ hfull).1 k q hq hm
  simp only [fill_migration_queue]
  rw [if_pos hne]

theorem fill_step_place (st : monitor_state) (m : migration) (rest : List migration)
    (hempty : ∃ q ∈ st.migration_queue, q.mfn = INVALID_MFN)
    (habs : ∀ q ∈ st.migration_queue, q.mfn ≠ m.pgid) :
    ∃ k, last_empty_slot st.migration_queue k ∧
      fill_migration_queue st (m :: rest) =
        fill_migration_queue
          { st with
              migration_planned := (st.migration_planned + 1) % 2 ^ 64
              migration_queue := st.migration_queue.set k (fill_entry m) } rest := by
  have habs2 : ∀ (k : Nat) (q : migration_query),
      st.migration_queue[k]? = some q → q.mfn ≠ m.pgid :=
    fun k q hq => habs q (List.mem_iff_getElem?.mpr ⟨k, hq⟩)
  have hfull := fill_scan_absent m.pgid st.migration_queue 0 st.monitor_enqueued habs2
  obtain ⟨_, hb⟩ := fill_scan_complete m.pgid st.migration_queue 0 _ hfull
  have hj : (fill_scan m.pgid st.migration_queue 0 st.monitor_enqueued).1
      = st.monitor_enqueued := by
    simpa [monitor_state.monitor_enqueued] using hfull
  rcases hb with ⟨_, hb2⟩ | ⟨k, q0, hb1, hb2, hb3, hb4⟩
  · obtain ⟨q, hq, hqe⟩ := hempty
    obtain ⟨n, hn⟩ := List.mem_iff_getElem?.mp hq
    exact absurd hqe (hb2 n q hn)
  · have hk : k < st.migration_queue.length := by
      rcases Nat.lt_or_ge k st.migration_queue.length with h | h
      · exact h
      · rw [List.getElem?_eq_none h] at hb2; cases hb2
    rw [Nat.zero_add] at hb1
    refine ⟨k, ⟨by simp [hb2, hb3], ?_⟩, ?_⟩
    · intro j hjl hkj
      have hqj : st.migration_queue[j]? = some st.migration_queue[j] :=
        List.getElem?_eq_getElem hjl
      rw [hqj]
      simp only [Option.map_some', ne_eq, Option.some.injEq]
      exact hb4 j _ hkj hqj
    · have hs : k ≠ st.monitor_enqueued := by
        simp only [monitor_state.monitor_enqueued]; omega
      simp only [fill_migration_queue, hj, ne_eq, not_true_eq_false, if_false, hb1,
        fill_entry]
      rw [if_neg hs]

theorem last_empty_slot_lt (q : List migration_query) (k : Nat)
    (h : last_empty_slot q k) : k < q.length := by
  rcases Nat.lt_or_ge k q.length with hk | hk
  · exact hk
  · have := h.1
    rw [List.getElem?_eq_none hk] at this
    cases this

theorem fill_dedup_scenario (st : monitor_state)
    (hn : 2 ≤ st.migration_queue.length)
    (hall : ∀ q ∈ st.migration_queue, q.mfn = INVALID_MFN) :
    (fill_migration_queue st [⟨100, 0⟩, ⟨100, 0⟩, ⟨101, 1⟩]).migration_queue =
      (st.migration_queue.set (st.migration_queue.length - 1) (fill_entry ⟨100, 0⟩)).set
        (st.migration_queue.length - 2) (fill_entry ⟨101, 1⟩) := by
  have hinv100 : (100 : Nat) ≠ INVALID_MFN := by decide
  have hinv101 : (101 : Nat) ≠ INVALID_MFN := by decide
  have hget : ∀ j, j < st.migration_queue.length →
      (st.migration_queue[j]?).map migration_query.mfn = some INVALID_MFN := by
    intro j hj
    rw [List.getElem?_eq_getElem hj]
    simp only [Option.map_some', Option.some.injEq]
    exact hall _ (List.getElem_mem hj)
  -- first proposal: placed in the last slot
  obtain ⟨k1, hk1, h1⟩ := fill_step_place st ⟨100, 0⟩ [⟨100, 0⟩, ⟨101, 1⟩]
    ⟨st.migration_queue[0], List.getElem_mem (by omega), hall _ (List.getElem_mem (by omega))⟩
    (fun q hq h => hinv100 (by rw [← hall q hq, h]))
  have hk1lt := last_empty_slot_lt _ _ hk1
  have hk1eq : k1 = st.migration_queue.length - 1 := by
    rcases Nat.lt_or_ge k1 (st.migration_queue.length - 1) with h | h
    · exact absurd (hget (st.migration_queue.length - 1) (by omega))
        (hk1.2 (st.migration_queue.length - 1) (by omega) h)
    · omega
  subst hk1eq
  rw [h1]
  -- second proposal: already queued, skipped
  rw [fill_step_skip _ ⟨100, 0⟩ [⟨101, 1⟩] (st.migration_queue.length - 1)
    (fill_entry ⟨100, 0⟩) (by simp [List.getElem?_set_self hk1lt]) rfl]
  -- third proposal: placed in the slot before the last
  obtain ⟨k2, hk2, h2⟩ := fill_step_place
    { st with
        migration_planned := (st.migration_planned + 1) % 2 ^ 64
        migration_queue := st.migration_queue.set (st.migration_queue.length - 1)
          (fill_entry ⟨100, 0⟩) } ⟨101, 1⟩ []
    (by
      refine ⟨st.migration_queue[0], ?_, hall _ (List.getElem_mem (by omega))⟩
      apply List.mem_iff_getElem?.mpr
      refine ⟨0, ?_⟩
      simp only
      rw [List.getElem?_set_ne (by omega)]
      exact List.getElem?_eq_getElem (by omega))
    (by
      intro q hq
      simp only at hq
      rcases List.mem_or_eq_of_mem_set hq with h | h
      · intro h3; exact hinv101 (by rw [← hall q h, h3])
      · subst h; simp [fill_entry])
  simp only at hk2 h2
  have hk2lt := last_empty_slot_lt _ _ hk2
  simp only [List.length_set] at hk2lt
  have hk2ne : k2 ≠ st.migration_queue.length - 1 := by
    intro h
    have := hk2.1
    rw [h, List.getElem?_set_self hk1lt] at this
    simp [fill_entry] at this
    exact hinv100 this
  have hk2eq : k2 = st.migration_queue.length - 2 := by
    rcases Nat.lt_or_ge k2 (st.migration_queue.length - 2) with h | h
    · have h3 := hk2.2 (st.migration_queue.length - 2) (by simp; omega) h
      rw [List.getElem?_set_ne (by omega)] at h3
      exact absurd (hget (st.migration_queue.length - 2) (by omega)) h3
    · omega
  subst hk2eq
  rw [h2]
  simp [fill_migration_queue]

/-- C2 as stated fails: filling an all-empty queue of three slots with the buffer
[(100,0),(100,0),(101,1)] does not yield slot 0 = (100,0), slot 1 = (101,1) and
slot 2 empty; the proposals go to the highest-index empty slots instead. -/
theorem fill_migration_queue_first_slot_counterexample :
    ¬ (((fill_migration_queue
            ⟨2, [⟨INVALID_MFN, 0, 0, none, 0⟩, ⟨INVALID_MFN, 0, 0, none, 0⟩,
                 ⟨INVALID_MFN, 0, 0, none, 0⟩], 0, 0, 0, 0,
              ⟨false, false, INVALID_GFN, none, true⟩⟩
            [⟨100, 0⟩, ⟨100, 0⟩, ⟨101, 1⟩]).migration_queue.map
          (fun q => (q.mfn, q.node))) = [(100, 0), (101, 1), (INVALID_MFN, 0)]) ∧
      (fill_migration_queue
            ⟨2, [⟨INVALID_MFN, 0, 0, none, 0⟩, ⟨INVALID_MFN, 0, 0, none, 0⟩,
                 ⟨INVALID_MFN, 0, 0, none, 0⟩], 0, 0, 0, 0,
              ⟨false, false, INVALID_GFN, none, true⟩⟩
            [⟨100, 0⟩, ⟨100, 0⟩, ⟨101, 1⟩]).migration_queue =
        [⟨INVALID_MFN, 0, 0, none, 0⟩, ⟨101, 1, INVALID_GFN, none, 0⟩,
         ⟨100, 0, INVALID_GFN, none, 0⟩] := by
  decide

/-- C2 (amended): for every queue with at least one empty slot and every proposal
whose MFN is held by no slot of the queue, `fill_migration_queue` places the
proposal in the last (highest-index) empty slot, with GFN unbound, domain NULL
and tries zero, and goes on with the rest of the buffer; in particular, filling
an all-empty queue of capacity n at least 2 with the buffer
[(100,0),(100,0),(101,1)] yields slot n-1 = (100,0), slot n-2 = (101,1) and
leaves every other slot as it was (empty). -/
theorem fill_migration_queue_last_slot
    (st : monitor_state) (m : migration) (rest : List migration)
    (hempty : ∃ q ∈ st.migration_queue, q.mfn = INVALID_MFN)
    (habs : ∀ q ∈ st.migration_queue, q.mfn ≠ m.pgid)
    (st2 : monitor_state) (hn : 2 ≤ st2.migration_queue.length)
    (hall : ∀ q ∈ st2.migration_queue, q.mfn = INVALID_MFN) :
    (∃ k, last_empty_slot st.migration_queue k ∧
      fill_migration_queue st (m :: rest) =
        fill_migration_queue
          { st with
              migration_planned := (st.migration_planned + 1) % 2 ^ 64
              migration_queue := st.migration_queue.set k (fill_entry m) } rest) ∧
    (fill_migration_queue st2 [⟨100, 0⟩, ⟨100, 0⟩, ⟨101, 1⟩]).migration_queue =
      (st2.migration_queue.set (st2.migration_queue.length - 1) (fill_entry ⟨100, 0⟩)).set
        (st2.migration_queue.length - 2) (fill_entry ⟨101, 1⟩) :=
  ⟨fill_step_place st m rest hempty habs, fill_dedup_scenario st2 hn hall⟩

/-- C2 (amended), at a concrete queue holding MFN 7 and at the all-empty queue of
three slots. -/
theorem fill_migration_queue_last_slot_witness :
    (∃ k, last_empty_slot
        [⟨7, 0, INVALID_GFN, none, 0⟩, ⟨INVALID_MFN, 0, 0, none, 0⟩,
         ⟨INVALID_MFN, 0, 0, none, 0⟩, ⟨9, 1, 5, some 1, 0⟩] k ∧
      fill_migration_queue
          ⟨2, [⟨7, 0, INVALID_GFN, none, 0⟩, ⟨INVALID_MFN, 0, 0, none, 0⟩,
               ⟨INVALID_MFN, 0, 0, none, 0⟩, ⟨9, 1, 5, some 1, 0⟩], 0, 0, 0, 0,
            ⟨false, false, INVALID_GFN, none, true⟩⟩ (⟨100, 0⟩ :: [⟨101, 1⟩]) =
        fill_migration_queue
          ⟨2, ([⟨7, 0, INVALID_GFN, none, 0⟩, ⟨INVALID_MFN, 0, 0, none, 0⟩,
               ⟨INVALID_MFN, 0, 0, none, 0⟩, ⟨9, 1, 5, some 1, 0⟩] : List migration_query).set
                 k (fill_entry ⟨100, 0⟩), (0 + 1) % 2 ^ 64, 0, 0, 0,
            ⟨false, false, INVALID_GFN, none, true⟩⟩ [⟨101, 1⟩]) ∧
    (fill_migration_queue
        ⟨2, [⟨INVALID_MFN, 0, 0, none, 0⟩, ⟨INVALID_MFN, 0, 0, none, 0⟩,
             ⟨INVALID_MFN, 0, 0, none, 0⟩], 0, 0, 0, 0,
          ⟨false, false, INVALID_GFN, none, true⟩⟩
        [⟨100, 0⟩, ⟨100, 0⟩, ⟨101, 1⟩]).migration_queue =
      (([⟨INVALID_MFN, 0, 0, none, 0⟩, ⟨INVALID_MFN, 0, 0, none, 0⟩,
        ⟨INVALID_MFN, 0, 0, none, 0⟩] : List migration_query).set (3 - 1)
          (fill_entry ⟨100, 0⟩)).set (3 - 2) (fill_entry ⟨101, 1⟩) :=
  fill_migration_queue_last_slot
    ⟨2, [⟨7, 0, INVALID_GFN, none, 0⟩, ⟨INVALID_MFN, 0, 0, none, 0⟩,
         ⟨INVALID_MFN, 0, 0, none, 0⟩, ⟨9, 1, 5, some 1, 0⟩], 0, 0, 0, 0,
      ⟨false, false, INVALID_GFN, none, true⟩⟩ ⟨100, 0⟩ [⟨101, 1⟩]
    (by decide) (by decide)
    ⟨2, [⟨INVALID_MFN, 0, 0, none, 0⟩, ⟨INVALID_MFN, 0, 0, none, 0⟩,
         ⟨INVALID_MFN, 0, 0, none, 0⟩], 0, 0, 0, 0,
      ⟨false, false, INVALID_GFN, none, true⟩⟩ (by decide) (by decide)

/-! ## The page-move protocol of memory.c -/

theorem memflags_has_node (f : mm_flags) (h : move_host) (node : Nat) :
    move_memflags f h node &&& (f.MEMF_node node % 2 ^ 32) = f.MEMF_node node % 2 ^ 32 := by
  apply Nat.eq_of_testBit_eq
  intro i
  simp only [move_memflags, Nat.testBit_and, Nat.testBit_mod_two_pow, Nat.testBit_or]
  cases decide (i < 32) <;>
    cases (f.MEMF_bits (h.domain_clamp_alloc_bitsize % 2 ^ 32)).testBit i <;>
    cases (f.MEMF_node node).testBit i <;> cases f.MEMF_exact_node.testBit i <;> rfl

theorem memflags_has_exact_node (f : mm_flags) (h : move_host) (node : Nat) :
    move_memflags f h node &&& (f.MEMF_exact_node % 2 ^ 32) = f.MEMF_exact_node % 2 ^ 32 := by
  apply Nat.eq_of_testBit_eq
  intro i
  simp only [move_memflags, Nat.testBit_and, Nat.testBit_mod_two_pow, Nat.testBit_or]
  cases decide (i < 32) <;>
    cases (f.MEMF_bits (h.domain_clamp_alloc_bitsize % 2 ^ 32)).testBit i <;>
    cases (f.MEMF_node node).testBit i <;> cases f.MEMF_exact_node.testBit i <;> rfl

theorem steal_success (f : mm_flags) (h : move_host) (s : mm_state) (d : Option Nat)
    (gfn : Nat) (hshared : h.p2m_is_shared = false) (hvalid : h.mfn_valid = true)
    (hsteal : h.steal_page = 0) :
    __memory_move_steal f h s d gfn =
      (((s.log (mm_call.get_gfn_unshare d gfn)).log
          (mm_call.steal_page d (mfn_to_page h.get_gfn_unshare) f.MEMF_no_refcount)),
        some (mfn_to_page h.get_gfn_unshare)) := by
  simp [__memory_move_steal, hshared, hvalid, hsteal]

theorem replace_success (f : mm_flags) (h : move_host) (s : mm_state) (d : Option Nat)
    (gfn : Nat) (old new : page_info) (hassign : h.assign_pages_new = 0)
    (hfree : locks_free s.cell) :
    ∃ s2, __memory_move_replace f h s d gfn old new = (s2, outcome.returned 0) ∧
      locks_free s2.cell ∧
      s2.trace.map mm_logged.call = s.trace.map mm_logged.call ++
        ([mm_call.assign_pages d new 0 f.MEMF_no_refcount,
          mm_call.set_memory_moved_gfn d gfn,
          mm_call.p2m_set_entry d gfn (page_to_mfn old) 0 p2m_type.p2m_ram_ro
            p2m_access.p2m_access_rx,
          mm_call.copy_domain_page (page_to_mfn new) (page_to_mfn old),
          mm_call.guest_physmap_add_page d gfn (page_to_mfn new) 0,
          mm_call.clear_memory_moved_gfn,
          mm_call.put_page old] ++
         (if h.paging_mode_translate then []
          else [mm_call.set_gpfn_from_mfn (page_to_mfn new) gfn])) := by
  obtain ⟨hl, hw⟩ := hfree
  cases ht : h.paging_mode_translate <;>
    simp [__memory_move_replace, hassign, set_memory_moved_gfn, clear_memory_moved_gfn,
      spin_lock, spin_unlock, mm_state.log, hl, hw, ht, locks_free]

/-- C6: when the steal, the allocation and the assignment all succeed (and the
two cell locks are free at entry, so that the move is not stalled),
`memory_move(d, gfn, node)` returns the MFN of the new page, which is not
`INVALID_MFN` for a frame-table page; the calls it makes are exactly the listed
ones, in this order: the allocation is requested with flags that contain
`MEMF_node(node)` and `MEMF_exact_node`, the last physmap update is
`guest_physmap_add_page(d, gfn, new_mfn, 0)`, `put_page(old)` is called, and the
new page is never freed. -/
theorem memory_move_success (f : mm_flags) (h : move_host) (s : mm_state)
    (d : Option Nat) (gfn node : Nat) (new : page_info)
    (hshared : h.p2m_is_shared = false) (hvalid : h.mfn_valid = true)
    (hsteal : h.steal_page = 0) (halloc : h.alloc_domheap_pages = some new)
    (hassign : h.assign_pages_new = 0) (hfree : locks_free s.cell)
    (hframe : page_to_mfn new ≠ INVALID_MFN) :
    (memory_move f h s d gfn node).2 = outcome.returned (page_to_mfn new) ∧
    (memory_move f h s d gfn node).2 ≠ outcome.returned INVALID_MFN ∧
    (memory_move f h s d gfn node).1.trace.map mm_logged.call =
      s.trace.map mm_logged.call ++
        ([mm_call.get_gfn_unshare d gfn,
          mm_call.steal_page d (mfn_to_page h.get_gfn_unshare) f.MEMF_no_refcount,
          mm_call.alloc_domheap_pages none 0 (move_memflags f h node),
          mm_call.assign_pages d new 0 f.MEMF_no_refcount,
          mm_call.set_memory_moved_gfn d gfn,
          mm_call.p2m_set_entry d gfn h.get_gfn_unshare 0 p2m_type.p2m_ram_ro
            p2m_access.p2m_access_rx,
          mm_call.copy_domain_page (page_to_mfn new) h.get_gfn_unshare,
          mm_call.guest_physmap_add_page d gfn (page_to_mfn new) 0,
          mm_call.clear_memory_moved_gfn,
          mm_call.put_page (mfn_to_page h.get_gfn_unshare)] ++
         (if h.paging_mode_translate then []
          else [mm_call.set_gpfn_from_mfn (page_to_mfn new) gfn]) ++
         [mm_call.put_gfn d gfn]) ∧
    move_memflags f h node &&& (f.MEMF_node node % 2 ^ 32) = f.MEMF_node node % 2 ^ 32 ∧
    move_memflags f h node &&& (f.MEMF_exact_node % 2 ^ 32) = f.MEMF_exact_node % 2 ^ 32 := by
  have hcell : locks_free
      (((s.log (mm_call.get_gfn_unshare d gfn)).log
          (mm_call.steal_page d (mfn_to_page h.get_gfn_unshare) f.MEMF_no_refcount)).log
        (mm_call.alloc_domheap_pages none 0 (move_memflags f h node))).cell := by
    simpa [mm_state.log] using hfree
  obtain ⟨s2, hrep, _, htr⟩ := replace_success f h _ d gfn
    (mfn_to_page h.get_gfn_unshare) new hassign hcell
  have hmove : memory_move f h s d gfn node =
      (s2.log (mm_call.put_gfn d gfn), outcome.returned (page_to_mfn new)) := by
    simp only [memory_move, steal_success f h s d gfn hshared hvalid hsteal, halloc, hrep]
    simp
  refine ⟨by rw [hmove], ?_, ?_, memflags_has_node f h node, memflags_has_exact_node f h node⟩
  · rw [hmove]
    intro hc
    exact hframe (by simpa using hc)
  · rw [hmove]
    simp only [mm_state.log, List.map_append, htr]
    simp [mm_state.log, page_to_mfn, mfn_to_page]

/-- C6, for domain 1, GFN 5, node 1 on the idle cell: frame 10 is replaced by
frame 20. -/
theorem memory_move_success_witness :
    (memory_move xen_flags host_ok ⟨idle_cell, []⟩ (some 1) 5 1).2 =
      outcome.returned 20 ∧
    (memory_move xen_flags host_ok ⟨idle_cell, []⟩ (some 1) 5 1).1.trace.map
        mm_logged.call =
      [mm_call.get_gfn_unshare (some 1) 5,
       mm_call.steal_page (some 1) ⟨10⟩ 1,
       mm_call.alloc_domheap_pages none 0 528,
       mm_call.assign_pages (some 1) ⟨20⟩ 0 1,
       mm_call.set_memory_moved_gfn (some 1) 5,
       mm_call.p2m_set_entry (some 1) 5 10 0 p2m_type.p2m_ram_ro p2m_access.p2m_access_rx,
       mm_call.copy_domain_page 20 10,
       mm_call.guest_physmap_add_page (some 1) 5 20 0,
       mm_call.clear_memory_moved_gfn,
       mm_call.put_page ⟨10⟩,
       mm_call.put_gfn (some 1) 5] :=
  have h := memory_move_success xen_flags host_ok ⟨idle_cell, []⟩ (some 1) 5 1 ⟨20⟩
    rfl rfl rfl rfl rfl (by decide) (by decide)
  ⟨h.1, h.2.2.1⟩

/-- C7 as stated fails: the steal succeeds and `alloc_domheap_pages` returns
`NULL`, yet `memory_move` does not return `INVALID_MFN`, because `assign_pages`
refuses the old page and the call ends in `BUG()`. -/
theorem memory_move_alloc_failure_counterexample :
    host_no_memory_dying.p2m_is_shared = false ∧
    host_no_memory_dying.mfn_valid = true ∧
    host_no_memory_dying.steal_page = 0 ∧
    host_no_memory_dying.alloc_domheap_pages = none ∧
    (memory_move xen_flags host_no_memory_dying ⟨idle_cell, []⟩ (some 1) 5 1).2 ≠
      outcome.returned INVALID_MFN ∧
    (memory_move xen_flags host_no_memory_dying ⟨idle_cell, []⟩ (some 1) 5 1).2 =
      outcome.bug := by
  decide

/-- C7 (amended): when stealing the old page succeeds but `alloc_domheap_pages`
returns `NULL`, `memory_move` makes exactly the calls get_gfn_unshare, steal_page,
alloc_domheap_pages, put_gfn and `assign_pages(d, old, 0, MEMF_no_refcount)`: no
physmap entry is changed, no page is copied, no page is freed and the
fault-protection cell is never entered (it is left as it was); it returns
`INVALID_MFN` when that `assign_pages` call succeeds, and ends in `BUG()` without
returning when it fails. -/
theorem memory_move_alloc_failure (f : mm_flags) (h : move_host) (s : mm_state)
    (d : Option Nat) (gfn node : Nat)
    (hshared : h.p2m_is_shared = false) (hvalid : h.mfn_valid = true)
    (hsteal : h.steal_page = 0) (halloc : h.alloc_domheap_pages = none) :
    (memory_move f h s d gfn node).1.trace =
      s.trace ++ stamped s.cell.memory_moved_domain s.cell.memory_moved_gfn
        [mm_call.get_gfn_unshare d gfn,
         mm_call.steal_page d (mfn_to_page h.get_gfn_unshare) f.MEMF_no_refcount,
         mm_call.alloc_domheap_pages none 0 (move_memflags f h node),
         mm_call.put_gfn d gfn,
         mm_call.assign_pages d (mfn_to_page h.get_gfn_unshare) 0 f.MEMF_no_refcount] ∧
    (memory_move f h s d gfn node).1.cell = s.cell ∧
    (h.assign_pages_old = 0 →
      (memory_move f h s d gfn node).2 = outcome.returned INVALID_MFN) ∧
    (h.assign_pages_old ≠ 0 → (memory_move f h s d gfn node).2 = outcome.bug) := by
  simp only [memory_move, steal_success f h s d gfn hshared hvalid hsteal, halloc,
    memory_move_fail_old]
  by_cases hold : h.assign_pages_old = 0 <;> simp [hold, mm_state.log, stamped]

/-- C7 (amended), on a host without memory on the target node that takes the old
page back. -/
theorem memory_move_alloc_failure_witness :
    (memory_move xen_flags host_no_memory ⟨idle_cell, []⟩ (some 1) 5 1).2 =
      outcome.returned INVALID_MFN :=
  (memory_move_alloc_failure xen_flags host_no_memory ⟨idle_cell, []⟩ (some 1) 5 1
    rfl rfl rfl rfl).2.2.1 rfl

/-- C8 as stated fails: assigning the new page fails, yet `memory_move` does not
return `INVALID_MFN`, because `assign_pages` refuses the old page as well (the
domain is dying) and the call ends in `BUG()`. -/
theorem memory_move_assign_failure_counterexample :
    host_dying.assign_pages_new ≠ 0 ∧
    (memory_move xen_flags host_dying ⟨idle_cell, []⟩ (some 1) 5 1).2 ≠
      outcome.returned INVALID_MFN ∧
    (memory_move xen_flags host_dying ⟨idle_cell, []⟩ (some 1) 5 1).2 = outcome.bug := by
  decide

/-- C8 (amended): when assigning the new page to the domain fails,
`__memory_move_replace` returns -1 having made the `assign_pages` call only (no
fault-cell entry, no physmap update, no copy; the cell is left as it was), and
`memory_move` then frees the new page, releases the GFN and calls
`assign_pages(d, old, 0, MEMF_no_refcount)`; it returns `INVALID_MFN` when that
call succeeds, and ends in `BUG()` without returning when it fails. -/
theorem memory_move_assign_failure (f : mm_flags) (h : move_host) (s : mm_state)
    (d : Option Nat) (gfn node : Nat) (new : page_info)
    (hshared : h.p2m_is_shared = false) (hvalid : h.mfn_valid = true)
    (hsteal : h.steal_page = 0) (halloc : h.alloc_domheap_pages = some new)
    (hassign : h.assign_pages_new ≠ 0) :
    (∀ (s0 : mm_state) (old : page_info),
      __memory_move_replace f h s0 d gfn old new =
        (⟨s0.cell, s0.trace ++ stamped s0.cell.memory_moved_domain s0.cell.memory_moved_gfn
            [mm_call.assign_pages d new 0 f.MEMF_no_refcount]⟩, outcome.returned (-1))) ∧
    (memory_move f h s d gfn node).1.trace =
      s.trace ++ stamped s.cell.memory_moved_domain s.cell.memory_moved_gfn
        [mm_call.get_gfn_unshare d gfn,
         mm_call.steal_page d (mfn_to_page h.get_gfn_unshare) f.MEMF_no_refcount,
         mm_call.alloc_domheap_pages none 0 (move_memflags f h node),
         mm_call.assign_pages d new 0 f.MEMF_no_refcount,
         mm_call.free_domheap_pages new 0,
         mm_call.put_gfn d gfn,
         mm_call.assign_pages d (mfn_to_page h.get_gfn_unshare) 0 f.MEMF_no_refcount] ∧
    (memory_move f h s d gfn node).1.cell = s.cell ∧
    (h.assign_pages_old = 0 →
      (memory_move f h s d gfn node).2 = outcome.returned INVALID_MFN) ∧
    (h.assign_pages_old ≠ 0 → (memory_move f h s d gfn node).2 = outcome.bug) := by
  have hrep : ∀ (s0 : mm_state) (old : page_info),
      __memory_move_replace f h s0 d gfn old new =
        (⟨s0.cell, s0.trace ++ stamped s0.cell.memory_moved_domain s0.cell.memory_moved_gfn
            [mm_call.assign_pages d new 0 f.MEMF_no_refcount]⟩, outcome.returned (-1)) := by
    intro s0 old
    simp [__memory_move_replace, hassign, mm_state.log, stamped]
  refine ⟨hrep, ?_⟩
  simp only [memory_move, steal_success f h s d gfn hshared hvalid hsteal, halloc, hrep,
    memory_move_fail_old]
  by_cases hold : h.assign_pages_old = 0 <;> simp [hold, mm_state.log, stamped]

/-- C8 (amended), on a host that refuses the new page and takes the old page
back. -/
theorem memory_move_assign_failure_witness :
    (memory_move xen_flags host_no_assign ⟨idle_cell, []⟩ (some 1) 5 1).2 =
      outcome.returned INVALID_MFN :=
  (memory_move_assign_failure xen_flags host_no_assign ⟨idle_cell, []⟩ (some 1) 5 1 ⟨20⟩
    rfl rfl rfl rfl (by decide)).2.2.2.1 rfl

/-- C10: on every successful run of `__memory_move_replace` (it returns 0) the
calls are, in this order: assign the new page, enter the fault-protection cell
with (d, gfn), set the physmap entry of gfn to the old MFN with type
`p2m_ram_ro`, copy the old page to the new page, install the new MFN in the
physmap, clear the cell, drop the reference on the old page, and, only when the
domain is not translated, update the reverse map.  The stamps show that the two
physmap updates and the copy are made while the cell holds (d, gfn), and that
the cell is empty again when the old page is released. -/
theorem memory_move_replace_order (f : mm_flags) (h : move_host) (s s2 : mm_state)
    (d : Option Nat) (gfn : Nat) (old new : page_info)
    (hrun : __memory_move_replace f h s d gfn old new = (s2, outcome.returned 0)) :
    s2.trace =
      s.trace ++
        stamped s.cell.memory_moved_domain s.cell.memory_moved_gfn
          [mm_call.assign_pages d new 0 f.MEMF_no_refcount,
           mm_call.set_memory_moved_gfn d gfn] ++
        stamped d gfn
          [mm_call.p2m_set_entry d gfn (page_to_mfn old) 0 p2m_type.p2m_ram_ro
             p2m_access.p2m_access_rx,
           mm_call.copy_domain_page (page_to_mfn new) (page_to_mfn old),
           mm_call.guest_physmap_add_page d gfn (page_to_mfn new) 0,
           mm_call.clear_memory_moved_gfn] ++
        stamped none INVALID_GFN
          ([mm_call.put_page old] ++
           (if h.paging_mode_translate then []
            else [mm_call.set_gpfn_from_mfn (page_to_mfn new) gfn])) := by
  unfold __memory_move_replace at hrun
  by_cases ha : h.assign_pages_new = 0
  · cases hl : s.cell.memory_moved_spinlock <;> cases hw : s.cell.memory_moved_waiter <;>
      cases ht : h.paging_mode_translate <;>
      simp [ha, hl, hw, ht, set_memory_moved_gfn, clear_memory_moved_gfn, spin_lock,
        spin_unlock, mm_state.log] at hrun <;>
      (subst hrun; simp [stamped])
  · simp [ha] at hrun

/-- C10, for domain 1, GFN 5, old frame 10 and new frame 20 on the idle cell. -/
theorem memory_move_replace_order_witness :
    (__memory_move_replace xen_flags host_ok ⟨idle_cell, []⟩ (some 1) 5 ⟨10⟩ ⟨20⟩).1.trace =
      [] ++
        stamped idle_cell.memory_moved_domain idle_cell.memory_moved_gfn
          [mm_call.assign_pages (some 1) ⟨20⟩ 0 xen_flags.MEMF_no_refcount,
           mm_call.set_memory_moved_gfn (some 1) 5] ++
        stamped (some 1) 5
          [mm_call.p2m_set_entry (some 1) 5 (page_to_mfn ⟨10⟩) 0 p2m_type.p2m_ram_ro
             p2m_access.p2m_access_rx,
           mm_call.copy_domain_page (page_to_mfn ⟨20⟩) (page_to_mfn ⟨10⟩),
           mm_call.guest_physmap_add_page (some 1) 5 (page_to_mfn ⟨20⟩) 0,
           mm_call.clear_memory_moved_gfn] ++
        stamped none INVALID_GFN
          ([mm_call.put_page ⟨10⟩] ++
           (if host_ok.paging_mode_translate then []
            else [mm_call.set_gpfn_from_mfn (page_to_mfn ⟨20⟩) 5])) :=
  memory_move_replace_order xen_flags host_ok ⟨idle_cell, []⟩ _ (some 1) 5 ⟨10⟩ ⟨20⟩ rfl

theorem memory_move_returns (f : mm_flags) (h : move_host) (s : mm_state)
    (d : Option Nat) (gfn node : Nat) (hfree : locks_free s.cell)
    (hold : h.assign_pages_old = 0) :
    ∃ s2 v, memory_move f h s d gfn node = (s2, outcome.returned v) ∧
      locks_free s2.cell := by
  obtain ⟨hl, hw⟩ := hfree
  cases hsh : h.p2m_is_shared <;> cases hv : h.mfn_valid <;>
    cases hal : h.alloc_domheap_pages <;>
    cases ht : h.paging_mode_translate <;>
    by_cases hst : h.steal_page = 0 <;>
    by_cases has : h.assign_pages_new = 0 <;>
    simp [memory_move, __memory_move_steal, __memory_move_replace, memory_move_fail_old,
      set_memory_moved_gfn, clear_memory_moved_gfn, spin_lock, spin_unlock, mm_state.log,
      hsh, hv, hal, ht, hst, has, hold, hl, hw, locks_free]

theorem memory_move_shared (f : mm_flags) (h : move_host) (s : mm_state)
    (d : Option Nat) (gfn node : Nat) (hshared : h.p2m_is_shared = true) :
    memory_move f h s d gfn node =
      (⟨s.cell, s.trace ++ stamped s.cell.memory_moved_domain s.cell.memory_moved_gfn
          [mm_call.get_gfn_unshare d gfn, mm_call.put_gfn d gfn]⟩,
        outcome.returned INVALID_MFN) := by
  simp [memory_move, __memory_move_steal, hshared, mm_state.log, stamped]

/-! ## Lemmas on drain_migration_queue -/

theorem drain_entry_none (env : drain_env) (i : Nat) (st : monitor_state)
    (hq : st.migration_queue[i]? = none) :
    drain_entry env i st = ⟨st, [], outcome.returned ()⟩ := by
  simp only [drain_entry, hq]

theorem drain_entry_empty (env : drain_env) (i : Nat) (st : monitor_state)
    (q : migration_query) (hq : st.migration_queue[i]? = some q)
    (h1 : q.mfn = INVALID_MFN) :
    drain_entry env i st = ⟨st, [], outcome.returned ()⟩ := by
  simp only [drain_entry, hq, h1, if_true]

theorem drain_entry_home (env : drain_env) (i : Nat) (st : monitor_state)
    (q : migration_query) (hq : st.migration_queue[i]? = some q)
    (h1 : q.mfn ≠ INVALID_MFN)
    (h2 : q.node = env.phys_to_nid ((q.mfn <<< env.PAGE_SHIFT) % 2 ^ 64)) :
    drain_entry env i st =
      ⟨{ st with migration_queue :=
            st.migration_queue.set i { q with mfn := INVALID_MFN } },
        [(i, drain_call.register_page_moved q.mfn)], outcome.returned ()⟩ := by
  simp only [drain_entry, hq, h1, if_false]
  rw [if_pos h2]

theorem drain_entry_abort (env : drain_env) (i : Nat) (st : monitor_state)
    (q : migration_query) (hq : st.migration_queue[i]? = some q)
    (h1 : q.mfn ≠ INVALID_MFN)
    (h2 : q.node ≠ env.phys_to_nid ((q.mfn <<< env.PAGE_SHIFT) % 2 ^ 64))
    (h3 : q.gfn = INVALID_GFN) (h4 : (q.tries + 1) % 2 ^ 32 ≥ st.monitor_maxtries) :
    drain_entry env i st =
      ⟨{ st with
          migration_queue := st.migration_queue.set i
            { q with tries := (q.tries + 1) % 2 ^ 32, mfn := INVALID_MFN }
          migration_aborted := (st.migration_aborted + 1) % 2 ^ 64 },
        [(i, drain_call.stats_account_migration_abort)], outcome.returned ()⟩ := by
  simp only [drain_entry, hq, h1, if_false]
  rw [if_neg h2, if_pos h3, if_pos h4]

theorem drain_entry_retry (env : drain_env) (i : Nat) (st : monitor_state)
    (q : migration_query) (hq : st.migration_queue[i]? = some q)
    (h1 : q.mfn ≠ INVALID_MFN)
    (h2 : q.node ≠ env.phys_to_nid ((q.mfn <<< env.PAGE_SHIFT) % 2 ^ 64))
    (h3 : q.gfn = INVALID_GFN) (h4 : ¬ (q.tries + 1) % 2 ^ 32 ≥ st.monitor_maxtries) :
    drain_entry env i st =
      ⟨{ st with
          migration_queue := st.migration_queue.set i
            { q with tries := (q.tries + 1) % 2 ^ 32 } },
        [], outcome.returned ()⟩ := by
  simp only [drain_entry, hq, h1, if_false]
  rw [if_neg h2, if_pos h3, if_neg h4]

theorem drain_entry_move (env : drain_env) (i : Nat) (st : monitor_state)
    (q : migration_query) (hq : st.migration_queue[i]? = some q)
    (h1 : q.mfn ≠ INVALID_MFN)
    (h2 : q.node ≠ env.phys_to_nid ((q.mfn <<< env.PAGE_SHIFT) % 2 ^ 64))
    (h3 : q.gfn ≠ INVALID_GFN) (s : mm_state) (v : Nat)
    (hm : memory_move env.flags (env.host i) ⟨st.moved, []⟩ q.domain q.gfn q.node =
      (s, outcome.returned v)) :
    drain_entry env i st =
      ⟨{ st with
          moved := s.cell
          migration_tries := (st.migration_tries + 1) % 2 ^ 64
          migration_succeed :=
            (st.migration_succeed + (if ulong_to_int v = 0 then 1 else 0)) % 2 ^ 64
          migration_queue := st.migration_queue.set i { q with mfn := INVALID_MFN } },
        [(i, drain_call.memory_move q.domain q.gfn q.node),
         (i, drain_call.stats_account_migration_try (ulong_to_int v)),
         (i, drain_call.register_page_moved q.mfn)],
        outcome.returned ()⟩ := by
  simp only [drain_entry, hq, h1, if_false]
  rw [if_neg h2, if_neg h3]
  simp only [hm]

theorem drain_entry_stopped (env : drain_env) (i : Nat) (st : monitor_state)
    (q : migration_query) (hq : st.migration_queue[i]? = some q)
    (h1 : q.mfn ≠ INVALID_MFN)
    (h2 : q.node ≠ env.phys_to_nid ((q.mfn <<< env.PAGE_SHIFT) % 2 ^ 64))
    (h3 : q.gfn ≠ INVALID_GFN) (s : mm_state) (o : outcome Nat)
    (ho : ∀ v, o ≠ outcome.returned v)
    (hm : memory_move env.flags (env.host i) ⟨st.moved, []⟩ q.domain q.gfn q.node =
      (s, o)) :
    (drain_entry env i st).st = { st with moved := s.cell } ∧
    (drain_entry env i st).calls =
      [(i, drain_call.memory_move q.domain q.gfn q.node)] := by
  simp only [drain_entry, hq, h1, if_false]
  rw [if_neg h2, if_neg h3]
  cases o with
  | returned v => exact absurd rfl (ho v)
  | bug => simp only [hm, and_self]
  | blocked => simp only [hm, and_self]

theorem drain_entry_facts (env : drain_env) (i : Nat) (st : monitor_state) :
    (∀ k, i ≠ k →
      (drain_entry env i st).st.migration_queue[k]? = st.migration_queue[k]?) ∧
    (drain_entry env i st).st.monitor_maxtries = st.monitor_maxtries ∧
    (∀ c ∈ (drain_entry env i st).calls, c.1 = i) := by
  rcases hq : st.migration_queue[i]? with _ | q
  · rw [drain_entry_none env i st hq]; simp
  · by_cases h1 : q.mfn = INVALID_MFN
    · rw [drain_entry_empty env i st q hq h1]; simp
    · by_cases h2 : q.node = env.phys_to_nid ((q.mfn <<< env.PAGE_SHIFT) % 2 ^ 64)
      · rw [drain_entry_home env i st q hq h1 h2]
        exact ⟨fun k hk => List.getElem?_set_ne hk, rfl, by simp⟩
      · by_cases h3 : q.gfn = INVALID_GFN
        · by_cases h4 : (q.tries + 1) % 2 ^ 32 ≥ st.monitor_maxtries
          · rw [drain_entry_abort env i st q hq h1 h2 h3 h4]
            exact ⟨fun k hk => List.getElem?_set_ne hk, rfl, by simp⟩
          · rw [drain_entry_retry env i st q hq h1 h2 h3 h4]
            exact ⟨fun k hk => List.getElem?_set_ne hk, rfl, by simp⟩
        · rcases hm : memory_move env.flags (env.host i) ⟨st.moved, []⟩ q.domain q.gfn
            q.node with ⟨s, o⟩
          cases o with
          | returned v =>
            rw [drain_entry_move env i st q hq h1 h2 h3 s v hm]
            exact ⟨fun k hk => List.getElem?_set_ne hk, rfl, by simp⟩
          | bug =>
            obtain ⟨e1, e2⟩ := drain_entry_stopped env i st q hq h1 h2 h3 s _ (by simp) hm
            rw [e1, e2]
            exact ⟨fun k hk => rfl, rfl, by simp⟩
          | blocked =>
            obtain ⟨e1, e2⟩ := drain_entry_stopped env i st q hq h1 h2 h3 s _ (by simp) hm
            rw [e1, e2]
            exact ⟨fun k hk => rfl, rfl, by simp⟩

theorem drain_entry_other (env : drain_env) (i : Nat) (st : monitor_state) (k : Nat)
    (hk : i ≠ k) :
    (drain_entry env i st).st.migration_queue[k]? = st.migration_queue[k]? :=
  (drain_entry_facts env i st).1 k hk

theorem drain_entry_maxtries (env : drain_env) (i : Nat) (st : monitor_state) :
    (drain_entry env i st).st.monitor_maxtries = st.monitor_maxtries :=
  (drain_entry_facts env i st).2.1

theorem drain_entry_tags (env : drain_env) (i : Nat) (st : monitor_state) :
    ∀ c ∈ (drain_entry env i st).calls, c.1 = i :=
  (drain_entry_facts env i st).2.2

theorem drain_entry_returns (env : drain_env) (i : Nat) (st : monitor_state)
    (hfree : locks_free st.moved) (hold : (env.host i).assign_pages_old = 0) :
    (drain_entry env i st).out = outcome.returned () ∧
      locks_free (drain_entry env i st).st.moved := by
  rcases hq : st.migration_queue[i]? with _ | q
  · rw [drain_entry_none env i st hq]; exact ⟨rfl, hfree⟩
  · by_cases h1 : q.mfn = INVALID_MFN
    · rw [drain_entry_empty env i st q hq h1]; exact ⟨rfl, hfree⟩
    · by_cases h2 : q.node = env.phys_to_nid ((q.mfn <<< env.PAGE_SHIFT) % 2 ^ 64)
      · rw [drain_entry_home env i st q hq h1 h2]; exact ⟨rfl, hfree⟩
      · by_cases h3 : q.gfn = INVALID_GFN
        · by_cases h4 : (q.tries + 1) % 2 ^ 32 ≥ st.monitor_maxtries
          · rw [drain_entry_abort env i st q hq h1 h2 h3 h4]; exact ⟨rfl, hfree⟩
          · rw [drain_entry_retry env i st q hq h1 h2 h3 h4]; exact ⟨rfl, hfree⟩
        · obtain ⟨s2, v, hm, hf2⟩ := memory_move_returns env.flags (env.host i)
            ⟨st.moved, []⟩ q.domain q.gfn q.node hfree hold
          rw [drain_entry_move env i st q hq h1 h2 h3 s2 v hm]
          exact ⟨rfl, hf2⟩

theorem calls_at_append (i : Nat) (a b : List (Nat × drain_call)) :
    calls_at i (a ++ b) = calls_at i a ++ calls_at i b := by
  simp [calls_at]

theorem calls_at_same (i : Nat) (a : List (Nat × drain_call))
    (h : ∀ c ∈ a, c.1 = i) : calls_at i a = a.map Prod.snd := by
  unfold calls_at
  rw [List.filter_eq_self.mpr]
  intro c hc
  simpa using h c hc

theorem calls_at_other (i : Nat) (a : List (Nat × drain_call))
    (h : ∀ c ∈ a, c.1 ≠ i) : calls_at i a = [] := by
  unfold calls_at
  rw [List.filter_eq_nil_iff.mpr]
  · rfl
  · intro c hc
    simpa using h c hc

theorem drain_loop_tags (env : drain_env) :
    ∀ (n j : Nat) (st : monitor_state), ∀ c ∈ (drain_loop env n j st).calls, j ≤ c.1 := by
  intro n
  induction n with
  | zero => intro j st c hc; simp [drain_loop] at hc
  | succ n ih =>
    intro j st c hc
    simp only [drain_loop] at hc
    split at hc
    · simp only [List.mem_append] at hc
      rcases hc with hc | hc
      · exact Nat.le_of_eq (drain_entry_tags env j st c hc).symm
      · exact Nat.le_of_succ_le (ih (j + 1) _ c hc)
    · exact Nat.le_of_eq (drain_entry_tags env j st c hc).symm

theorem drain_loop_other (env : drain_env) :
    ∀ (n j : Nat) (st : monitor_state) (k : Nat), k < j →
      (drain_loop env n j st).st.migration_queue[k]? = st.migration_queue[k]? := by
  intro n
  induction n with
  | zero => intro j st k _; simp [drain_loop]
  | succ n ih =>
    intro j st k hk
    simp only [drain_loop]
    split
    · simp only
      rw [ih (j + 1) _ k (by omega)]
      exact drain_entry_other env j st k (by omega)
    · exact drain_entry_other env j st k (by omega)

theorem drain_loop_at (env : drain_env) :
    ∀ (n j : Nat) (st : monitor_state) (i : Nat), j ≤ i → i < j + n →
      locks_free st.moved →
      (∀ k, j ≤ k → k < i → (env.host k).assign_pages_old = 0) →
      ∃ s : monitor_state, locks_free s.moved ∧
        s.monitor_maxtries = st.monitor_maxtries ∧
        s.migration_queue[i]? = st.migration_queue[i]? ∧
        (drain_loop env n j st).st.migration_queue[i]? =
          (drain_entry env i s).st.migration_queue[i]? ∧
        calls_at i (drain_loop env n j st).calls =
          (drain_entry env i s).calls.map Prod.snd := by
  intro n
  induction n with
  | zero => intro j st i h1 h2; omega
  | succ n ih =>
    intro j st i h1 h2 hfree hold
    rcases Nat.eq_or_lt_of_le h1 with heq | hlt
    · subst heq
      refine ⟨st, hfree, rfl, rfl, ?_, ?_⟩
      · simp only [drain_loop]
        split
        · simp only
          exact drain_loop_other env n (j + 1) _ j (by omega)
        · rfl
      · simp only [drain_loop]
        split
        · simp only [calls_at_append]
          rw [calls_at_same j _ (drain_entry_tags env j st),
            calls_at_other j _ (fun c hc => by
              have := drain_loop_tags env n (j + 1) _ c hc
              omega)]
          simp
        · exact calls_at_same j _ (drain_entry_tags env j st)
    · obtain ⟨hret, hfree2⟩ := drain_entry_returns env j st hfree (hold j (Nat.le_refl j) hlt)
      obtain ⟨s, hs1, hs2, hs3, hs4, hs5⟩ := ih (j + 1) (drain_entry env j st).st i
        (by omega) (by omega) hfree2 (fun k hk1 hk2 => hold k (by omega) hk2)
      refine ⟨s, hs1, ?_, ?_, ?_, ?_⟩
      · rw [hs2, drain_entry_maxtries]
      · rw [hs3]; exact drain_entry_other env j st i (by omega)
      · simp only [drain_loop, hret]
        exact hs4
      · simp only [drain_loop, hret, calls_at_append]
        rw [calls_at_other i _ (fun c hc => by
          have := drain_entry_tags env j st c hc
          omega)]
        simpa using hs5

theorem drain_pass_at (env : drain_env) (st : monitor_state) (i : Nat)
    (q : migration_query) (hq : st.migration_queue[i]? = some q)
    (hfree : locks_free st.moved)
    (hbug : ∀ k, k < i → (env.host k).assign_pages_old = 0) :
    ∃ s : monitor_state, locks_free s.moved ∧
      s.monitor_maxtries = st.monitor_maxtries ∧
      s.migration_queue[i]? = some q ∧
      (drain_migration_queue env st).st.migration_queue[i]? =
        (drain_entry env i s).st.migration_queue[i]? ∧
      calls_at i (drain_migration_queue env st).calls =
        (drain_entry env i s).calls.map Prod.snd := by
  have hi : i < st.migration_queue.length := by
    rcases Nat.lt_or_ge i st.migration_queue.length with h | h
    · exact h
    · rw [List.getElem?_eq_none h] at hq; cases hq
  obtain ⟨s, h1, h2, h3, h4, h5⟩ := drain_loop_at env st.monitor_enqueued 0 st i
    (Nat.zero_le i) (by simpa [monitor_state.monitor_enqueued] using hi) hfree
    (fun k _ hk => hbug k hk)
  exact ⟨s, h1, h2, h3.trans hq, h4, h5⟩

theorem getElem?_set_some (l : List migration_query) (i : Nat) (q e : migration_query)
    (hq : l[i]? = some q) : (l.set i e)[i]? = some e := by
  have hi : i < l.length := by
    rcases Nat.lt_or_ge i l.length with h | h
    · exact h
    · rw [List.getElem?_eq_none h] at hq; cases hq
  exact List.getElem?_set_self hi

/-! ## The drain pass, slot by slot -/

/-- C5: for every non-empty slot whose MFN already lives on the slot's target
node (`phys_to_nid(mfn << PAGE_SHIFT)` equals `node`), one `drain_migration_queue`
pass that reaches the slot calls `register_page_moved(mfn)` and nothing else for
it (no `memory_move`, no abort or try accounting), and marks the slot empty
leaving its other fields, `tries` included, as they were, whether or not the
GFN is bound.  The pass reaches the slot when no move is stalled on the cell
locks and no move for an earlier slot ends in `BUG()`. -/
theorem drain_slot_already_home (env : drain_env) (st : monitor_state) (i : Nat)
    (q : migration_query) (hq : st.migration_queue[i]? = some q)
    (hne : q.mfn ≠ INVALID_MFN)
    (hhome : q.node = env.phys_to_nid ((q.mfn <<< env.PAGE_SHIFT) % 2 ^ 64))
    (hfree : locks_free st.moved)
    (hbug : ∀ k, k < i → (env.host k).assign_pages_old = 0) :
    (drain_migration_queue env st).st.migration_queue[i]? =
      some { q with mfn := INVALID_MFN } ∧
    calls_at i (drain_migration_queue env st).calls =
      [drain_call.register_page_moved q.mfn] := by
  obtain ⟨s, _, _, h3, h4, h5⟩ := drain_pass_at env st i q hq hfree hbug
  rw [h4, h5, drain_entry_home env i s q h3 hne hhome]
  exact ⟨getElem?_set_some _ i q _ h3, rfl⟩

/-- C5, for a slot with unbound GFN and for a slot with bound GFN, both holding
frame 7 of node 0 with target node 0. -/
theorem drain_slot_already_home_witness :
    ((drain_migration_queue (two_nodes host_ok)
        (monitor_with [⟨7, 0, INVALID_GFN, none, 0⟩])).st.migration_queue[0]? =
      some ⟨INVALID_MFN, 0, INVALID_GFN, none, 0⟩ ∧
     calls_at 0 (drain_migration_queue (two_nodes host_ok)
        (monitor_with [⟨7, 0, INVALID_GFN, none, 0⟩])).calls =
      [drain_call.register_page_moved 7]) ∧
    ((drain_migration_queue (two_nodes host_ok)
        (monitor_with [⟨7, 0, 5, some 1, 1⟩])).st.migration_queue[0]? =
      some ⟨INVALID_MFN, 0, 5, some 1, 1⟩ ∧
     calls_at 0 (drain_migration_queue (two_nodes host_ok)
        (monitor_with [⟨7, 0, 5, some 1, 1⟩])).calls =
      [drain_call.register_page_moved 7]) :=
  ⟨drain_slot_already_home (two_nodes host_ok)
      (monitor_with [⟨7, 0, INVALID_GFN, none, 0⟩]) 0 ⟨7, 0, INVALID_GFN, none, 0⟩
      rfl (by decide) (by decide) (by decide) (by intro k hk; omega),
   drain_slot_already_home (two_nodes host_ok)
      (monitor_with [⟨7, 0, 5, some 1, 1⟩]) 0 ⟨7, 0, 5, some 1, 1⟩
      rfl (by decide) (by decide) (by decide) (by intro k hk; omega)⟩

/-- C4: for every non-empty slot whose home node differs from its target node
and whose GFN is bound, one `drain_migration_queue` pass that reaches the slot
invokes `memory_move` exactly once for it, with the slot's (domain, GFN, target
node), accounts the try, then calls `register_page_moved` with the slot's MFN and
marks the slot empty, whatever value `v` `memory_move` returned.  The pass
reaches the slot and the move returns when no move is stalled on the cell locks
and no move up to this slot ends in `BUG()`. -/
theorem drain_slot_moves (env : drain_env) (st : monitor_state) (i : Nat)
    (q : migration_query) (hq : st.migration_queue[i]? = some q)
    (hne : q.mfn ≠ INVALID_MFN)
    (hhome : q.node ≠ env.phys_to_nid ((q.mfn <<< env.PAGE_SHIFT) % 2 ^ 64))
    (hbound : q.gfn ≠ INVALID_GFN)
    (hfree : locks_free st.moved)
    (hbug : ∀ k, k ≤ i → (env.host k).assign_pages_old = 0) :
    ∃ (cell : moved_cell) (v : Nat),
      (memory_move env.flags (env.host i) ⟨cell, []⟩ q.domain q.gfn q.node).2 =
        outcome.returned v ∧
      calls_at i (drain_migration_queue env st).calls =
        [drain_call.memory_move q.domain q.gfn q.node,
         drain_call.stats_account_migration_try (ulong_to_int v),
         drain_call.register_page_moved q.mfn] ∧
      (drain_migration_queue env st).st.migration_queue[i]? =
        some { q with mfn := INVALID_MFN } := by
  obtain ⟨s, h1, _, h3, h4, h5⟩ := drain_pass_at env st i q hq hfree
    (fun k hk => hbug k (Nat.le_of_lt hk))
  obtain ⟨s2, v, hm, _⟩ := memory_move_returns env.flags (env.host i)
    ⟨s.moved, []⟩ q.domain q.gfn q.node h1 (hbug i (Nat.le_refl i))
  refine ⟨s.moved, v, by rw [hm], ?_, ?_⟩
  · rw [h5, drain_entry_move env i s q h3 hne hhome hbound s2 v hm]
    rfl
  · rw [h4, drain_entry_move env i s q h3 hne hhome hbound s2 v hm]
    exact getElem?_set_some _ i q _ h3

/-- C4, for a slot holding frame 7 of node 0, bound to GFN 5 of domain 1, with
target node 1. -/
theorem drain_slot_moves_witness :
    ∃ (cell : moved_cell) (v : Nat),
      (memory_move xen_flags host_ok ⟨cell, []⟩ (some 1) 5 1).2 = outcome.returned v ∧
      calls_at 0 (drain_migration_queue (two_nodes host_ok)
          (monitor_with [⟨7, 1, 5, some 1, 0⟩])).calls =
        [drain_call.memory_move (some 1) 5 1,
         drain_call.stats_account_migration_try (ulong_to_int v),
         drain_call.register_page_moved 7] ∧
      (drain_migration_queue (two_nodes host_ok)
          (monitor_with [⟨7, 1, 5, some 1, 0⟩])).st.migration_queue[0]? =
        some ⟨INVALID_MFN, 1, 5, some 1, 0⟩ :=
  drain_slot_moves (two_nodes host_ok) (monitor_with [⟨7, 1, 5, some 1, 0⟩]) 0
    ⟨7, 1, 5, some 1, 0⟩ rfl (by decide) (by decide) (by decide) (by decide)
    (fun _ _ => rfl)

/-- C9: shared pages are refused.  When the host reports the type of the GFN as
shared, `memory_move(d, gfn, node)` returns `INVALID_MFN` after the calls
get_gfn_unshare and put_gfn only: no page is stolen, allocated or assigned, no
physmap entry changes, and the fault-protection cell is neither entered nor
modified.  The drain pass that attempted the move for a slot still frees that
slot. -/
theorem memory_move_refuses_shared (f : mm_flags) (h : move_host) (s : mm_state)
    (d : Option Nat) (gfn node : Nat) (hshared : h.p2m_is_shared = true)
    (env : drain_env) (st : monitor_state) (i : Nat) (q : migration_query)
    (hq : st.migration_queue[i]? = some q) (hne : q.mfn ≠ INVALID_MFN)
    (hhome : q.node ≠ env.phys_to_nid ((q.mfn <<< env.PAGE_SHIFT) % 2 ^ 64))
    (hbound : q.gfn ≠ INVALID_GFN)
    (hslot : (env.host i).p2m_is_shared = true)
    (hfree : locks_free st.moved)
    (hbug : ∀ k, k < i → (env.host k).assign_pages_old = 0) :
    memory_move f h s d gfn node =
      (⟨s.cell, s.trace ++ stamped s.cell.memory_moved_domain s.cell.memory_moved_gfn
          [mm_call.get_gfn_unshare d gfn, mm_call.put_gfn d gfn]⟩,
        outcome.returned INVALID_MFN) ∧
    calls_at i (drain_migration_queue env st).calls =
      [drain_call.memory_move q.domain q.gfn q.node,
       drain_call.stats_account_migration_try (ulong_to_int INVALID_MFN),
       drain_call.register_page_moved q.mfn] ∧
    (drain_migration_queue env st).st.migration_queue[i]? =
      some { q with mfn := INVALID_MFN } := by
  obtain ⟨s1, _, _, h3, h4, h5⟩ := drain_pass_at env st i q hq hfree hbug
  have hm := memory_move_shared env.flags (env.host i) ⟨s1.moved, []⟩ q.domain q.gfn
    q.node hslot
  refine ⟨memory_move_shared f h s d gfn node hshared, ?_, ?_⟩
  · rw [h5, drain_entry_move env i s1 q h3 hne hhome hbound _ _ hm]
    rfl
  · rw [h4, drain_entry_move env i s1 q h3 hne hhome hbound _ _ hm]
    exact getElem?_set_some _ i q _ h3

/-- C9, for GFN 5 of domain 1 reported as shared, queued for frame 7. -/
theorem memory_move_refuses_shared_witness :
    memory_move xen_flags host_shared ⟨idle_cell, []⟩ (some 1) 5 1 =
      (⟨idle_cell, [] ++ stamped idle_cell.memory_moved_domain idle_cell.memory_moved_gfn
          [mm_call.get_gfn_unshare (some 1) 5, mm_call.put_gfn (some 1) 5]⟩,
        outcome.returned INVALID_MFN) ∧
    (drain_migration_queue (two_nodes host_shared)
        (monitor_with [⟨7, 1, 5, some 1, 0⟩])).st.migration_queue[0]? =
      some ⟨INVALID_MFN, 1, 5, some 1, 0⟩ :=
  have h := memory_move_refuses_shared xen_flags host_shared ⟨idle_cell, []⟩ (some 1) 5 1
    rfl (two_nodes host_shared) (monitor_with [⟨7, 1, 5, some 1, 0⟩]) 0
    ⟨7, 1, 5, some 1, 0⟩ rfl (by decide) (by decide) (by decide) rfl (by decide)
    (by intro k hk; omega)
  ⟨h.1, h.2.2⟩

theorem is_memory_moved_gfn_free (c : moved_cell) (d : Option Nat) (gfn : Nat)
    (wait : Int) (hlock : c.memory_moved_spinlock = false)
    (hgate : wait = 0 ∨ c.memory_moved_waiter = false ∨
      ¬ (d = c.memory_moved_domain ∧ gfn = c.memory_moved_gfn)) :
    is_memory_moved_gfn c d gfn wait = (c, outcome.returned (moved_match c d gfn)) := by
  obtain ⟨l, w, g, dom, a⟩ := c
  simp only at hlock hgate
  subst hlock
  by_cases h1 : d = dom
  · by_cases h2 : gfn = g
    · by_cases h3 : wait = 0
      · simp [is_memory_moved_gfn, moved_match, spin_lock, spin_unlock, h1, h2, h3]
      · rcases hgate with h | h | h
        · exact absurd h h3
        · subst h
          simp [is_memory_moved_gfn, moved_match, spin_lock, spin_unlock, h1, h2, h3]
        · exact absurd ⟨h1, h2⟩ h
    · simp [is_memory_moved_gfn, moved_match, spin_lock, spin_unlock, h1, h2]
  · simp [is_memory_moved_gfn, moved_match, spin_lock, spin_unlock, h1]

theorem is_memory_moved_gfn_value (c : moved_cell) (d : Option Nat) (gfn : Nat)
    (wait : Int) (c2 : moved_cell) (v : Int)
    (h : is_memory_moved_gfn c d gfn wait = (c2, outcome.returned v)) :
    c2 = c ∧ v = moved_match c d gfn := by
  obtain ⟨l, w, g, dom, a⟩ := c
  cases l
  · by_cases hm : d = dom ∧ gfn = g
    · by_cases h3 : wait = 0
      · rw [is_memory_moved_gfn_free _ d gfn wait rfl (Or.inl h3)] at h
        simp only [Prod.mk.injEq, outcome.returned.injEq] at h
        exact ⟨h.1.symm, h.2.symm⟩
      · cases w
        · rw [is_memory_moved_gfn_free _ d gfn wait rfl (Or.inr (Or.inl rfl))] at h
          simp only [Prod.mk.injEq, outcome.returned.injEq] at h
          exact ⟨h.1.symm, h.2.symm⟩
        · simp [is_memory_moved_gfn, spin_lock, spin_unlock, hm.1, hm.2, h3] at h
    · rw [is_memory_moved_gfn_free _ d gfn wait rfl (Or.inr (Or.inr hm))] at h
      simp only [Prod.mk.injEq, outcome.returned.injEq] at h
      exact ⟨h.1.symm, h.2.symm⟩
  · simp [is_memory_moved_gfn, spin_lock] at h

theorem is_memory_moved_gfn_parked (c : moved_cell) (d : Option Nat) (gfn : Nat)
    (wait : Int) :
    (is_memory_moved_gfn c d gfn wait).2 = outcome.blocked ↔
      (c.memory_moved_spinlock = true ∨
        (wait ≠ 0 ∧ c.memory_moved_waiter = true ∧
          d = c.memory_moved_domain ∧ gfn = c.memory_moved_gfn)) := by
  obtain ⟨l, w, g, dom, a⟩ := c
  cases l
  · by_cases hm : d = dom ∧ gfn = g
    · by_cases h3 : wait = 0
      · rw [is_memory_moved_gfn_free _ d gfn wait rfl (Or.inl h3)]
        simp [h3]
      · cases w
        · rw [is_memory_moved_gfn_free _ d gfn wait rfl (Or.inr (Or.inl rfl))]
          simp
        · simp [is_memory_moved_gfn, spin_lock, spin_unlock, hm.1, hm.2, h3]
    · rw [is_memory_moved_gfn_free _ d gfn wait rfl (Or.inr (Or.inr hm))]
      simp only [Bool.false_eq_true, false_or, false_iff, not_and, reduceCtorEq]
      intro _ _ hd hg
      exact hm ⟨hd, hg⟩
  · simp [is_memory_moved_gfn, spin_lock]

/-- C11: `is_memory_moved_gfn(d, gfn, wait)` returns 1 if and only if `d` is the
cell's domain and `gfn` is the cell's GFN, and 0 otherwise, and leaves the cell
as it was.  This holds for every call that returns; a call returns whenever the
cell spinlock is free and it does not have to wait on a held gate, and the only
calls that do not return in a sequential run are those that find the spinlock
held or that wait (`wait` non-zero) on the gate of the move in flight for their
own (d, gfn).  Hence on the cell left by `set_memory_moved_gfn(D, G)` the answer
is 1 exactly for (D, G), and on a cell with no move in flight the answer is 0 for
every domain and GFN. -/
theorem is_memory_moved_gfn_matches (c : moved_cell) (d : Option Nat) (gfn : Nat)
    (wait : Int) (hlock : c.memory_moved_spinlock = false)
    (hgate : wait = 0 ∨ c.memory_moved_waiter = false ∨
      ¬ (d = c.memory_moved_domain ∧ gfn = c.memory_moved_gfn)) :
    is_memory_moved_gfn c d gfn wait =
      (c, outcome.returned
        (if d = c.memory_moved_domain ∧ gfn = c.memory_moved_gfn then 1 else 0)) ∧
    (∀ (c0 : moved_cell) (d0 : Option Nat) (gfn0 : Nat) (wait0 : Int)
        (c2 : moved_cell) (v : Int),
      is_memory_moved_gfn c0 d0 gfn0 wait0 = (c2, outcome.returned v) →
        c2 = c0 ∧
        v = (if d0 = c0.memory_moved_domain ∧ gfn0 = c0.memory_moved_gfn then 1 else 0)) ∧
    (∀ (c0 : moved_cell) (d0 : Option Nat) (gfn0 : Nat) (wait0 : Int),
      (is_memory_moved_gfn c0 d0 gfn0 wait0).2 = outcome.blocked ↔
        (c0.memory_moved_spinlock = true ∨
          (wait0 ≠ 0 ∧ c0.memory_moved_waiter = true ∧
            d0 = c0.memory_moved_domain ∧ gfn0 = c0.memory_moved_gfn))) ∧
    (∀ (c0 c1 : moved_cell) (D : Option Nat) (G : Nat), locks_free c0 →
      set_memory_moved_gfn c0 D G = some c1 →
        (∀ (d0 : Option Nat) (gfn0 : Nat),
          is_memory_moved_gfn c1 d0 gfn0 0 =
            (c1, outcome.returned (if d0 = D ∧ gfn0 = G then 1 else 0))) ∧
        (∀ (d0 : Option Nat) (gfn0 : Nat) (wait0 : Int), ¬ (d0 = D ∧ gfn0 = G) →
          is_memory_moved_gfn c1 d0 gfn0 wait0 = (c1, outcome.returned 0))) ∧
    (∀ (c0 : moved_cell) (k gfn0 : Nat) (wait0 : Int),
      c0.memory_moved_spinlock = false → c0.memory_moved_domain = none →
        is_memory_moved_gfn c0 (some k) gfn0 wait0 = (c0, outcome.returned 0)) := by
  refine ⟨is_memory_moved_gfn_free c d gfn wait hlock hgate, ?_, ?_, ?_, ?_⟩
  · intro c0 d0 gfn0 wait0 c2 v h
    exact is_memory_moved_gfn_value c0 d0 gfn0 wait0 c2 v h
  · intro c0 d0 gfn0 wait0
    exact is_memory_moved_gfn_parked c0 d0 gfn0 wait0
  · intro c0 c1 D G hfree hset
    obtain ⟨hl, hw⟩ := hfree
    simp only [set_memory_moved_gfn, spin_lock, spin_unlock, hl, hw, Bool.false_eq_true,
      if_false, Option.some.injEq] at hset
    subst hset
    constructor
    · intro d0 gfn0
      exact is_memory_moved_gfn_free _ d0 gfn0 0 rfl (Or.inl rfl)
    · intro d0 gfn0 wait0 hne
      have h := is_memory_moved_gfn_free
        { memory_moved_spinlock := false, memory_moved_waiter := true,
          memory_moved_gfn := G, memory_moved_domain := D,
          asserts_held := c0.asserts_held && decide (c0.memory_moved_gfn = INVALID_GFN) &&
            decide (c0.memory_moved_domain = none) }
        d0 gfn0 wait0 rfl (Or.inr (Or.inr hne))
      simp only [moved_match, hne, if_false] at h
      exact h
  · intro c0 k gfn0 wait0 hl hd
    have h := is_memory_moved_gfn_free c0 (some k) gfn0 wait0 hl
      (Or.inr (Or.inr (by rw [hd]; simp)))
    have hne : ¬ (some k = c0.memory_moved_domain ∧ gfn0 = c0.memory_moved_gfn) := by
      rw [hd]; simp
    simp only [moved_match, hne, if_false] at h
    exact h

/-- C11, during the move of GFN 5 of domain 1: the fault handler asking without
waiting about that very page is answered 1. -/
theorem is_memory_moved_gfn_matches_witness :
    is_memory_moved_gfn ⟨false, true, 5, some 1, true⟩ (some 1) 5 0 =
      (⟨false, true, 5, some 1, true⟩, outcome.returned 1) :=
  (is_memory_moved_gfn_matches ⟨false, true, 5, some 1, true⟩ (some 1) 5 0 rfl
    (Or.inl rfl)).1

/-! ## The sample handler -/

theorem probe_slot_calls (cur : current_vcpu) (vaddr mfn : Nat) (g : Nat → Nat)
    (i : Nat) (q : migration_query) :
    ∀ c ∈ (probe_slot cur vaddr mfn g i q).2, ∀ m, c ≠ sampler_call.register_page_access m := by
  intro c hc m
  unfold probe_slot at hc
  by_cases h1 : q.mfn = mfn
  · by_cases h2 : (cmpxchg q.gfn INVALID_GFN (g i)).2 = INVALID_GFN
    · simp only [h1, ne_eq, not_true_eq_false, if_false, h2] at hc
      simp only [List.mem_cons, List.mem_singleton, List.not_mem_nil, or_false] at hc
      rcases hc with h | h | h <;> rw [h] <;> simp
    · simp only [h1, ne_eq, not_true_eq_false, if_false, h2, not_false_eq_true, if_true] at hc
      simp only [List.mem_cons, List.mem_singleton, List.not_mem_nil, or_false] at hc
      rcases hc with h | h | h <;> rw [h] <;> simp
  · simp [h1] at hc

theorem probe_slots_calls (cur : current_vcpu) (vaddr mfn : Nat) (g : Nat → Nat) :
    ∀ (q : List migration_query) (i : Nat),
      ∀ c ∈ (probe_slots cur vaddr mfn g q i).2,
        ∀ m, c ≠ sampler_call.register_page_access m := by
  intro q
  induction q with
  | nil => intro i c hc; simp [probe_slots] at hc
  | cons s rest ih =>
    intro i c hc m
    simp only [probe_slots, List.mem_append] at hc
    rcases hc with hc | hc
    · exact probe_slot_calls cur vaddr mfn g i s c hc m
    · exact ih (i + 1) c hc m

theorem probe_slots_get (cur : current_vcpu) (vaddr mfn : Nat) (g : Nat → Nat) :
    ∀ (q : List migration_query) (i j : Nat),
      (probe_slots cur vaddr mfn g q i).1[j]? =
        (q[j]?).map (fun s => (probe_slot cur vaddr mfn g (i + j) s).1) := by
  intro q
  induction q with
  | nil => intro i j; simp [probe_slots]
  | cons s rest ih =>
    intro i j
    cases j with
    | zero => simp [probe_slots]
    | succ j =>
      simp only [probe_slots, List.getElem?_cons_succ]
      rw [ih (i + 1) j]
      have : i + 1 + j = i + (j + 1) := by omega
      rw [this]

theorem page_accesses_stamped (owner : Nat) (calls : List sampler_call)
    (h : ∀ c ∈ calls, ∀ m, c ≠ sampler_call.register_page_access m) :
    page_accesses (calls.map (fun c => (owner, c))) = [] := by
  induction calls with
  | nil => rfl
  | cons c rest ih =>
    have hc := h c (List.mem_cons_self c rest)
    have hr := ih (fun x hx => h x (List.mem_cons_of_mem c hx))
    simp only [page_accesses, List.map_cons, List.filterMap_cons] at hr ⊢
    cases c with
    | register_page_access m => exact absurd rfl (hc m)
    | local_irq_enable => simpa using hr
    | try_paging_gva_to_gfn v => simpa using hr
    | local_irq_disable => simpa using hr

theorem handler_rejected (k : ibs_consts) (cur : current_vcpu) (g : Nat → Nat)
    (record : ibs_record) (owner : Nat) (queue : List migration_query)
    (h : ¬ sample_accepted k cur record owner) :
    ibs_nmi_handler k cur g record owner queue = ⟨owner, queue, []⟩ := by
  unfold sample_accepted at h
  by_cases h0 : owner = OWNER_NONE
  · subst h0
    by_cases h1 : record.record_mode &&& k.IBS_RECORD_MODE_OP = 0
    · simp [ibs_nmi_handler, cmpxchg, OWNER_NONE, OWNER_SAMPLER, h1]
    · by_cases h2 : record.record_mode &&& k.IBS_RECORD_MODE_DPA = 0
      · simp [ibs_nmi_handler, cmpxchg, OWNER_NONE, OWNER_SAMPLER, h1, h2]
      · by_cases h3 : cur.domain_id ≥ k.DOMID_FIRST_RESERVED
        · simp [ibs_nmi_handler, cmpxchg, OWNER_NONE, OWNER_SAMPLER, h1, h2, h3]
        · by_cases h4 : cur.is_hvm = true
          · exact absurd ⟨rfl, h1, h2, Nat.lt_of_not_ge h3, h4⟩ h
          · simp [ibs_nmi_handler, cmpxchg, OWNER_NONE, OWNER_SAMPLER, h1, h2, h3, h4]
  · simp [ibs_nmi_handler, cmpxchg, h0]

theorem handler_accepted (k : ibs_consts) (cur : current_vcpu) (g : Nat → Nat)
    (record : ibs_record) (owner : Nat) (queue : List migration_query)
    (h : sample_accepted k cur record owner) :
    ibs_nmi_handler k cur g record owner queue =
      ⟨OWNER_NONE,
        (probe_slots cur record.data_linear_address
          (record.data_physical_address >>> k.PAGE_SHIFT) g queue 0).1,
        ((probe_slots cur record.data_linear_address
          (record.data_physical_address >>> k.PAGE_SHIFT) g queue 0).2 ++
          [sampler_call.register_page_access
            (record.data_physical_address >>> k.PAGE_SHIFT)]).map
          (fun c => (OWNER_SAMPLER, c))⟩ := by
  obtain ⟨h0, h1, h2, h3, h4⟩ := h
  subst h0
  have h3b : ¬ cur.domain_id ≥ k.DOMID_FIRST_RESERVED := Nat.not_le_of_lt h3
  simp only [ibs_nmi_handler, cmpxchg, OWNER_NONE, OWNER_SAMPLER, if_true, ne_eq,
    not_true_eq_false, if_false, h1, h2, h3b, h4, Bool.not_true, Bool.false_eq_true]

/-- C12: `ibs_nmi_handler` calls `register_page_access` exactly once, with
`mfn = data_physical_address >> PAGE_SHIFT`, if and only if the token of the CPU
was NONE at entry, the record has both the data-operation flag and the
valid-physical-address flag, the id of the current domain is below
`DOMID_FIRST_RESERVED` and the current domain is an HVM guest; for every other
sample it makes no call at all (the hotlist is not touched) and leaves every
queue slot as it was. -/
theorem ibs_nmi_handler_accounting (k : ibs_consts) (cur : current_vcpu)
    (g : Nat → Nat) (record : ibs_record) (owner : Nat) (queue : List migration_query) :
    page_accesses (ibs_nmi_handler k cur g record owner queue).calls =
      (if sample_accepted k cur record owner
        then [record.data_physical_address >>> k.PAGE_SHIFT] else []) ∧
    (sample_accepted k cur record owner ∨
      ((ibs_nmi_handler k cur g record owner queue).calls = [] ∧
       (ibs_nmi_handler k cur g record owner queue).queue = queue)) := by
  by_cases h : sample_accepted k cur record owner
  · refine ⟨?_, Or.inl h⟩
    rw [handler_accepted k cur g record owner queue h, if_pos h]
    simp only [List.map_append, page_accesses, List.filterMap_append]
    have hp := page_accesses_stamped OWNER_SAMPLER _
      (probe_slots_calls cur record.data_linear_address
        (record.data_physical_address >>> k.PAGE_SHIFT) g queue 0)
    simp only [page_accesses] at hp
    rw [hp]
    rfl
  · rw [handler_rejected k cur g record owner queue h, if_neg h]
    exact ⟨rfl, Or.inr ⟨rfl, rfl⟩⟩

/-- C13: the engine-owner token of the CPU has the same value on return from
`ibs_nmi_handler` as at entry: when it is not NONE at entry (SAMPLER or DECIDER)
the handler returns at once, with the token and the queue as they were and
without any call; when it is NONE at entry it is NONE again on return on every
path, filtered-out samples included, and every call the handler makes is made
while the token is SAMPLER. -/
theorem ibs_nmi_handler_token (k : ibs_consts) (cur : current_vcpu)
    (g : Nat → Nat) (record : ibs_record) (owner : Nat) (queue : List migration_query) :
    (ibs_nmi_handler k cur g record owner queue).owner = owner ∧
    (∀ c ∈ (ibs_nmi_handler k cur g record owner queue).calls, c.1 = OWNER_SAMPLER) ∧
    (owner = OWNER_NONE ∨
      ibs_nmi_handler k cur g record owner queue = ⟨owner, queue, []⟩) := by
  by_cases h : sample_accepted k cur record owner
  · rw [handler_accepted k cur g record owner queue h]
    refine ⟨h.1.symm, ?_, Or.inl h.1⟩
    intro c hc
    simp only [List.mem_map] at hc
    obtain ⟨x, _, hx⟩ := hc
    rw [← hx]
  · rw [handler_rejected k cur g record owner queue h]
    refine ⟨rfl, ?_, Or.inr rfl⟩
    intro c hc
    simp at hc

/-- C14 as stated fails: frame 7 is queued with unbound GFN and NULL domain, a
sample of frame 7 is taken in domain 1 and the translation fails (it yields
`INVALID_GFN`); after `ibs_nmi_handler` the slot still has an unbound GFN, but its
domain is no longer NULL. -/
theorem ibs_nmi_handler_domain_counterexample :
    unbound_without_domain [⟨7, 1, INVALID_GFN, none, 0⟩] ∧
    ¬ unbound_without_domain
        (ibs_nmi_handler xen_ibs hvm_vcpu (fun _ => INVALID_GFN) sample_frame7 OWNER_NONE
          [⟨7, 1, INVALID_GFN, none, 0⟩]).queue ∧
    (ibs_nmi_handler xen_ibs hvm_vcpu (fun _ => INVALID_GFN) sample_frame7 OWNER_NONE
        [⟨7, 1, INVALID_GFN, none, 0⟩]).queue = [⟨7, 1, INVALID_GFN, some 1, 0⟩] := by
  decide

theorem probe_slot_unbound (cur : current_vcpu) (vaddr mfn : Nat) (g : Nat → Nat)
    (i : Nat) (s : migration_query) (hs : s.gfn = INVALID_GFN → s.domain = none)
    (hu : (probe_slot cur vaddr mfn g i s).1.gfn = INVALID_GFN) :
    (probe_slot cur vaddr mfn g i s).1.domain = none ∨
      (s.mfn = mfn ∧ s.gfn = INVALID_GFN ∧ g i = INVALID_GFN ∧
        (probe_slot cur vaddr mfn g i s).1 = { s with domain := cur.domain }) := by
  unfold probe_slot at hu ⊢
  by_cases h1 : s.mfn = mfn
  · by_cases h2 : s.gfn = INVALID_GFN
    · simp only [h1, ne_eq, not_true_eq_false, if_false, cmpxchg, h2, if_true] at hu ⊢
      right
      simp [hu]
    · simp only [h1, ne_eq, not_true_eq_false, if_false, cmpxchg, h2, not_false_eq_true,
        if_true] at hu
  · simp only [ne_eq, h1, not_false_eq_true, if_true] at hu ⊢
    exact Or.inl (hs hu)

/-- C14 (amended): let every slot with unbound GFN have a NULL domain before
`ibs_nmi_handler`.  Then after the handler every slot with unbound GFN has a NULL
domain, except the slots for which the translation failed: a slot that holds the
sampled MFN, was unbound, and whose probe yielded `INVALID_GFN` keeps its unbound
GFN and records the current domain.  In particular, when no translation yields
`INVALID_GFN`, every slot with unbound GFN still has a NULL domain. -/
theorem ibs_nmi_handler_domain (k : ibs_consts) (cur : current_vcpu)
    (g : Nat → Nat) (record : ibs_record) (owner : Nat) (queue : List migration_query)
    (hinv : unbound_without_domain queue) :
    (∀ (i : Nat) (s t : migration_query), queue[i]? = some s →
      (ibs_nmi_handler k cur g record owner queue).queue[i]? = some t →
      t.gfn = INVALID_GFN →
        t.domain = none ∨
        (sample_accepted k cur record owner ∧
          s.mfn = record.data_physical_address >>> k.PAGE_SHIFT ∧
          s.gfn = INVALID_GFN ∧ g i = INVALID_GFN ∧ t = { s with domain := cur.domain })) ∧
    ((∀ i, g i ≠ INVALID_GFN) →
      unbound_without_domain (ibs_nmi_handler k cur g record owner queue).queue) := by
  have hmain : ∀ (i : Nat) (s t : migration_query), queue[i]? = some s →
      (ibs_nmi_handler k cur g record owner queue).queue[i]? = some t →
      t.gfn = INVALID_GFN →
        t.domain = none ∨
        (sample_accepted k cur record owner ∧
          s.mfn = record.data_physical_address >>> k.PAGE_SHIFT ∧
          s.gfn = INVALID_GFN ∧ g i = INVALID_GFN ∧ t = { s with domain := cur.domain }) := by
    intro i s t hs ht hu
    have hsq : s.gfn = INVALID_GFN → s.domain = none :=
      hinv s (List.mem_iff_getElem?.mpr ⟨i, hs⟩)
    by_cases h : sample_accepted k cur record owner
    · rw [handler_accepted k cur g record owner queue h] at ht
      simp only [probe_slots_get, hs, Option.map_some', Option.some.injEq, Nat.zero_add] at ht
      subst ht
      rcases probe_slot_unbound cur _ _ g i s hsq hu with h1 | ⟨h1, h2, h3, h4⟩
      · exact Or.inl h1
      · exact Or.inr ⟨h, h1, h2, h3, h4⟩
    · rw [handler_rejected k cur g record owner queue h] at ht
      simp only at ht
      rw [hs] at ht
      simp only [Option.some.injEq] at ht
      subst ht
      exact Or.inl (hsq hu)
  refine ⟨hmain, ?_⟩
  intro hg t ht hu
  obtain ⟨i, hi⟩ := List.mem_iff_getElem?.mp ht
  have hsrc : ∃ s, queue[i]? = some s := by
    by_cases h : sample_accepted k cur record owner
    · rw [handler_accepted k cur g record owner queue h] at hi
      simp only [probe_slots_get] at hi
      cases hq : queue[i]? with
      | none => rw [hq] at hi; simp at hi
      | some s => exact ⟨s, rfl⟩
    · rw [handler_rejected k cur g record owner queue h] at hi
      exact ⟨t, hi⟩
  obtain ⟨s, hs⟩ := hsrc
  rcases hmain i s t hs hi hu with h1 | ⟨_, _, _, h4, _⟩
  · exact h1
  · exact absurd h4 (hg i)

/-- C14 (amended), for frame 7 queued unbound and a sample of frame 7 in domain 1
whose translation yields GFN 5: the slot is bound, and no unbound slot has a
domain. -/
theorem ibs_nmi_handler_domain_witness :
    unbound_without_domain
      (ibs_nmi_handler xen_ibs hvm_vcpu (fun _ => 5) sample_frame7 OWNER_NONE
        [⟨7, 1, INVALID_GFN, none, 0⟩, ⟨INVALID_MFN, 0, 0, none, 0⟩]).queue :=
  (ibs_nmi_handler_domain xen_ibs hvm_vcpu (fun _ => 5) sample_frame7 OWNER_NONE
    [⟨7, 1, INVALID_GFN, none, 0⟩, ⟨INVALID_MFN, 0, 0, none, 0⟩] (by decide)).2
    (fun _ => by decide)

/-! ## The decider -/

theorem drain_loop_returns (env : drain_env)
    (hold : ∀ k, (env.host k).assign_pages_old = 0) :
    ∀ (n j : Nat) (st : monitor_state), locks_free st.moved →
      (drain_loop env n j st).out = outcome.returned () ∧
        locks_free (drain_loop env n j st).st.moved := by
  intro n
  induction n with
  | zero => intro j st hfree; exact ⟨rfl, hfree⟩
  | succ n ih =>
    intro j st hfree
    obtain ⟨hret, hfree2⟩ := drain_entry_returns env j st hfree (hold j)
    simp only [drain_loop, hret]
    exact ih (j + 1) _ hfree2

theorem acquire_tokens_free :
    ∀ (l : List Nat), (∀ v ∈ l, v = OWNER_NONE) →
      acquire_tokens l = some (List.replicate l.length OWNER_DECIDER) := by
  intro l
  induction l with
  | nil => intro _; rfl
  | cons v rest ih =>
    intro h
    have hv : v = OWNER_NONE := h v (List.mem_cons_self v rest)
    have hr := ih (fun x hx => h x (List.mem_cons_of_mem v hx))
    simp [acquire_tokens, cmpxchg, hv, hr, List.replicate_succ]

theorem release_tokens_held (n : Nat) :
    release_tokens (List.replicate n OWNER_DECIDER) = List.replicate n OWNER_NONE := by
  simp [release_tokens, cmpxchg]

/-- C15: when monitoring is not started, `decide_migration` returns -1 and leaves
every token, the queue and the counters as they were, without any call.  When
monitoring is started (and no sampler or other decider holds a token, no move is
stalled on the cell locks, and no move of the drain pass ends in `BUG()`), it
returns 0 after exactly these steps, in this order: one `drain_migration_queue`
pass, one `refill_migration_buffer` call, and one `fill_migration_queue` call on
the very buffer that the refill returned; the queue afterwards is the drained
queue filled with that buffer. -/
theorem decide_migration_sequence (env : decide_env) (st : decider_state)
    (hstarted : st.monitoring_started ≠ 0)
    (htokens : ∀ v ∈ st.migration_engine_owner, v = OWNER_NONE)
    (hfree : locks_free st.mon.moved)
    (hbug : ∀ k, (env.drain.host k).assign_pages_old = 0) :
    (decide_migration env st).out = outcome.returned 0 ∧
    (decide_migration env st).calls.map Prod.snd =
      [decide_call.drain_migration_queue, decide_call.refill_migration_buffer,
       decide_call.fill_migration_queue env.refill_migration_buffer] ∧
    (decide_migration env st).drain_calls =
      (drain_migration_queue env.drain st.mon).calls ∧
    (decide_migration env st).st.mon =
      fill_migration_queue (drain_migration_queue env.drain st.mon).st
        env.refill_migration_buffer ∧
    (∀ (env0 : decide_env) (st0 : decider_state), st0.monitoring_started = 0 →
      decide_migration env0 st0 = ⟨st0, [], [], outcome.returned (-1)⟩) := by
  have hacq := acquire_tokens_free st.migration_engine_owner htokens
  have hdr := (drain_loop_returns env.drain hbug st.mon.monitor_enqueued 0 st.mon hfree).1
  have hdr2 : (drain_migration_queue env.drain st.mon).out = outcome.returned () := hdr
  refine ⟨?_, ?_, ?_, ?_, ?_⟩
  · simp only [decide_migration, hstarted, if_false, hacq, hdr2]
  · simp only [decide_migration, hstarted, if_false, hacq, hdr2, List.map_cons, List.map_nil]
  · simp only [decide_migration, hstarted, if_false, hacq, hdr2]
  · simp only [decide_migration, hstarted, if_false, hacq, hdr2]
  · intro env0 st0 h0
    simp only [decide_migration, h0, if_true]

/-- C15, on two CPUs with free tokens, frame 7 queued on its home node and a
refill that proposes frame 100. -/
theorem decide_migration_sequence_witness :
    (decide_migration ⟨two_nodes host_ok, [⟨100, 0⟩]⟩
        ⟨1, [OWNER_NONE, OWNER_NONE], 0,
          monitor_with [⟨7, 0, INVALID_GFN, none, 0⟩, ⟨INVALID_MFN, 0, 0, none, 0⟩]⟩).out =
      outcome.returned 0 ∧
    (decide_migration ⟨two_nodes host_ok, [⟨100, 0⟩]⟩
        ⟨1, [OWNER_NONE, OWNER_NONE], 0,
          monitor_with [⟨7, 0, INVALID_GFN, none, 0⟩, ⟨INVALID_MFN, 0, 0, none, 0⟩]⟩).calls.map
        Prod.snd =
      [decide_call.drain_migration_queue, decide_call.refill_migration_buffer,
       decide_call.fill_migration_queue [⟨100, 0⟩]] :=
  have h := decide_migration_sequence ⟨two_nodes host_ok, [⟨100, 0⟩]⟩
    ⟨1, [OWNER_NONE, OWNER_NONE], 0,
      monitor_with [⟨7, 0, INVALID_GFN, none, 0⟩, ⟨INVALID_MFN, 0, 0, none, 0⟩]⟩
    (by decide) (by decide) (by decide) (fun _ => rfl)
  ⟨h.1, h.2.1⟩

/-! ## The token invariant -/

theorem cmpxchg_token_get (owner : List Nat) (cpu old new i : Nat) :
    (cmpxchg_token owner cpu old new)[i]? =
      if i = cpu then (owner[cpu]?).map (fun v => (cmpxchg v old new).1)
      else owner[i]? := by
  unfold cmpxchg_token
  cases h : owner[cpu]? with
  | none =>
    by_cases hi : i = cpu
    · subst hi; simp [h]
    · simp [hi]
  | some v =>
    have hlt : cpu < owner.length := by
      rcases Nat.lt_or_ge cpu owner.length with hl | hl
      · exact hl
      · rw [List.getElem?_eq_none hl] at h; cases h
    by_cases hi : i = cpu
    · subst hi; simp [List.getElem?_set_self hlt]
    · simp [hi, List.getElem?_set_ne (Ne.symm hi)]

theorem token_inv_sampler (s : token_state) (cpu old new : Nat)
    (hold : old ≠ OWNER_DECIDER) (hnew : new ≠ OWNER_DECIDER)
    (hnew3 : new = OWNER_NONE ∨ new = OWNER_SAMPLER ∨ new = OWNER_DECIDER)
    (h : token_inv s) :
    token_inv { s with owner := cmpxchg_token s.owner cpu old new } := by
  intro i v hv
  simp only [cmpxchg_token_get] at hv
  by_cases hi : i = cpu
  · subst hi
    simp only [if_true] at hv
    cases hq : s.owner[i]? with
    | none => rw [hq] at hv; simp at hv
    | some w =>
      rw [hq] at hv
      simp only [Option.map_some', Option.some.injEq, cmpxchg] at hv
      obtain ⟨h3, hd⟩ := h i w hq
      by_cases hw : w = old
      · rw [if_pos hw] at hv
        subst hv
        refine ⟨hnew3, ?_⟩
        constructor
        · intro hc; exact absurd hc hnew
        · intro hc
          have := hd.mpr hc
          exact absurd (hw ▸ this) hold
      · rw [if_neg hw] at hv
        subst hv
        exact ⟨h3, hd⟩
  · simp only [hi, if_false] at hv
    exact h i v hv

theorem token_inv_step (a : token_action) (s : token_state) (h : token_inv s) :
    token_inv (token_step a s) := by
  cases a with
  | sampler_enter cpu =>
    exact token_inv_sampler s cpu OWNER_NONE OWNER_SAMPLER (by decide) (by decide)
      (Or.inr (Or.inl rfl)) h
  | sampler_leave cpu =>
    exact token_inv_sampler s cpu OWNER_SAMPLER OWNER_NONE (by decide) (by decide)
      (Or.inl rfl) h
  | decider_step =>
    obtain ⟨owner, pc⟩ := s
    cases pc with
    | idle =>
      intro i v hv
      obtain ⟨h3, hd⟩ := h i v hv
      refine ⟨h3, ?_⟩
      simp only [token_step, decider_holds] at hd ⊢
      constructor
      · intro hc; exact absurd (hd.mp hc) (by simp)
      · intro hc; omega
    | working =>
      intro i v hv
      obtain ⟨h3, hd⟩ := h i v hv
      refine ⟨h3, ?_⟩
      simp only [token_step, decider_holds] at hd ⊢
      constructor
      · intro _; omega
      · intro _; exact hd.mpr trivial
    | acquiring cpu =>
      simp only [token_step]
      cases hq : owner[cpu]? with
      | none =>
        intro i v hv
        simp only at hv
        obtain ⟨h3, hd⟩ := h i v hv
        refine ⟨h3, ?_⟩
        simp only [decider_holds] at hd ⊢
        have hlen : owner.length ≤ cpu := List.getElem?_eq_none_iff.mp hq
        have hi : i < owner.length := by
          rcases Nat.lt_or_ge i owner.length with hl | hl
          · exact hl
          · rw [List.getElem?_eq_none hl] at hv; cases hv
        constructor
        · intro _; trivial
        · intro _; exact hd.mpr (by omega)
      | some w =>
        simp only
        by_cases hw : w = OWNER_NONE
        · simp only [cmpxchg, hw, ne_eq, not_true_eq_false, if_false]
          intro i v hv
          simp only [cmpxchg_token_get] at hv
          by_cases hi : i = cpu
          · subst hi
            simp only [if_true, hq, Option.map_some', cmpxchg, hw, Option.some.injEq] at hv
            subst hv
            refine ⟨Or.inr (Or.inr rfl), ?_⟩
            simp only [decider_holds]
            constructor
            · intro _; omega
            · intro _; trivial
          · simp only [hi, if_false] at hv
            obtain ⟨h3, hd⟩ := h i v hv
            refine ⟨h3, ?_⟩
            simp only [decider_holds] at hd ⊢
            constructor
            · intro hc; have := hd.mp hc; omega
            · intro hc; exact hd.mpr (by omega)
        · simp only [cmpxchg, ne_eq, hw, not_false_eq_true, if_true]
          exact h
    | releasing cpu =>
      simp only [token_step]
      cases hq : owner[cpu]? with
      | none =>
        intro i v hv
        simp only at hv
        obtain ⟨h3, hd⟩ := h i v hv
        refine ⟨h3, ?_⟩
        simp only [decider_holds] at hd ⊢
        have hlen : owner.length ≤ cpu := List.getElem?_eq_none_iff.mp hq
        have hi : i < owner.length := by
          rcases Nat.lt_or_ge i owner.length with hl | hl
          · exact hl
          · rw [List.getElem?_eq_none hl] at hv; cases hv
        constructor
        · intro hc; have := hd.mp hc; omega
        · intro hc; exact absurd hc (by simp)
      | some w =>
        simp only
        have hwd : w = OWNER_DECIDER := (h cpu w hq).2.mpr (by simp [decider_holds])
        intro i v hv
        simp only [cmpxchg_token_get] at hv
        by_cases hi : i = cpu
        · subst hi
          simp only [if_true, hq, Option.map_some', cmpxchg, hwd, Option.some.injEq] at hv
          subst hv
          refine ⟨Or.inl rfl, ?_⟩
          simp only [decider_holds]
          constructor
          · intro hc; exact absurd hc (by decide)
          · intro hc; omega
        · simp only [hi, if_false] at hv
          obtain ⟨h3, hd⟩ := h i v hv
          refine ⟨h3, ?_⟩
          simp only [decider_holds] at hd ⊢
          constructor
          · intro hc; have := hd.mp hc; omega
          · intro hc; exact hd.mpr (by omega)

theorem token_inv_run (schedule : List token_action) :
    ∀ s : token_state, token_inv s → token_inv (token_run schedule s) := by
  induction schedule with
  | nil => intro s h; exact h
  | cons a rest ih =>
    intro s h
    simp only [token_run, List.foldl_cons]
    exact ih _ (token_inv_step a s h)

theorem token_inv_init (n : Nat) : token_inv (tokens_init n) := by
  intro i v hv
  simp only [tokens_init] at hv
  have hv2 : v = OWNER_NONE := by
    have hmem : v ∈ List.replicate n OWNER_NONE := List.mem_iff_getElem?.mpr ⟨i, hv⟩
    exact (List.mem_replicate.mp hmem).2
  subst hv2
  refine ⟨Or.inl rfl, ?_⟩
  simp only [tokens_init, decider_holds]
  constructor
  · intro hc; exact absurd hc (by decide)
  · intro hc; exact absurd hc (by simp)

/-- C16 as stated fails: on two online CPUs, after the decider has taken the token
of CPU 0 and before it takes the token of CPU 1, one token is DECIDER and the
other is not. -/
theorem token_invariant_counterexample :
    (token_run [token_action.decider_step, token_action.decider_step]
        (tokens_init 2)).owner = [OWNER_DECIDER, OWNER_NONE] ∧
    ¬ tokens_all_or_none
        (token_run [token_action.decider_step, token_action.decider_step]
          (tokens_init 2)).owner := by
  decide

/-- C16 (amended): in every state reachable from all tokens NONE by the
compare-and-set steps of the samplers and of the decider, every online CPU's
token is one of NONE, SAMPLER, DECIDER, and the token of a CPU is DECIDER exactly
when the decider has taken it in its acquisition loop and has not yet released
it in its release loop.  Hence between the two loops every online CPU's token is
DECIDER, and when no decider runs no token is DECIDER. -/
theorem token_invariant (n : Nat) (schedule : List token_action) :
    (∀ v ∈ (token_run schedule (tokens_init n)).owner,
      v = OWNER_NONE ∨ v = OWNER_SAMPLER ∨ v = OWNER_DECIDER) ∧
    (∀ (i v : Nat), (token_run schedule (tokens_init n)).owner[i]? = some v →
      (v = OWNER_DECIDER ↔ decider_holds (token_run schedule (tokens_init n)).pc i)) ∧
    ((token_run schedule (tokens_init n)).pc = decider_pc.working →
      ∀ v ∈ (token_run schedule (tokens_init n)).owner, v = OWNER_DECIDER) ∧
    ((token_run schedule (tokens_init n)).pc = decider_pc.idle →
      ∀ v ∈ (token_run schedule (tokens_init n)).owner, v ≠ OWNER_DECIDER) := by
  have h := token_inv_run schedule (tokens_init n) (token_inv_init n)
  refine ⟨?_, ?_, ?_, ?_⟩
  · intro v hv
    obtain ⟨i, hi⟩ := List.mem_iff_getElem?.mp hv
    exact (h i v hi).1
  · intro i v hv
    exact (h i v hv).2
  · intro hpc v hv
    obtain ⟨i, hi⟩ := List.mem_iff_getElem?.mp hv
    have := (h i v hi).2
    rw [hpc] at this
    exact this.mpr trivial
  · intro hpc v hv hc
    obtain ⟨i, hi⟩ := List.mem_iff_getElem?.mp hv
    have := (h i v hi).2
    rw [hpc] at this
    exact this.mp hc

/-- C16 (amended), on two CPUs: a sampler runs on CPU 1 while the decider starts,
the decider takes CPU 0, waits for CPU 1, takes it, and is then between its two
loops with both tokens DECIDER. -/
theorem token_invariant_witness :
    (token_run [token_action.sampler_enter 1, token_action.decider_step,
        token_action.decider_step, token_action.decider_step,
        token_action.sampler_leave 1, token_action.decider_step,
        token_action.decider_step] (tokens_init 2)) =
      ⟨[OWNER_DECIDER, OWNER_DECIDER], decider_pc.working⟩ ∧
    ∀ v ∈ (token_run [token_action.sampler_enter 1, token_action.decider_step,
        token_action.decider_step, token_action.decider_step,
        token_action.sampler_leave 1, token_action.decider_step,
        token_action.decider_step] (tokens_init 2)).owner, v = OWNER_DECIDER :=
  ⟨by decide,
   (token_invariant 2 [token_action.sampler_enter 1, token_action.decider_step,
        token_action.decider_step, token_action.decider_step,
        token_action.sampler_leave 1, token_action.decider_step,
        token_action.decider_step]).2.2.1 (by decide)⟩

/-! ## Starting the monitor -/

/-- The failure paths of `start_monitoring`: a call from the stopped state that
fails returns -1, leaves `monitoring_started` at 0 and the queue pointer NULL.
`free_xenheap_pages` is called once, on the address that `alloc_xenheap_pages`
returned, when the queue had been allocated (and not at all otherwise), with the
order computed from `sizeof(struct hotlist_entry)`, which nothing relates to the
order of the allocation; `free_migration_engine` is called once when the engine
had been allocated (and not at all otherwise).  The call fails exactly when the
queue allocation fails, the engine allocation fails, or no sample source can be
enabled.  A call made while monitoring is already started returns -1, makes no
call and changes nothing. -/
theorem start_monitoring_refused (k : control_consts) (h : start_host)
    (st : control_state) (hstopped : st.monitoring_started = 0)
    (hfail : (start_monitoring k h st).ret ≠ 0) :
    (start_monitoring k h st).ret = -1 ∧
    (start_monitoring k h st).st.monitoring_started = 0 ∧
    (start_monitoring k h st).st.migration_queue = none ∧
    xenheap_frees (start_monitoring k h st).calls =
      (match h.alloc_xenheap_pages with
       | none => []
       | some b => [(b.addr, k.get_order_from_bytes
           ((st.monitor_enqueued * k.sizeof_hotlist_entry) % 2 ^ 64))]) ∧
    engine_frees (start_monitoring k h st).calls =
      (if h.alloc_xenheap_pages ≠ none ∧ h.alloc_migration_engine = 0 then 1 else 0) ∧
    (h.alloc_xenheap_pages = none ∨ h.alloc_migration_engine ≠ 0 ∨
      ¬ source_available h) ∧
    (∀ (h0 : start_host) (st0 : control_state), st0.monitoring_started = 0 →
      ((start_monitoring k h0 st0).ret ≠ 0 ↔
        (h0.alloc_xenheap_pages = none ∨ h0.alloc_migration_engine ≠ 0 ∨
          ¬ source_available h0))) ∧
    (∀ (h0 : start_host) (st0 : control_state), st0.monitoring_started ≠ 0 →
      start_monitoring k h0 st0 = ⟨st0, [], -1⟩) := by
  have hiff : ∀ (h0 : start_host) (st0 : control_state), st0.monitoring_started = 0 →
      ((start_monitoring k h0 st0).ret ≠ 0 ↔
        (h0.alloc_xenheap_pages = none ∨ h0.alloc_migration_engine ≠ 0 ∨
          ¬ source_available h0)) := by
    intro h0 st0 h00
    obtain ⟨al, en, ic, ia, pc⟩ := h0
    cases al <;> cases ic <;> cases pc <;> by_cases he : en = 0 <;> by_cases hi : ia = 0 <;>
      simp [start_monitoring, alloc_migration_queue, free_migration_queue,
        init_migration_queue, start_sources, enable_monitoring_ibs, enable_monitoring_pebs,
        source_available, h00, he, hi]
  have hcase := (hiff h st hstopped).mp hfail
  refine ⟨?_, ?_, ?_, ?_, ?_, hcase, hiff, ?_⟩
  · obtain ⟨al, en, ic, ia, pc⟩ := h
    cases al <;> cases ic <;> cases pc <;> by_cases he : en = 0 <;> by_cases hi : ia = 0 <;>
      simp [start_monitoring, alloc_migration_queue, free_migration_queue,
        init_migration_queue, start_sources, enable_monitoring_ibs, enable_monitoring_pebs,
        source_available, hstopped, he, hi] at hcase ⊢
  · obtain ⟨al, en, ic, ia, pc⟩ := h
    cases al <;> cases ic <;> cases pc <;> by_cases he : en = 0 <;> by_cases hi : ia = 0 <;>
      simp [start_monitoring, alloc_migration_queue, free_migration_queue,
        init_migration_queue, start_sources, enable_monitoring_ibs, enable_monitoring_pebs,
        source_available, hstopped, he, hi] at hcase ⊢
  · obtain ⟨al, en, ic, ia, pc⟩ := h
    cases al <;> cases ic <;> cases pc <;> by_cases he : en = 0 <;> by_cases hi : ia = 0 <;>
      simp [start_monitoring, alloc_migration_queue, free_migration_queue,
        init_migration_queue, start_sources, enable_monitoring_ibs, enable_monitoring_pebs,
        source_available, hstopped, he, hi] at hcase ⊢
  · obtain ⟨al, en, ic, ia, pc⟩ := h
    cases al <;> cases ic <;> cases pc <;> by_cases he : en = 0 <;> by_cases hi : ia = 0 <;>
      simp [start_monitoring, alloc_migration_queue, free_migration_queue,
        init_migration_queue, start_sources, enable_monitoring_ibs, enable_monitoring_pebs,
        source_available, xenheap_frees, hstopped, he, hi] at hcase ⊢
  · obtain ⟨al, en, ic, ia, pc⟩ := h
    cases al <;> cases ic <;> cases pc <;> by_cases he : en = 0 <;> by_cases hi : ia = 0 <;>
      simp [start_monitoring, alloc_migration_queue, free_migration_queue,
        init_migration_queue, start_sources, enable_monitoring_ibs, enable_monitoring_pebs,
        source_available, engine_frees, hstopped, he, hi] at hcase ⊢
  · intro h0 st0 h00
    simp [start_monitoring, h00]

/-- On a host that allocates the queue at address 4096 and then refuses the
engine, with 4 slots: `free_xenheap_pages` is called once on that address and
the pointer is NULL again. -/
theorem start_monitoring_refused_witness :
    (start_monitoring xen_control start_host_no_engine stopped_monitor).ret = -1 ∧
    (start_monitoring xen_control start_host_no_engine stopped_monitor).st.migration_queue =
      none ∧
    xenheap_frees (start_monitoring xen_control start_host_no_engine stopped_monitor).calls =
      [(4096, 0)] :=
  have h := start_monitoring_refused xen_control start_host_no_engine stopped_monitor rfl
    (by decide)
  ⟨h.1, h.2.2.1, h.2.2.2.1⟩

/-- C18 fails on the code: with min_node_score = 8 and min_node_rate = 75
configured, `start_monitoring` pushes the triple (75, 8, 0) to
`param_migration_engine`, whereas `monitor_migration_setcriterias(8, 75, 0)` on the
running monitor pushes (8, 75, 0): the two call sites pass score and rate in
opposite orders. -/
theorem param_migration_engine_order_mismatch :
    (start_monitoring xen_control start_host_ok stopped_monitor).ret = 0 ∧
    (start_monitoring xen_control start_host_ok stopped_monitor).st.monitor_min_node_score
      = 8 ∧
    (start_monitoring xen_control start_host_ok stopped_monitor).st.monitor_min_node_rate
      = 75 ∧
    engine_params (start_monitoring xen_control start_host_ok stopped_monitor).calls =
      [(75, 8, 0)] ∧
    engine_params (monitor_migration_setcriterias
        (start_monitoring xen_control start_host_ok stopped_monitor).st 8 75 0).calls =
      [(8, 75, 0)] ∧
    engine_params (start_monitoring xen_control start_host_ok stopped_monitor).calls ≠
      engine_params (monitor_migration_setcriterias
        (start_monitoring xen_control start_host_ok stopped_monitor).st 8 75 0).calls := by
  decide

/-! ## The frame of fill_migration_queue -/

theorem fill_scan_found (pgid : Nat) (l : List migration_query) (j s : Nat)
    (h : (fill_scan pgid l j s).1 ≠ j + l.length) :
    ∃ (k : Nat) (q : migration_query), l[k]? = some q ∧ q.mfn = pgid := by
  by_contra hc
  apply h
  apply fill_scan_absent
  intro k q hq hm
  exact hc ⟨k, q, hq, hm⟩

theorem fill_migration_queue_length (buffer : List migration) :
    ∀ st : monitor_state,
      (fill_migration_queue st buffer).migration_queue.length =
        st.migration_queue.length := by
  induction buffer with
  | nil => intro st; rfl
  | cons m rest ih =>
    intro st
    simp only [fill_migration_queue]
    split
    · exact ih st
    · split
      · rfl
      · rw [ih]
        simp

theorem fill_migration_queue_full (buffer : List migration) :
    ∀ st : monitor_state, (∀ q ∈ st.migration_queue, q.mfn ≠ INVALID_MFN) →
      (fill_migration_queue st buffer).migration_queue = st.migration_queue := by
  induction buffer with
  | nil => intro st _; rfl
  | cons m rest ih =>
    intro st hfull
    simp only [fill_migration_queue]
    split
    · exact ih st hfull
    · rename_i hj
      simp only [ne_eq, not_not] at hj
      have hcomplete := fill_scan_complete m.pgid st.migration_queue 0 st.monitor_enqueued
        (by simpa [monitor_state.monitor_enqueued] using hj)
      split
      · rfl
      · rename_i hs
        rcases hcomplete.2 with ⟨hb1, _⟩ | ⟨k, q0, _, hb2, hb3, _⟩
        · exact absurd hb1 hs
        · exact absurd hb3 (hfull q0 (List.mem_iff_getElem?.mpr ⟨k, hb2⟩))

theorem fill_frame (buffer : List migration) :
    ∀ (st : monitor_state) (i : Nat) (q t : migration_query),
      st.migration_queue[i]? = some q →
      (fill_migration_queue st buffer).migration_queue[i]? = some t → t ≠ q →
      q.mfn = INVALID_MFN ∧
      ∃ (k : Nat) (m : migration), buffer[k]? = some m ∧ t = fill_entry m ∧
        (∀ (k2 : Nat) (m2 : migration), k2 < k → buffer[k2]? = some m2 →
          m2.pgid ≠ m.pgid) ∧
        (∀ (j : Nat) (qj : migration_query), st.migration_queue[j]? = some qj →
          qj.mfn ≠ m.pgid) := by
  induction buffer with
  | nil =>
    intro st i q t hq ht hne
    simp only [fill_migration_queue] at ht
    rw [hq] at ht
    exact absurd (Option.some.inj ht).symm hne
  | cons m rest ih =>
    intro st i q t hq ht hne
    simp only [fill_migration_queue] at ht
    split at ht
    · -- the MFN of the proposal is queued already
      rename_i hj
      obtain ⟨j0, q0, hq0, hm0⟩ := fill_scan_found m.pgid st.migration_queue 0
        st.monitor_enqueued (by simpa [monitor_state.monitor_enqueued] using hj)
      obtain ⟨he, k, m1, hk, ht1, hfirst, habs⟩ := ih st i q t hq ht hne
      refine ⟨he, k + 1, m1, by simpa using hk, ht1, ?_, habs⟩
      intro k2 m2 hk2 hm2
      cases k2 with
      | zero =>
        simp only [List.getElem?_cons_zero, Option.some.injEq] at hm2
        subst hm2
        intro hc
        exact habs j0 q0 hq0 (hm0.trans hc)
      | succ k2 =>
        simp only [List.getElem?_cons_succ] at hm2
        exact hfirst k2 m2 (by omega) hm2
    · rename_i hj
      simp only [ne_eq, not_not] at hj
      have hcomplete := fill_scan_complete m.pgid st.migration_queue 0 st.monitor_enqueued
        (by simpa [monitor_state.monitor_enqueued] using hj)
      split at ht
      · -- no empty slot: the loop is left
        simp only at ht
        rw [hq] at ht
        exact absurd (Option.some.inj ht).symm hne
      · rename_i hs
        rcases hcomplete.2 with ⟨hb1, _⟩ | ⟨s, q0, hb1, hb2, hb3, _⟩
        · exact absurd hb1 hs
        · rw [Nat.zero_add] at hb1
          rw [hb1] at ht
          have hslt : s < st.migration_queue.length := by
            rcases Nat.lt_or_ge s st.migration_queue.length with hl | hl
            · exact hl
            · rw [List.getElem?_eq_none hl] at hb2; cases hb2
          have hpg : m.pgid ≠ INVALID_MFN := by
            intro hc
            exact hcomplete.1 s q0 hb2 (hb3.trans hc.symm)
          by_cases his : i = s
          · subst his
            rw [hb2] at hq
            have hq2 : q0 = q := Option.some.inj hq
            subst hq2
            have hmid : ({ st with
                migration_planned := (st.migration_planned + 1) % 2 ^ 64
                migration_queue := st.migration_queue.set i
                  { mfn := m.pgid, node := m.node, gfn := INVALID_GFN, domain := none,
                    tries := 0 } } : monitor_state).migration_queue[i]? =
                some (fill_entry m) := by
              simp only [fill_entry]
              exact List.getElem?_set_self hslt
            by_cases hte : t = fill_entry m
            · refine ⟨hb3, 0, m, by simp, hte, ?_, ?_⟩
              · intro k2 m2 hk2 _; omega
              · intro j qj hqj
                exact hcomplete.1 j qj hqj
            · obtain ⟨he, _⟩ := ih _ i (fill_entry m) t hmid ht hte
              exact absurd he hpg
          · have hmid : ({ st with
                migration_planned := (st.migration_planned + 1) % 2 ^ 64
                migration_queue := st.migration_queue.set s
                  { mfn := m.pgid, node := m.node, gfn := INVALID_GFN, domain := none,
                    tries := 0 } } : monitor_state).migration_queue[i]? = some q := by
              simp only
              rw [List.getElem?_set_ne (Ne.symm his)]
              exact hq
            obtain ⟨he, k, m1, hk, ht1, hfirst, habs⟩ := ih _ i q t hmid ht hne
            have hm1 : m.pgid ≠ m1.pgid := by
              have := habs s (fill_entry m) (by
                simp only [fill_entry]
                exact List.getElem?_set_self hslt)
              simpa [fill_entry] using this
            refine ⟨he, k + 1, m1, by simpa using hk, ht1, ?_, ?_⟩
            · intro k2 m2 hk2 hm2
              cases k2 with
              | zero =>
                simp only [List.getElem?_cons_zero, Option.some.injEq] at hm2
                subst hm2
                exact hm1
              | succ k2 =>
                simp only [List.getElem?_cons_succ] at hm2
                exact hfirst k2 m2 (by omega) hm2
            · intro j qj hqj
              by_cases hjs : j = s
              · subst hjs
                rw [hb2] at hqj
                have : q0 = qj := Option.some.inj hqj
                subst this
                rw [hb3]
                intro hc
                have := habs i q hmid
                exact this (he.trans hc)
              · apply habs j qj
                simp only
                rw [List.getElem?_set_ne (Ne.symm hjs)]
                exact hqj

theorem fill_keeps_occupied (buffer : List migration) (st : monitor_state) (i : Nat)
    (q : migration_query) (hq : st.migration_queue[i]? = some q)
    (hne : q.mfn ≠ INVALID_MFN) :
    (fill_migration_queue st buffer).migration_queue[i]? = some q := by
  have hi : i < st.migration_queue.length := by
    rcases Nat.lt_or_ge i st.migration_queue.length with hl | hl
    · exact hl
    · rw [List.getElem?_eq_none hl] at hq; cases hq
  have hi2 : i < (fill_migration_queue st buffer).migration_queue.length := by
    rw [fill_migration_queue_length]; exact hi
  have ht := List.getElem?_eq_getElem hi2
  by_cases hte : (fill_migration_queue st buffer).migration_queue[i] = q
  · rw [ht, hte]
  · exact absurd (fill_frame buffer st i q _ hq ht hte).1 hne

theorem fill_keeps_present (buffer : List migration) (st : monitor_state) (p : Nat)
    (hp : ∃ q ∈ st.migration_queue, q.mfn = p) :
    (∃ q ∈ (fill_migration_queue st buffer).migration_queue, q.mfn = p) ∨
    (∀ q ∈ (fill_migration_queue st buffer).migration_queue, q.mfn ≠ INVALID_MFN) := by
  by_cases hfull : ∀ q ∈ (fill_migration_queue st buffer).migration_queue,
      q.mfn ≠ INVALID_MFN
  · exact Or.inr hfull
  · left
    simp only [ne_eq, not_forall, not_not] at hfull
    obtain ⟨e, he, hee⟩ := hfull
    by_cases hpi : p = INVALID_MFN
    · exact ⟨e, he, hee.trans hpi.symm⟩
    · obtain ⟨q, hq, hqp⟩ := hp
      obtain ⟨i, hi⟩ := List.mem_iff_getElem?.mp hq
      have := fill_keeps_occupied buffer st i q hi (by rw [hqp]; exact hpi)
      exact ⟨q, List.mem_iff_getElem?.mpr ⟨i, this⟩, hqp⟩

theorem fill_places_or_full (buffer : List migration) :
    ∀ st : monitor_state, ∀ m ∈ buffer,
      (∃ q ∈ (fill_migration_queue st buffer).migration_queue, q.mfn = m.pgid) ∨
      (∀ q ∈ (fill_migration_queue st buffer).migration_queue, q.mfn ≠ INVALID_MFN) := by
  induction buffer with
  | nil => intro st m hm; simp at hm
  | cons m0 rest ih =>
    intro st m hm
    simp only [fill_migration_queue]
    split
    · rename_i hj
      rcases List.mem_cons.mp hm with hm1 | hm1
      · subst hm1
        obtain ⟨j0, q0, hq0, hm0⟩ := fill_scan_found m.pgid st.migration_queue 0
          st.monitor_enqueued (by simpa [monitor_state.monitor_enqueued] using hj)
        exact fill_keeps_present rest st m.pgid
          ⟨q0, List.mem_iff_getElem?.mpr ⟨j0, hq0⟩, hm0⟩
      · exact ih st m hm1
    · rename_i hj
      simp only [ne_eq, not_not] at hj
      have hcomplete := fill_scan_complete m0.pgid st.migration_queue 0 st.monitor_enqueued
        (by simpa [monitor_state.monitor_enqueued] using hj)
      split
      · rename_i hs
        right
        simp only
        rcases hcomplete.2 with ⟨_, hb2⟩ | ⟨k, q0, hb1, hb2, _, _⟩
        · intro q hq
          obtain ⟨i, hi⟩ := List.mem_iff_getElem?.mp hq
          exact hb2 i q hi
        · have hk : k < st.migration_queue.length := by
            rcases Nat.lt_or_ge k st.migration_queue.length with hl | hl
            · exact hl
            · rw [List.getElem?_eq_none hl] at hb2; cases hb2
          rw [hb1] at hs
          simp only [monitor_state.monitor_enqueued] at hs
          omega
      · rename_i hs
        rcases List.mem_cons.mp hm with hm1 | hm1
        · subst hm1
          rcases hcomplete.2 with ⟨hb1, _⟩ | ⟨k, q0, hb1, hb2, _, _⟩
          · exact absurd hb1 hs
          · have hk : k < st.migration_queue.length := by
              rcases Nat.lt_or_ge k st.migration_queue.length with hl | hl
              · exact hl
              · rw [List.getElem?_eq_none hl] at hb2; cases hb2
            apply fill_keeps_present rest _ m.pgid
            refine ⟨fill_entry m, ?_, rfl⟩
            simp only [fill_entry]
            rw [hb1, Nat.zero_add]
            exact List.mem_iff_getElem?.mpr ⟨k, List.getElem?_set_self hk⟩
        · exact ih _ m hm1

/-- C19: proposals are dropped only for lack of space.  After
`fill_migration_queue`, for each proposal of the buffer either some slot of the
queue holds the proposal's MFN or the queue has no empty slot; and when the
queue has no empty slot at entry, every slot is left unchanged. -/
theorem fill_migration_queue_drops_when_full (st : monitor_state)
    (buffer : List migration) :
    (∀ m ∈ buffer,
      (∃ q ∈ (fill_migration_queue st buffer).migration_queue, q.mfn = m.pgid) ∨
      (∀ q ∈ (fill_migration_queue st buffer).migration_queue, q.mfn ≠ INVALID_MFN)) ∧
    ((∀ q ∈ st.migration_queue, q.mfn ≠ INVALID_MFN) →
      (fill_migration_queue st buffer).migration_queue = st.migration_queue) :=
  ⟨fill_places_or_full buffer st, fill_migration_queue_full buffer st⟩

/-- C19, on a queue with one free slot and a buffer of two new proposals: the
first is queued, the second is dropped, and the queue is full. -/
theorem fill_migration_queue_drops_when_full_witness :
    (fill_migration_queue (monitor_with [⟨7, 0, 5, some 1, 0⟩, ⟨INVALID_MFN, 0, 0, none, 0⟩])
        [⟨100, 0⟩, ⟨101, 1⟩]).migration_queue =
      [⟨7, 0, 5, some 1, 0⟩, ⟨100, 0, INVALID_GFN, none, 0⟩] ∧
    (fill_migration_queue (monitor_with [⟨7, 0, 5, some 1, 0⟩, ⟨8, 1, 6, some 1, 0⟩])
        [⟨100, 0⟩, ⟨101, 1⟩]).migration_queue =
      [⟨7, 0, 5, some 1, 0⟩, ⟨8, 1, 6, some 1, 0⟩] :=
  ⟨by decide,
   (fill_migration_queue_drops_when_full
      (monitor_with [⟨7, 0, 5, some 1, 0⟩, ⟨8, 1, 6, some 1, 0⟩])
      [⟨100, 0⟩, ⟨101, 1⟩]).2 (by decide)⟩

/-- C20: `fill_migration_queue` keeps the number of slots; every slot whose
content differs after the call was empty before the call and afterwards holds
the MFN and the target node of a buffer proposal, the first proposal in buffer
order that carries this MFN, with GFN = `INVALID_GFN`, domain = NULL and
tries = 0; every slot that was non-empty before the call is unchanged in all
five fields. -/
theorem fill_migration_queue_frame (st : monitor_state) (buffer : List migration) :
    (fill_migration_queue st buffer).migration_queue.length =
      st.migration_queue.length ∧
    (∀ (i : Nat) (q t : migration_query), st.migration_queue[i]? = some q →
      (fill_migration_queue st buffer).migration_queue[i]? = some t → t ≠ q →
      q.mfn = INVALID_MFN ∧
      ∃ (k : Nat) (m : migration), buffer[k]? = some m ∧
        t = { mfn := m.pgid, node := m.node, gfn := INVALID_GFN, domain := none,
              tries := 0 } ∧
        (∀ (k2 : Nat) (m2 : migration), k2 < k → buffer[k2]? = some m2 →
          m2.pgid ≠ m.pgid)) ∧
    (∀ (i : Nat) (q : migration_query), st.migration_queue[i]? = some q →
      q.mfn ≠ INVALID_MFN →
      (fill_migration_queue st buffer).migration_queue[i]? = some q) := by
  refine ⟨fill_migration_queue_length buffer st, ?_, ?_⟩
  · intro i q t hq ht hne
    obtain ⟨he, k, m, hk, ht1, hfirst, _⟩ := fill_frame buffer st i q t hq ht hne
    exact ⟨he, k, m, hk, ht1, hfirst⟩
  · intro i q hq hne
    exact fill_keeps_occupied buffer st i q hq hne

/-- C20, on a queue holding frame 7 and two empty slots, filled with a buffer
that proposes frame 100 twice with different nodes: the slot written holds the
node of the first proposal, and the slot of frame 7 is untouched. -/
theorem fill_migration_queue_frame_witness :
    (fill_migration_queue
        (monitor_with [⟨7, 0, 5, some 1, 1⟩, ⟨INVALID_MFN, 0, 0, none, 0⟩,
          ⟨INVALID_MFN, 3, 9, some 2, 4⟩])
        [⟨100, 1⟩, ⟨100, 0⟩]).migration_queue =
      [⟨7, 0, 5, some 1, 1⟩, ⟨INVALID_MFN, 0, 0, none, 0⟩,
       ⟨100, 1, INVALID_GFN, none, 0⟩] ∧
    (fill_migration_queue
        (monitor_with [⟨7, 0, 5, some 1, 1⟩, ⟨INVALID_MFN, 0, 0, none, 0⟩,
          ⟨INVALID_MFN, 3, 9, some 2, 4⟩])
        [⟨100, 1⟩, ⟨100, 0⟩]).migration_queue[0]? = some ⟨7, 0, 5, some 1, 1⟩ :=
  ⟨by decide,
   (fill_migration_queue_frame
      (monitor_with [⟨7, 0, 5, some 1, 1⟩, ⟨INVALID_MFN, 0, 0, none, 0⟩,
        ⟨INVALID_MFN, 3, 9, some 2, 4⟩]) [⟨100, 1⟩, ⟨100, 0⟩]).2.2 0 _ rfl (by decide)⟩

/-! ## The frame of the binding probe -/

theorem acquire_tokens_some :
    ∀ (l owner : List Nat), acquire_tokens l = some owner →
      owner = List.replicate l.length OWNER_DECIDER ∧ ∀ v ∈ l, v = OWNER_NONE := by
  intro l
  induction l with
  | nil =>
    intro owner h
    simp only [acquire_tokens, Option.some.injEq] at h
    subst h
    exact ⟨rfl, fun v hv => by simp at hv⟩
  | cons a rest ih =>
    intro owner h
    simp only [acquire_tokens, cmpxchg] at h
    by_cases ha : a = OWNER_NONE
    · simp only [ha, ne_eq, not_true_eq_false, if_false, if_true] at h
      cases hr : acquire_tokens rest with
      | none => rw [hr] at h; cases h
      | some r =>
        rw [hr] at h
        simp only [Option.some.injEq] at h
        obtain ⟨h1, h2⟩ := ih r hr
        subst h
        refine ⟨?_, ?_⟩
        · rw [h1, List.length_cons, List.replicate_succ]
        · intro v hv
          rcases List.mem_cons.mp hv with hv | hv
          · rw [hv, ha]
          · exact h2 v hv
    · simp only [ne_eq, ha, not_false_eq_true, if_true] at h
      cases h

theorem decide_migration_returned (env : decide_env) (st : decider_state) (v : Int)
    (hstarted : st.monitoring_started ≠ 0)
    (hret : (decide_migration env st).out = outcome.returned v) :
    v = 0 ∧
    (∀ t ∈ st.migration_engine_owner, t = OWNER_NONE) ∧
    (decide_migration env st).calls =
      [(List.replicate st.migration_engine_owner.length OWNER_DECIDER,
          decide_call.drain_migration_queue),
       (List.replicate st.migration_engine_owner.length OWNER_DECIDER,
          decide_call.refill_migration_buffer),
       (List.replicate st.migration_engine_owner.length OWNER_DECIDER,
          decide_call.fill_migration_queue env.refill_migration_buffer)] ∧
    (decide_migration env st).st.migration_engine_owner =
      List.replicate st.migration_engine_owner.length OWNER_NONE := by
  unfold decide_migration at hret ⊢
  simp only [hstarted, if_false] at hret ⊢
  cases hacq : acquire_tokens st.migration_engine_owner with
  | none => rw [hacq] at hret; simp at hret
  | some owner =>
    obtain ⟨ho, hnone⟩ := acquire_tokens_some _ _ hacq
    rw [hacq] at hret
    simp only at hret ⊢
    cases hd : (drain_migration_queue env.drain st.mon).out with
    | returned u =>
      rw [hd] at hret
      simp only [outcome.returned.injEq] at hret
      simp only [ho, release_tokens_held]
      exact ⟨hret.symm, hnone, trivial, trivial⟩
    | bug => rw [hd] at hret; simp at hret
    | blocked => rw [hd] at hret; simp at hret

theorem sampler_enter_excluded (s : token_state) (cpu : Nat)
    (h : ∀ t ∈ s.owner, t = OWNER_DECIDER) :
    token_step (token_action.sampler_enter cpu) s = s := by
  obtain ⟨owner, pc⟩ := s
  simp only [token_step]
  congr 1
  apply List.ext_getElem?
  intro i
  rw [cmpxchg_token_get]
  by_cases hi : i = cpu
  · subst hi
    rw [if_pos rfl]
    cases hv : owner[i]? with
    | none => rfl
    | some v =>
      have hd : v = OWNER_DECIDER := h v (List.mem_iff_getElem?.mpr ⟨i, hv⟩)
      subst hd
      rfl
  · rw [if_neg hi]

/-- C22, the claim as stated fails in a run with a handler interleaved, on two
CPUs: the decider takes both tokens and is between its two loops with
(DECIDER, DECIDER); it releases the token of CPU 0, the handler of CPU 0 takes
that token (NONE to SAMPLER), the decider releases the token of CPU 1 and leaves
`decide_migration`: the tokens are then (SAMPLER, NONE), not all NONE. -/
theorem decide_migration_window_counterexample :
    token_run [token_action.decider_step, token_action.decider_step,
        token_action.decider_step, token_action.decider_step] (tokens_init 2) =
      ⟨[OWNER_DECIDER, OWNER_DECIDER], decider_pc.working⟩ ∧
    token_run [token_action.decider_step, token_action.decider_step,
        token_action.decider_step, token_action.decider_step,
        token_action.decider_step, token_action.decider_step,
        token_action.sampler_enter 0,
        token_action.decider_step, token_action.decider_step] (tokens_init 2) =
      ⟨[OWNER_SAMPLER, OWNER_NONE], decider_pc.idle⟩ ∧
    ¬ (∀ t ∈ (token_run [token_action.decider_step, token_action.decider_step,
        token_action.decider_step, token_action.decider_step,
        token_action.decider_step, token_action.decider_step,
        token_action.sampler_enter 0,
        token_action.decider_step, token_action.decider_step] (tokens_init 2)).owner,
      t = OWNER_NONE) := by
  decide

/-- C22, amended: whenever `decide_migration` runs with monitoring started and
returns, it returns 0, and each of its three steps (the drain pass, the refill,
the fill) is made while the token of every online CPU is DECIDER, so that an
`ibs_nmi_handler` invoked on any CPU in that window finds a token that is not
NONE and returns without any call and without touching the queue; the release
loop puts the token of every online CPU back from DECIDER to NONE, and with no
handler running in between every token is NONE on return.  In a run interleaved
with handlers, every token is DECIDER as long as the decider is between its two
loops and the entry compare-and-set of a handler changes nothing there; once the
decider is out no token is DECIDER: each token is NONE, or SAMPLER when the
handler of that CPU has taken it since its release. -/
theorem decide_migration_window (env : decide_env) (st : decider_state) (v : Int)
    (hstarted : st.monitoring_started ≠ 0)
    (hret : (decide_migration env st).out = outcome.returned v) :
    v = 0 ∧
    (decide_migration env st).calls.map Prod.snd =
      [decide_call.drain_migration_queue, decide_call.refill_migration_buffer,
       decide_call.fill_migration_queue env.refill_migration_buffer] ∧
    (∀ c ∈ (decide_migration env st).calls,
      c.1.length = st.migration_engine_owner.length ∧ ∀ t ∈ c.1, t = OWNER_DECIDER) ∧
    ((decide_migration env st).st.migration_engine_owner.length =
        st.migration_engine_owner.length ∧
      ∀ t ∈ (decide_migration env st).st.migration_engine_owner, t = OWNER_NONE) ∧
    (∀ (k : ibs_consts) (cur : current_vcpu) (g : Nat → Nat) (record : ibs_record)
        (queue : List migration_query),
      ibs_nmi_handler k cur g record OWNER_DECIDER queue = ⟨OWNER_DECIDER, queue, []⟩) ∧
    (∀ (n : Nat) (schedule : List token_action),
      ((token_run schedule (tokens_init n)).pc = decider_pc.working →
        (∀ t ∈ (token_run schedule (tokens_init n)).owner, t = OWNER_DECIDER) ∧
        (∀ cpu : Nat,
          token_step (token_action.sampler_enter cpu) (token_run schedule (tokens_init n)) =
            token_run schedule (tokens_init n))) ∧
      ((token_run schedule (tokens_init n)).pc = decider_pc.idle →
        ∀ t ∈ (token_run schedule (tokens_init n)).owner,
          t ≠ OWNER_DECIDER ∧ (t = OWNER_NONE ∨ t = OWNER_SAMPLER))) := by
  obtain ⟨h1, _, h3, h4⟩ := decide_migration_returned env st v hstarted hret
  refine ⟨h1, ?_, ?_, ?_, ?_, ?_⟩
  · rw [h3]; rfl
  · intro c hc
    rw [h3] at hc
    simp only [List.mem_cons, List.mem_singleton, List.not_mem_nil, or_false] at hc
    rcases hc with hc | hc | hc <;> subst hc <;>
      exact ⟨List.length_replicate _ _, fun t ht => (List.mem_replicate.mp ht).2⟩
  · rw [h4]
    exact ⟨List.length_replicate _ _, fun t ht => (List.mem_replicate.mp ht).2⟩
  · intro k cur g record queue
    apply handler_rejected
    intro hacc
    exact absurd hacc.1 (by decide)
  · intro n schedule
    have h := token_inv_run schedule (tokens_init n) (token_inv_init n)
    constructor
    · intro hpc
      have hall : ∀ t ∈ (token_run schedule (tokens_init n)).owner, t = OWNER_DECIDER := by
        intro t ht
        obtain ⟨i, hi⟩ := List.mem_iff_getElem?.mp ht
        have := (h i t hi).2
        rw [hpc] at this
        exact this.mpr trivial
      exact ⟨hall, fun cpu => sampler_enter_excluded _ cpu hall⟩
    · intro hpc t ht
      obtain ⟨i, hi⟩ := List.mem_iff_getElem?.mp ht
      have hiff := (h i t hi).2
      rw [hpc] at hiff
      have hnd : t ≠ OWNER_DECIDER := fun hc => hiff.mp hc
      rcases (h i t hi).1 with h0 | h0 | h0
      · exact ⟨hnd, Or.inl h0⟩
      · exact ⟨hnd, Or.inr h0⟩
      · exact absurd h0 hnd

/-- C22, on two CPUs with free tokens: the three steps are stamped with
(DECIDER, DECIDER) and the tokens are (NONE, NONE) on return. -/
theorem decide_migration_window_witness :
    (decide_migration ⟨two_nodes host_ok, [⟨100, 0⟩]⟩
        ⟨1, [OWNER_NONE, OWNER_NONE], 0,
          monitor_with [⟨7, 1, 5, some 1, 0⟩, ⟨INVALID_MFN, 0, 0, none, 0⟩]⟩).calls.map
        Prod.fst =
      [[OWNER_DECIDER, OWNER_DECIDER], [OWNER_DECIDER, OWNER_DECIDER],
       [OWNER_DECIDER, OWNER_DECIDER]] ∧
    ∀ t ∈ (decide_migration ⟨two_nodes host_ok, [⟨100, 0⟩]⟩
        ⟨1, [OWNER_NONE, OWNER_NONE], 0,
          monitor_with [⟨7, 1, 5, some 1, 0⟩,
            ⟨INVALID_MFN, 0, 0, none, 0⟩]⟩).st.migration_engine_owner, t = OWNER_NONE :=
  ⟨by decide,
   (decide_migration_window ⟨two_nodes host_ok, [⟨100, 0⟩]⟩
      ⟨1, [OWNER_NONE, OWNER_NONE], 0,
        monitor_with [⟨7, 1, 5, some 1, 0⟩, ⟨INVALID_MFN, 0, 0, none, 0⟩]⟩ 0
      (by decide) (by decide)).2.2.2.1.2⟩


/-! ## Single occupancy of the fault-protection cell -/

theorem memory_move_idle (f : mm_flags) (h : move_host) (s : mm_state)
    (d : Option Nat) (gfn node : Nat) (hcell : s.cell = idle_cell)
    (hd : d ≠ none) (hgfn : gfn ≠ INVALID_GFN) :
    (memory_move f h s d gfn node).1.cell = idle_cell ∧
      (memory_move f h s d gfn node).2 ≠ outcome.blocked := by
  obtain ⟨c, tr⟩ := s
  simp only at hcell
  subst hcell
  cases hsh : h.p2m_is_shared <;> cases hv : h.mfn_valid <;>
    cases hal : h.alloc_domheap_pages <;>
    cases ht : h.paging_mode_translate <;>
    by_cases hst : h.steal_page = 0 <;>
    by_cases has : h.assign_pages_new = 0 <;>
    by_cases hold : h.assign_pages_old = 0 <;>
    simp [memory_move, __memory_move_steal, __memory_move_replace, memory_move_fail_old,
      set_memory_moved_gfn, clear_memory_moved_gfn, spin_lock, spin_unlock, mm_state.log,
      hsh, hv, hal, ht, hst, has, hold, idle_cell, hd, hgfn]

theorem memory_moves_idle (f : mm_flags) :
    ∀ (reqs : List move_request) (s : mm_state), s.cell = idle_cell →
      (∀ r ∈ reqs, r.d ≠ none ∧ r.gfn ≠ INVALID_GFN) →
      (memory_moves f reqs s).1.cell = idle_cell ∧
        (memory_moves f reqs s).2 ≠ outcome.blocked := by
  intro reqs
  induction reqs with
  | nil => intro s hs _; simp [memory_moves, hs]
  | cons r rest ih =>
    intro s hs hr
    obtain ⟨hd, hg⟩ := hr r (List.mem_cons_self _ _)
    have hm := memory_move_idle f r.host s r.d r.gfn r.node hs hd hg
    rcases hres : memory_move f r.host s r.d r.gfn r.node with ⟨s1, o⟩
    rw [hres] at hm
    cases o with
    | returned v =>
      simp only [memory_moves, hres]
      exact ih s1 hm.1 (fun x hx => hr x (List.mem_cons_of_mem _ hx))
    | bug => simp only [memory_moves, hres]; exact ⟨hm.1, by simp⟩
    | blocked => exact absurd rfl hm.2

theorem drain_entry_bound_gfn (env : drain_env) (i : Nat) (st : monitor_state) :
    ∀ c ∈ (drain_entry env i st).calls, ∀ (d : Option Nat) (gfn node : Nat),
      c.2 = drain_call.memory_move d gfn node → gfn ≠ INVALID_GFN := by
  rcases hq : st.migration_queue[i]? with _ | q
  · rw [drain_entry_none env i st hq]; simp
  · by_cases h1 : q.mfn = INVALID_MFN
    · rw [drain_entry_empty env i st q hq h1]; simp
    · by_cases h2 : q.node = env.phys_to_nid ((q.mfn <<< env.PAGE_SHIFT) % 2 ^ 64)
      · rw [drain_entry_home env i st q hq h1 h2]; simp
      · by_cases h3 : q.gfn = INVALID_GFN
        · by_cases h4 : (q.tries + 1) % 2 ^ 32 ≥ st.monitor_maxtries
          · rw [drain_entry_abort env i st q hq h1 h2 h3 h4]; simp
          · rw [drain_entry_retry env i st q hq h1 h2 h3 h4]; simp
        · rcases hm : memory_move env.flags (env.host i) ⟨st.moved, []⟩ q.domain q.gfn
            q.node with ⟨s, o⟩
          cases o with
          | returned v =>
            rw [drain_entry_move env i st q hq h1 h2 h3 s v hm]
            intro c hc d gfn node he
            simp only [List.mem_cons, List.mem_singleton, List.not_mem_nil, or_false] at hc
            rcases hc with hc | hc | hc <;> subst hc <;> simp at he
            rw [← he.2.1]; exact h3
          | bug =>
            obtain ⟨_, e2⟩ := drain_entry_stopped env i st q hq h1 h2 h3 s _ (by simp) hm
            rw [e2]
            intro c hc d gfn node he
            simp only [List.mem_singleton] at hc
            subst hc
            simp at he
            rw [← he.2.1]; exact h3
          | blocked =>
            obtain ⟨_, e2⟩ := drain_entry_stopped env i st q hq h1 h2 h3 s _ (by simp) hm
            rw [e2]
            intro c hc d gfn node he
            simp only [List.mem_singleton] at hc
            subst hc
            simp at he
            rw [← he.2.1]; exact h3

theorem drain_loop_bound_gfn (env : drain_env) :
    ∀ (n j : Nat) (st : monitor_state), ∀ c ∈ (drain_loop env n j st).calls,
      ∀ (d : Option Nat) (gfn node : Nat),
        c.2 = drain_call.memory_move d gfn node → gfn ≠ INVALID_GFN := by
  intro n
  induction n with
  | zero => intro j st c hc; simp [drain_loop] at hc
  | succ n ih =>
    intro j st c hc
    simp only [drain_loop] at hc
    split at hc
    · simp only [List.mem_append] at hc
      rcases hc with hc | hc
      · exact drain_entry_bound_gfn env j st c hc
      · exact ih (j + 1) _ c hc
    · exact drain_entry_bound_gfn env j st c hc

/-- C23: single occupancy of the fault-protection cell.  Start from the idle cell
(GFN `INVALID_GFN`, domain `NULL`, both locks free, no ASSERT failed so far) and
run any sequence of `memory_move` calls whose domain is not `NULL` and whose GFN
is not `INVALID_GFN`, whatever the host answers in each call.  After every
number `k` of calls the run has not stalled on a lock, and the cell is the idle
cell again: both locks released, GFN `INVALID_GFN`, domain `NULL`, and the ghost
flag that every ASSERT of `set_memory_moved_gfn` and `clear_memory_moved_gfn`
evaluated so far held is still true; this includes the runs that end in
`BUG()`.  And every `memory_move` call made by a `drain_migration_queue` pass
has a GFN different from `INVALID_GFN`. -/
theorem memory_move_single_occupancy (f : mm_flags) (reqs : List move_request)
    (trace : List mm_logged)
    (hreqs : ∀ r ∈ reqs, r.d ≠ none ∧ r.gfn ≠ INVALID_GFN) :
    (∀ k : Nat,
      (memory_moves f (reqs.take k) ⟨idle_cell, trace⟩).2 ≠ outcome.blocked ∧
      (memory_moves f (reqs.take k) ⟨idle_cell, trace⟩).1.cell = idle_cell ∧
      locks_free (memory_moves f (reqs.take k) ⟨idle_cell, trace⟩).1.cell ∧
      (memory_moves f (reqs.take k) ⟨idle_cell, trace⟩).1.cell.memory_moved_gfn =
        INVALID_GFN ∧
      (memory_moves f (reqs.take k) ⟨idle_cell, trace⟩).1.cell.memory_moved_domain =
        none ∧
      (memory_moves f (reqs.take k) ⟨idle_cell, trace⟩).1.cell.asserts_held = true) ∧
    (∀ (env : drain_env) (st : monitor_state),
      ∀ c ∈ (drain_migration_queue env st).calls, ∀ (d : Option Nat) (gfn node : Nat),
        c.2 = drain_call.memory_move d gfn node → gfn ≠ INVALID_GFN) := by
  refine ⟨fun k => ?_, fun env st => drain_loop_bound_gfn env _ 0 st⟩
  obtain ⟨hc, hb⟩ := memory_moves_idle f (reqs.take k) ⟨idle_cell, trace⟩ rfl
    (fun r hr => hreqs r (List.mem_of_mem_take hr))
  refine ⟨hb, hc, ?_⟩
  rw [hc]
  exact ⟨by decide, rfl, rfl, rfl⟩

theorem memory_move_single_occupancy_witness :
    (∀ r ∈ [(⟨host_ok, some 1, 5, 1⟩ : move_request), ⟨host_no_memory, some 1, 6, 1⟩,
        ⟨host_shared, some 2, 7, 0⟩],
      r.d ≠ none ∧ r.gfn ≠ INVALID_GFN) ∧
    (memory_moves xen_flags
      [(⟨host_ok, some 1, 5, 1⟩ : move_request), ⟨host_no_memory, some 1, 6, 1⟩,
        ⟨host_shared, some 2, 7, 0⟩] ⟨idle_cell, []⟩).1.cell = idle_cell :=
  ⟨by decide,
    ((memory_move_single_occupancy xen_flags
      [(⟨host_ok, some 1, 5, 1⟩ : move_request), ⟨host_no_memory, some 1, 6, 1⟩,
        ⟨host_shared, some 2, 7, 0⟩] [] (by decide)).1 3).2.1⟩


/-! ## The score setter -/

theorem lists_params_append (a b : List control_call) :
    lists_params (a ++ b) = lists_params a ++ lists_params b := by
  simp [lists_params, List.filterMap_append]

theorem lists_params_free (k : control_consts) (st : control_state) :
    lists_params (free_migration_queue k st).2 = [] := by
  unfold free_migration_queue
  split <;> simp [lists_params]

theorem lists_params_ibs (k : control_consts) (h : start_host) :
    lists_params (enable_monitoring_ibs k h).1 = [] := by
  by_cases hr : h.ibs_acquire = 0 <;> simp [enable_monitoring_ibs, lists_params, hr]

theorem lists_params_sources (k : control_consts) (h : start_host) (st : control_state)
    (calls : List control_call) :
    lists_params (start_sources k h st calls).calls = lists_params calls := by
  have hf := lists_params_free k st
  have hi := lists_params_ibs k h
  have hp : lists_params enable_monitoring_pebs.1 = [] := by
    simp [enable_monitoring_pebs, lists_params]
  have h1 : lists_params [control_call.ibs_capable] = [] := by simp [lists_params]
  have h2 : lists_params [control_call.pebs_capable] = [] := by simp [lists_params]
  have h3 : lists_params [control_call.stats_start] = [] := by simp [lists_params]
  have h4 : lists_params [control_call.free_migration_engine] = [] := by
    simp [lists_params]
  unfold start_sources
  simp only []
  split_ifs <;> simp only [lists_params_append, hf, hi, hp, h1, h2, h3, h4, List.append_nil]

/-- C24, the claim as stated fails: `monitor_migration_setscores(80, 6, 4, 75)` on
a running monitor calls `param_migration_lists(80, 6, 4, 75)` although
`80 > 75`; on a stopped monitor it stores 80 and 75, and the next
`start_monitoring` that reaches the engine calls
`param_migration_lists(80, 6, 4, 75)`. -/
theorem monitor_migration_setscores_unchecked :
    (monitor_migration_setscores running_monitor 80 6 4 75).calls =
      [control_call.param_migration_lists 80 6 4 75] ∧
    (monitor_migration_setscores stopped_monitor 80 6 4 75).calls = [] ∧
    (monitor_migration_setscores stopped_monitor 80 6 4 75).st.monitor_enter = 80 ∧
    (monitor_migration_setscores stopped_monitor 80 6 4 75).st.monitor_maximum = 75 ∧
    lists_params (start_monitoring xen_control start_host_ok
      (monitor_migration_setscores stopped_monitor 80 6 4 75).st).calls =
      [(80, 6, 4, 75)] ∧
    ¬ (80 ≤ 75) := by
  decide

/-- C24, amended: `monitor_migration_setscores(enter, increment, decrement,
maximum)` returns 0, stores the four values unchanged and changes no other
global; while monitoring runs it calls `param_migration_lists` once, with the
four arguments as given; while monitoring is stopped it calls nothing, and a
later `start_monitoring` for which the queue and the engine are allocated calls
`param_migration_lists` once, with the four stored values.  No comparison of
`enter` with `maximum` is made anywhere. -/
theorem monitor_migration_setscores_forwards (k : control_consts) (h : start_host)
    (st : control_state) (enter increment decrement maximum : Nat) :
    (monitor_migration_setscores st enter increment decrement maximum).ret = 0 ∧
    (monitor_migration_setscores st enter increment decrement maximum).st =
      { st with
        monitor_enter := enter
        monitor_increment := increment
        monitor_decrement := decrement
        monitor_maximum := maximum } ∧
    (st.monitoring_started ≠ 0 →
      (monitor_migration_setscores st enter increment decrement maximum).calls =
        [control_call.param_migration_lists enter increment decrement maximum]) ∧
    (st.monitoring_started = 0 →
      (monitor_migration_setscores st enter increment decrement maximum).calls = [] ∧
      (h.alloc_xenheap_pages ≠ none → h.alloc_migration_engine = 0 →
        lists_params (start_monitoring k h
          (monitor_migration_setscores st enter increment decrement maximum).st).calls =
          [(enter, increment, decrement, maximum)])) := by
  by_cases hs : st.monitoring_started = 0
  · refine ⟨by simp [monitor_migration_setscores, hs],
      by simp [monitor_migration_setscores, hs], fun hne => absurd hs hne, fun _ => ?_⟩
    refine ⟨by simp [monitor_migration_setscores, hs], fun ha he => ?_⟩
    have hst : (monitor_migration_setscores st enter increment decrement maximum).st =
        { st with
          monitor_enter := enter
          monitor_increment := increment
          monitor_decrement := decrement
          monitor_maximum := maximum } := by
      simp [monitor_migration_setscores, hs]
    rw [hst]
    obtain ⟨b, hb⟩ := Option.ne_none_iff_exists'.mp ha
    simp [start_monitoring, hs, alloc_migration_queue, hb, he, init_migration_queue,
      lists_params_sources]
    simp [lists_params]
  · refine ⟨?_, ?_, fun _ => ?_, fun h0 => absurd h0 hs⟩ <;>
      simp [monitor_migration_setscores, hs]


/-! ## Balance of the gfn reference -/

theorem steal_balance (f : mm_flags) (h : move_host) (s : mm_state) (d : Option Nat)
    (gfn : Nat) :
    ((__memory_move_steal f h s d gfn).2 = none ↔
      (h.p2m_is_shared = true ∨ h.mfn_valid = false ∨ h.steal_page ≠ 0)) ∧
    (∀ page, (__memory_move_steal f h s d gfn).2 = some page →
      page = mfn_to_page h.get_gfn_unshare ∧
      gfn_gets d gfn (__memory_move_steal f h s d gfn).1.trace =
        gfn_gets d gfn s.trace + 1 ∧
      gfn_puts d gfn (__memory_move_steal f h s d gfn).1.trace =
        gfn_puts d gfn s.trace) ∧
    ((__memory_move_steal f h s d gfn).2 = none →
      gfn_gets d gfn (__memory_move_steal f h s d gfn).1.trace =
        gfn_gets d gfn s.trace + 1 ∧
      gfn_puts d gfn (__memory_move_steal f h s d gfn).1.trace =
        gfn_puts d gfn s.trace + 1) := by
  cases hsh : h.p2m_is_shared <;> cases hv : h.mfn_valid <;>
    by_cases hst : h.steal_page = 0 <;>
    simp [__memory_move_steal, mm_state.log, gfn_gets, gfn_puts, List.filter_append,
      hsh, hv, hst]

theorem replace_balance (f : mm_flags) (h : move_host) (s : mm_state)
    (d : Option Nat) (gfn : Nat) (old new : page_info) :
    gfn_gets d gfn (__memory_move_replace f h s d gfn old new).1.trace =
        gfn_gets d gfn s.trace ∧
      gfn_puts d gfn (__memory_move_replace f h s d gfn old new).1.trace =
        gfn_puts d gfn s.trace := by
  cases hl : s.cell.memory_moved_spinlock <;> cases hw : s.cell.memory_moved_waiter <;>
    cases ht : h.paging_mode_translate <;>
    by_cases has : h.assign_pages_new = 0 <;>
    simp [__memory_move_replace, set_memory_moved_gfn, clear_memory_moved_gfn, spin_lock,
      spin_unlock, mm_state.log, gfn_gets, gfn_puts, List.filter_append, hl, hw, ht, has]

theorem fail_old_balance (f : mm_flags) (h : move_host) (s : mm_state)
    (d : Option Nat) (gfn : Nat) (old : page_info) :
    gfn_gets d gfn (memory_move_fail_old f h s d gfn old).1.trace =
        gfn_gets d gfn s.trace ∧
      gfn_puts d gfn (memory_move_fail_old f h s d gfn old).1.trace =
        gfn_puts d gfn s.trace + 1 := by
  by_cases hold : h.assign_pages_old = 0 <;>
    simp [memory_move_fail_old, mm_state.log, gfn_gets, gfn_puts, List.filter_append, hold]

theorem log_other_balance (s : mm_state) (d : Option Nat) (gfn : Nat) (c : mm_call)
    (h1 : c ≠ mm_call.get_gfn_unshare d gfn) (h2 : c ≠ mm_call.put_gfn d gfn) :
    gfn_gets d gfn (s.log c).trace = gfn_gets d gfn s.trace ∧
      gfn_puts d gfn (s.log c).trace = gfn_puts d gfn s.trace := by
  simp [mm_state.log, gfn_gets, gfn_puts, List.filter_append, h1, h2]

theorem log_put_balance (s : mm_state) (d : Option Nat) (gfn : Nat) :
    gfn_gets d gfn (s.log (mm_call.put_gfn d gfn)).trace = gfn_gets d gfn s.trace ∧
      gfn_puts d gfn (s.log (mm_call.put_gfn d gfn)).trace =
        gfn_puts d gfn s.trace + 1 := by
  simp [mm_state.log, gfn_gets, gfn_puts, List.filter_append]

theorem memory_move_balance (f : mm_flags) (h : move_host) (s : mm_state)
    (d : Option Nat) (gfn node : Nat) :
    (memory_move f h s d gfn node).2 ≠ outcome.blocked →
      gfn_gets d gfn (memory_move f h s d gfn node).1.trace =
        gfn_gets d gfn s.trace + 1 ∧
      gfn_puts d gfn (memory_move f h s d gfn node).1.trace =
        gfn_puts d gfn s.trace + 1 := by
  have sb := steal_balance f h s d gfn
  rcases hs : __memory_move_steal f h s d gfn with ⟨s1, o⟩
  rw [hs] at sb
  cases o with
  | none =>
    intro _
    simp only [memory_move, hs]
    exact sb.2.2 rfl
  | some old =>
    obtain ⟨_, hg1, hp1⟩ := sb.2.1 old rfl
    simp only at hg1 hp1
    have ha := log_other_balance s1 d gfn
      (mm_call.alloc_domheap_pages none 0 (move_memflags f h node)) (by simp) (by simp)
    cases hal : h.alloc_domheap_pages with
    | none =>
      intro _
      simp only [memory_move, hs, hal]
      have hf := fail_old_balance f h
        (s1.log (mm_call.alloc_domheap_pages none 0 (move_memflags f h node))) d gfn old
      rw [hf.1, hf.2, ha.1, ha.2, hg1, hp1]
      exact ⟨rfl, rfl⟩
    | some new =>
      have hr := replace_balance f h
        (s1.log (mm_call.alloc_domheap_pages none 0 (move_memflags f h node))) d gfn old new
      rcases hrep : __memory_move_replace f h
        (s1.log (mm_call.alloc_domheap_pages none 0 (move_memflags f h node))) d gfn old
        new with ⟨s3, o3⟩
      rw [hrep] at hr
      simp only at hr
      cases o3 with
      | returned r =>
        intro _
        simp only [memory_move, hs, hal, hrep]
        by_cases h0 : r = 0
        · rw [if_neg (not_not.mpr h0)]
          have hp := log_put_balance s3 d gfn
          simp only
          rw [hp.1, hp.2, hr.1, hr.2, ha.1, ha.2, hg1, hp1]
          exact ⟨rfl, rfl⟩
        · rw [if_pos h0]
          have hfr := log_other_balance s3 d gfn (mm_call.free_domheap_pages new 0)
            (by simp) (by simp)
          have hf := fail_old_balance f h (s3.log (mm_call.free_domheap_pages new 0)) d gfn
            old
          rw [hf.1, hf.2, hfr.1, hfr.2, hr.1, hr.2, ha.1, ha.2, hg1, hp1]
          exact ⟨rfl, rfl⟩
      | bug =>
        intro _
        simp only [memory_move, hs, hal, hrep]
        exfalso
        have hne : (__memory_move_replace f h
          (s1.log (mm_call.alloc_domheap_pages none 0 (move_memflags f h node))) d gfn old
          new).2 ≠ outcome.bug := by
          unfold __memory_move_replace
          simp only []
          split_ifs <;> (try split) <;> (try split) <;> simp
        rw [hrep] at hne
        exact hne rfl
      | blocked =>
        intro hb
        simp only [memory_move, hs, hal, hrep] at hb
        exact absurd rfl hb

theorem memory_move_not_blocked (f : mm_flags) (h : move_host) (s : mm_state)
    (d : Option Nat) (gfn node : Nat) (hfree : locks_free s.cell) :
    (memory_move f h s d gfn node).2 ≠ outcome.blocked := by
  obtain ⟨hl, hw⟩ := hfree
  cases hsh : h.p2m_is_shared <;> cases hv : h.mfn_valid <;>
    cases hal : h.alloc_domheap_pages <;>
    cases ht : h.paging_mode_translate <;>
    by_cases hst : h.steal_page = 0 <;>
    by_cases has : h.assign_pages_new = 0 <;>
    by_cases hold : h.assign_pages_old = 0 <;>
    simp [memory_move, __memory_move_steal, __memory_move_replace, memory_move_fail_old,
      set_memory_moved_gfn, clear_memory_moved_gfn, spin_lock, spin_unlock, mm_state.log,
      hl, hw, hsh, hv, hal, ht, hst, has, hold]


/-- C25: balance of the gfn reference.  `__memory_move_steal` takes the reference
once (`get_gfn_unshare(d, gfn)`); it returns `NULL` exactly on its three failure
causes (shared page, invalid MFN, `steal_page` failed), and then it has released
the reference once (`put_gfn(d, gfn)`); when it returns a page, that is
`mfn_to_page` of the MFN found and the reference is still held (no `put_gfn`).
On every path of `memory_move` that is not stalled on a cell lock (steal
failure, allocation failure, assignment failure, success, and the path that ends
in `BUG()`), the call log gains exactly one `get_gfn_unshare(d, gfn)` and exactly
one `put_gfn(d, gfn)`; with both cell locks free at entry the call is never
stalled, and it returns whenever `assign_pages` accepts the old page back. -/
theorem memory_move_gfn_reference (f : mm_flags) (h : move_host) (s : mm_state)
    (d : Option Nat) (gfn node : Nat) :
    ((__memory_move_steal f h s d gfn).2 = none ↔
      (h.p2m_is_shared = true ∨ h.mfn_valid = false ∨ h.steal_page ≠ 0)) ∧
    (∀ page, (__memory_move_steal f h s d gfn).2 = some page →
      page = mfn_to_page h.get_gfn_unshare ∧
      gfn_gets d gfn (__memory_move_steal f h s d gfn).1.trace =
        gfn_gets d gfn s.trace + 1 ∧
      gfn_puts d gfn (__memory_move_steal f h s d gfn).1.trace =
        gfn_puts d gfn s.trace) ∧
    ((__memory_move_steal f h s d gfn).2 = none →
      gfn_gets d gfn (__memory_move_steal f h s d gfn).1.trace =
        gfn_gets d gfn s.trace + 1 ∧
      gfn_puts d gfn (__memory_move_steal f h s d gfn).1.trace =
        gfn_puts d gfn s.trace + 1) ∧
    ((memory_move f h s d gfn node).2 ≠ outcome.blocked →
      gfn_gets d gfn (memory_move f h s d gfn node).1.trace =
        gfn_gets d gfn s.trace + 1 ∧
      gfn_puts d gfn (memory_move f h s d gfn node).1.trace =
        gfn_puts d gfn s.trace + 1) ∧
    (locks_free s.cell → (memory_move f h s d gfn node).2 ≠ outcome.blocked) ∧
    (locks_free s.cell → h.assign_pages_old = 0 →
      ∃ v, (memory_move f h s d gfn node).2 = outcome.returned v) := by
  obtain ⟨h1, h2, h3⟩ := steal_balance f h s d gfn
  refine ⟨h1, h2, h3, memory_move_balance f h s d gfn node,
    memory_move_not_blocked f h s d gfn node, fun hfree hold => ?_⟩
  obtain ⟨s2, v, hm, _⟩ := memory_move_returns f h s d gfn node hfree hold
  exact ⟨v, by rw [hm]⟩


/-! ## The success counter of the drain pass -/

/-- C26, the code at the failing input: a pass over a queue whose only slot holds
frame 7 (on node 0) bound to GFN 5 of domain 1 and planned for node 1, on a host
where every step of the move succeeds.  `memory_move` returns 20, the MFN of the
new page, which is not `INVALID_MFN`; the pass calls `memory_move` once and
accounts the try with `ret = 20`; afterwards `migration_tries` is 1 and
`migration_succeed` is still 0. -/
theorem drain_migration_queue_success_uncounted :
    (memory_move xen_flags host_ok ⟨idle_cell, []⟩ (some 1) 5 1).2 =
      outcome.returned 20 ∧
    20 ≠ INVALID_MFN ∧
    (drain_migration_queue (two_nodes host_ok)
        (monitor_with [⟨7, 1, 5, some 1, 0⟩])).calls =
      [(0, drain_call.memory_move (some 1) 5 1),
       (0, drain_call.stats_account_migration_try 20),
       (0, drain_call.register_page_moved 7)] ∧
    (drain_migration_queue (two_nodes host_ok)
        (monitor_with [⟨7, 1, 5, some 1, 0⟩])).st.migration_tries = 1 ∧
    (drain_migration_queue (two_nodes host_ok)
        (monitor_with [⟨7, 1, 5, some 1, 0⟩])).st.migration_succeed = 0 := by
  decide


/-! ## Empty slots and the sampler -/

theorem sampled_mfn_valid (addr shift : Nat) (haddr : addr < 2 ^ 64) (hshift : 1 ≤ shift) :
    addr >>> shift ≠ INVALID_MFN := by
  rw [Nat.shiftRight_eq_div_pow]
  have h2 : 2 ^ 1 ≤ 2 ^ shift := Nat.pow_le_pow_right (by decide) hshift
  have h3 : addr / 2 ^ shift ≤ addr / 2 ^ 1 := Nat.div_le_div_left h2 (by decide)
  have h4 : addr / 2 ^ 1 < 2 ^ 63 := by
    rw [Nat.div_lt_iff_lt_mul (by decide)]
    calc addr < 2 ^ 64 := haddr
      _ = 2 ^ 63 * 2 ^ 1 := by decide
  have h5 : INVALID_MFN = 2 ^ 64 - 1 := rfl
  have h6 : (2 : Nat) ^ 63 ≤ 2 ^ 64 - 1 := by decide
  omega

theorem probe_slot_skips (cur : current_vcpu) (vaddr mfn : Nat) (g : Nat → Nat)
    (i : Nat) (s : migration_query) (h : s.mfn ≠ mfn) :
    probe_slot cur vaddr mfn g i s = (s, []) := by
  unfold probe_slot
  rw [if_pos h]

/-- C27: the sampler never binds an empty slot.  For a 64-bit
`data_physical_address` and `PAGE_SHIFT >= 1`, the sampled MFN
`data_physical_address >> PAGE_SHIFT` is not `INVALID_MFN` (all ones).  So the
loop body of `ibs_nmi_handler` at a slot marked empty (MFN `INVALID_MFN`) does
not match: it makes no call and leaves the slot as it is; and whatever the
sample, the token and the probe answers, a slot marked empty is the same slot
after `ibs_nmi_handler`, GFN and domain included. -/
theorem ibs_nmi_handler_skips_empty (k : ibs_consts) (cur : current_vcpu)
    (g : Nat → Nat) (record : ibs_record) (owner : Nat) (queue : List migration_query)
    (haddr : record.data_physical_address < 2 ^ 64) (hshift : 1 ≤ k.PAGE_SHIFT) :
    record.data_physical_address >>> k.PAGE_SHIFT ≠ INVALID_MFN ∧
    (∀ (i : Nat) (s : migration_query), s.mfn = INVALID_MFN →
      probe_slot cur record.data_linear_address
        (record.data_physical_address >>> k.PAGE_SHIFT) g i s = (s, [])) ∧
    (∀ (i : Nat) (s : migration_query), queue[i]? = some s → s.mfn = INVALID_MFN →
      (ibs_nmi_handler k cur g record owner queue).queue[i]? = some s) := by
  have hv := sampled_mfn_valid record.data_physical_address k.PAGE_SHIFT haddr hshift
  have hskip : ∀ (i : Nat) (s : migration_query), s.mfn = INVALID_MFN →
      probe_slot cur record.data_linear_address
        (record.data_physical_address >>> k.PAGE_SHIFT) g i s = (s, []) := by
    intro i s hs
    exact probe_slot_skips cur _ _ g i s (by rw [hs]; exact fun e => hv e.symm)
  refine ⟨hv, hskip, ?_⟩
  intro i s hq hs
  by_cases h : sample_accepted k cur record owner
  · rw [handler_accepted k cur g record owner queue h]
    simp only
    rw [probe_slots_get, hq]
    simp only [Option.map_some', Nat.zero_add]
    rw [hskip i s hs]
  · rw [handler_rejected k cur g record owner queue h]
    exact hq

theorem ibs_nmi_handler_skips_empty_witness :
    sample_frame7.data_physical_address < 2 ^ 64 ∧ 1 ≤ xen_ibs.PAGE_SHIFT ∧
    (ibs_nmi_handler xen_ibs hvm_vcpu (fun _ => 3) sample_frame7 OWNER_NONE
      [⟨7, 1, INVALID_GFN, none, 0⟩, ⟨INVALID_MFN, 0, INVALID_GFN, none, 0⟩]).queue[1]? =
      some ⟨INVALID_MFN, 0, INVALID_GFN, none, 0⟩ :=
  ⟨by decide, by decide,
    (ibs_nmi_handler_skips_empty xen_ibs hvm_vcpu (fun _ => 3) sample_frame7 OWNER_NONE
      [⟨7, 1, INVALID_GFN, none, 0⟩, ⟨INVALID_MFN, 0, INVALID_GFN, none, 0⟩]
      (by decide) (by decide)).2.2 1 ⟨INVALID_MFN, 0, INVALID_GFN, none, 0⟩ rfl rfl⟩


/-! ## Page counts in memory_exchange -/

theorem shift_no_wrap (n o : Nat) (h : ¬ ((2 ^ 64 - 1) >>> o < n)) :
    n * 2 ^ o < 2 ^ 64 ∧ (n <<< o) % 2 ^ 64 = n * 2 ^ o := by
  rw [Nat.shiftRight_eq_div_pow] at h
  have hpos : 0 < 2 ^ o := Nat.pow_pos (by decide)
  have h1 : n * 2 ^ o ≤ 2 ^ 64 - 1 := (Nat.le_div_iff_mul_le hpos).mp (Nat.le_of_not_lt h)
  have h2 : (0 : Nat) < 2 ^ 64 := by decide
  have h3 : n * 2 ^ o < 2 ^ 64 := by omega
  exact ⟨h3, by rw [Nat.shiftLeft_eq, Nat.mod_eq_of_lt h3]⟩

theorem one_shift_no_wrap (o : Nat) (h : o < 64) : (1 <<< o) % 2 ^ 64 = 2 ^ o := by
  rw [Nat.shiftLeft_eq, Nat.one_mul]
  exact Nat.mod_eq_of_lt (Nat.pow_lt_pow_right (by decide) h)

theorem chunk_orders_balance (e : memory_exchange_args) :
    2 ^ (exchange_chunk_orders e).1 * 2 ^ e.in_extent_order =
      2 ^ (exchange_chunk_orders e).2 * 2 ^ e.out_extent_order := by
  unfold exchange_chunk_orders
  by_cases h : e.in_extent_order ≤ e.out_extent_order
  · rw [if_pos h]
    simp only
    rw [← pow_add, ← pow_add, Nat.sub_add_cancel h, Nat.zero_add]
  · rw [if_neg h]
    simp only
    rw [← pow_add, ← pow_add, Nat.sub_add_cancel (Nat.le_of_not_le h), Nat.zero_add]

theorem chunk_orders_le (e : memory_exchange_args) :
    (exchange_chunk_orders e).1 ≤ e.out_extent_order ∧
      (exchange_chunk_orders e).2 ≤ e.in_extent_order := by
  unfold exchange_chunk_orders
  by_cases h : e.in_extent_order ≤ e.out_extent_order
  · rw [if_pos h]; exact ⟨Nat.sub_le _ _, Nat.zero_le _⟩
  · rw [if_neg h]; exact ⟨Nat.zero_le _, Nat.sub_le _ _⟩

/-- C28: page-count conservation in `memory_exchange`.  For a request that passes
the sanity checks (with `MAX_ORDER` below the width of an `unsigned long`), both
extent orders are at most `MAX_ORDER`, neither `nr_extents << extent_order`
wraps modulo `2^64`, and `in.nr_extents * 2^in.extent_order` equals
`out.nr_extents * 2^out.extent_order` as unbounded integers.  The chunk orders
chosen satisfy `2^in_chunk_order * 2^in.extent_order = 2^out_chunk_order *
2^out.extent_order`, the loop bounds `1UL << order` do not wrap, and the number
of pages stolen for a chunk equals the number of pages allocated for it. -/
theorem memory_exchange_conserves_pages (MAX_ORDER : Nat) (e : memory_exchange_args)
    (hmax : MAX_ORDER < 64) (hok : exchange_sanity_fails MAX_ORDER e = false) :
    e.in_extent_order ≤ MAX_ORDER ∧ e.out_extent_order ≤ MAX_ORDER ∧
    (e.in_nr_extents <<< e.in_extent_order) % 2 ^ 64 =
      e.in_nr_extents * 2 ^ e.in_extent_order ∧
    (e.out_nr_extents <<< e.out_extent_order) % 2 ^ 64 =
      e.out_nr_extents * 2 ^ e.out_extent_order ∧
    e.in_nr_extents * 2 ^ e.in_extent_order < 2 ^ 64 ∧
    e.in_nr_extents * 2 ^ e.in_extent_order =
      e.out_nr_extents * 2 ^ e.out_extent_order ∧
    2 ^ (exchange_chunk_orders e).1 * 2 ^ e.in_extent_order =
      2 ^ (exchange_chunk_orders e).2 * 2 ^ e.out_extent_order ∧
    chunk_pages_stolen e = 2 ^ (exchange_chunk_orders e).1 * 2 ^ e.in_extent_order ∧
    chunk_pages_allocated e =
      2 ^ (exchange_chunk_orders e).2 * 2 ^ e.out_extent_order ∧
    chunk_pages_stolen e = chunk_pages_allocated e := by
  unfold exchange_sanity_fails at hok
  simp only [Bool.or_eq_false_iff, decide_eq_false_iff_not, not_not] at hok
  obtain ⟨⟨⟨⟨⟨⟨_, _⟩, hi⟩, ho⟩, hin⟩, hout⟩, heq⟩ := hok
  have hi2 : e.in_extent_order ≤ MAX_ORDER := Nat.le_of_not_lt hi
  have ho2 : e.out_extent_order ≤ MAX_ORDER := Nat.le_of_not_lt ho
  obtain ⟨hlt, hsi⟩ := shift_no_wrap e.in_nr_extents e.in_extent_order hin
  obtain ⟨_, hso⟩ := shift_no_wrap e.out_nr_extents e.out_extent_order hout
  obtain ⟨hc1, hc2⟩ := chunk_orders_le e
  have hst : chunk_pages_stolen e =
      2 ^ (exchange_chunk_orders e).1 * 2 ^ e.in_extent_order := by
    unfold chunk_pages_stolen
    rw [one_shift_no_wrap _ (by omega), one_shift_no_wrap _ (by omega)]
  have hal : chunk_pages_allocated e =
      2 ^ (exchange_chunk_orders e).2 * 2 ^ e.out_extent_order := by
    unfold chunk_pages_allocated
    rw [one_shift_no_wrap _ (by omega)]
  refine ⟨hi2, ho2, hsi, hso, hlt, ?_, chunk_orders_balance e, hst, hal, ?_⟩
  · rw [← hsi, ← hso]; exact heq
  · rw [hst, hal]; exact chunk_orders_balance e

theorem memory_exchange_conserves_pages_witness :
    (20 : Nat) < 64 ∧ exchange_sanity_fails 20 ⟨0, 8, 1, 3, 4, 2, 3⟩ = false ∧
    chunk_pages_stolen ⟨0, 8, 1, 3, 4, 2, 3⟩ = chunk_pages_allocated ⟨0, 8, 1, 3, 4, 2, 3⟩ :=
  ⟨by decide, by decide,
    (memory_exchange_conserves_pages 20 ⟨0, 8, 1, 3, 4, 2, 3⟩ (by decide)
      (by decide)).2.2.2.2.2.2.2.2.2⟩


/-! ## The order of the queue block at release -/

/-- C17, the code at the failing input: `start_monitoring` from the stopped state
with 300 queue slots, 40 bytes per `struct migration_query` and 24 bytes per
`struct hotlist_entry`, on a host that allocates the queue at address 4096 and
refuses the engine.  The call returns -1 with `monitoring_started` 0 and the
queue pointer NULL, and its calls are exactly the listed ones: the block is
allocated with order 2 (12000 bytes) and handed to `free_xenheap_pages` with
order 1 (7200 bytes), so the block of order 2 is not released as allocated. -/
theorem start_monitoring_free_order_mismatch :
    (start_monitoring xen_control start_host_no_engine_300 stopped_monitor_300).ret = -1 ∧
    (start_monitoring xen_control start_host_no_engine_300
      stopped_monitor_300).st.monitoring_started = 0 ∧
    (start_monitoring xen_control start_host_no_engine_300
      stopped_monitor_300).st.migration_queue = none ∧
    (start_monitoring xen_control start_host_no_engine_300 stopped_monitor_300).calls =
      [control_call.reset_stats,
       control_call.alloc_xenheap_pages 2 0,
       control_call.alloc_migration_engine 4 6 300,
       control_call.free_xenheap_pages 4096 1] ∧
    xen_control.get_order_from_bytes
        ((300 * xen_control.sizeof_migration_query) % 2 ^ 64) = 2 ∧
    xen_control.get_order_from_bytes
        ((300 * xen_control.sizeof_hotlist_entry) % 2 ^ 64) = 1 := by
  decide

end XenTokyo
